import Mathlib

/-!
# UTA kernel autotuner: embedding of `src/core`

The definitions below transcribe `autotuner.cpp`, `tuner.hpp`,
`memory_optimizer.hpp`, `instruction_scheduler.hpp`, `ptx_compiler.cpp`,
`runtime/task.hpp`, `runtime/scheduler.hpp` and `device_manager.cpp`.

Conventions of the embedding.

* `size_t` and `unsigned` values are natural numbers, `int64_t` values are
  integers, `std::vector` is `List`, `std::string` is `String`.
* The C++ types `float` and `double` are the type parameters `F` and `D`: the
  code under study stores and forwards such values and never computes with
  them.  Concrete runs instantiate both with `Int` (small integers are exact
  in either format).
* A C++ call that may read or update hidden state (the random generator, the
  singletons, the captured state of a `std::function`) and that either returns
  or throws is a function `σ → Except ε α × σ` (`Eff σ ε α`): `σ` is the hidden
  state, `ε` the type of exceptions.  The state is kept when a call throws.
* Member functions that are called or declared but have no body in the
  repository (`initializePopulation`, `selection`, `crossover`, `mutation`,
  `findBestConfig`, `MemoryOptimizer::optimizeAccessPattern`,
  `InstructionScheduler::optimizeScheduling`) are parameters of the functions
  that call them.
* Runs are instrumented with a log of the calls of interest, kept next to the
  hidden state in a `World`; no embedded function reads the log.
* The scheduling passes, list scheduling and the access-pattern rewrite have
  no code in the repository at all; their definitions follow the specification
  and say so.
-/

namespace Uta

/-! ## Data model (`tuner.hpp`, `memory_optimizer.hpp`, `instruction_scheduler.hpp`) -/

/-- The launch-dimension triple used for `grid_dim` and `block_dim`.  The type
is not declared in the repository; its three unsigned components are kept. -/
structure dim3 where
  x : Nat
  y : Nat
  z : Nat
deriving DecidableEq, Repr

/-- The struct `TuningParameter` of tuner.hpp. -/
structure TuningParameter (D : Type) where
  name : String
  possible_values : List Int
  current_value : Int
  impact_score : D
deriving DecidableEq, Repr

/-- The struct `KernelConfig` of tuner.hpp. -/
structure KernelConfig (D : Type) where
  grid_dim : dim3
  block_dim : dim3
  shared_memory_size : Nat
  parameters : List (TuningParameter D)
deriving DecidableEq, Repr

/-- The struct `TuningResult` of tuner.hpp. -/
structure TuningResult (D : Type) where
  best_config : KernelConfig D
  performance_metric : D
  optimization_log : String
deriving DecidableEq, Repr

/-- The struct `AutoTuner::TuningConstraints` of tuner.hpp. -/
structure TuningConstraints where
  max_shared_memory : Nat
  max_registers_per_thread : Nat
  min_occupancy : Nat
deriving DecidableEq, Repr

/-- The struct `AutoTuner::GeneticParams` of tuner.hpp. -/
structure GeneticParams (F : Type) where
  population_size : Nat
  num_generations : Nat
  mutation_rate : F
  crossover_rate : F
deriving DecidableEq, Repr

/-- The enum `MemoryAccessPattern::Type` of memory_optimizer.hpp, in declaration order. -/
inductive PatternType where
  | SEQUENTIAL
  | STRIDED
  | RANDOM
  | COALESCED
  | BROADCAST
deriving DecidableEq, Repr

/-- The struct `MemoryAccessPattern` of memory_optimizer.hpp. -/
structure MemoryAccessPattern (F : Type) where
  pattern_type : PatternType
  stride_size : Nat
  coalescence_rate : F
  has_bank_conflicts : Bool
deriving DecidableEq, Repr

/-- The struct `MemoryOptimizer::AccessOptimization` of memory_optimizer.hpp. -/
structure AccessOptimization (F : Type) where
  ptx_code : String
  optimization_steps : List String
  estimated_improvement : F
deriving DecidableEq, Repr

/-- The struct `InstructionScheduler::SchedulingResult` of instruction_scheduler.hpp. -/
structure SchedulingResult (F : Type) where
  optimized_ptx : String
  estimated_speedup : F
  optimization_steps : List String
deriving DecidableEq, Repr

/-- The struct `AutoTunerImpl::KernelFeatures` of autotuner.cpp. -/
structure KernelFeatures where
  compute_intensity : Nat
  memory_access_pattern : Nat
  register_usage : Nat
  shared_memory_usage : Nat
deriving DecidableEq, Repr

/-- The value `KernelConfig{}`: every member value-initialised.  `d0` is the
value of a value-initialised `dim3`, which depends on the declaration of
`dim3` that the repository does not contain. -/
def KernelConfig.init {D : Type} (d0 : dim3) : KernelConfig D :=
  { grid_dim := d0, block_dim := d0, shared_memory_size := 0, parameters := [] }

/-- The value `MemoryAccessPattern{}`: the first enumerator and zeroes. -/
def MemoryAccessPattern.init {F : Type} [Zero F] : MemoryAccessPattern F :=
  { pattern_type := PatternType.SEQUENTIAL, stride_size := 0,
    coalescence_rate := 0, has_bank_conflicts := false }

/-- The value `KernelFeatures{}`. -/
def KernelFeatures.init : KernelFeatures :=
  { compute_intensity := 0, memory_access_pattern := 0, register_usage := 0,
    shared_memory_usage := 0 }

/-! ## Effects and instrumentation -/

/-- A call that may update the hidden state `σ` and returns a value or throws. -/
abbrev Eff (σ ε α : Type) : Type := σ → Except ε α × σ

/-- The hidden state together with the log of instrumented calls. -/
structure World (σ L : Type) where
  state : σ
  log : List L

/-- Run a call on the hidden state of a world; the log is not touched. -/
def World.run {σ L ε α : Type} (w : World σ L) (m : Eff σ ε α) : Except ε α × World σ L :=
  ((m w.state).1, { state := (m w.state).2, log := w.log })

/-- One logged invocation of the objective function by the fitness loop of
geneticOptimization (autotuner.cpp line 62): the argument and what the call did
(the value returned, or the exception thrown).  Calls that findBestConfig makes
on line 78 are internal to that helper and are not logged. -/
structure Call (ε D : Type) where
  config : KernelConfig D
  outcome : Except ε D

/-- The type `AutoTuner::ObjectiveFunction`, a `std::function<double(const KernelConfig&)>`. -/
abbrev ObjectiveFunction (σ ε D : Type) : Type := KernelConfig D → Eff σ ε D

/-- The expression `objective(config)` of autotuner.cpp line 62, with the call logged. -/
def callObjective {σ ε D : Type} (objective : ObjectiveFunction σ ε D) (config : KernelConfig D)
    (w : World σ (Call ε D)) : Except ε D × World σ (Call ε D) :=
  ((objective config w.state).1,
    { state := (objective config w.state).2,
      log := w.log ++ [{ config := config, outcome := (objective config w.state).1 }] })

set_option linter.unusedVariables false

/-! ## `AutoTunerImpl::geneticOptimization` (autotuner.cpp lines 51-79) -/

/-- The member functions that geneticOptimization calls and that have no body
in the repository.  `mutation` is called for its effect on `offspring`; its
result here is the content of `offspring` after the call. -/
structure Helpers (σ ε F D : Type) where
  initializePopulation : Nat → Eff σ ε (List (KernelConfig D))
  selection : List (KernelConfig D) → List D → Eff σ ε (List (KernelConfig D))
  crossover : List (KernelConfig D) → F → Eff σ ε (List (KernelConfig D))
  mutation : List (KernelConfig D) → F → Eff σ ε (List (KernelConfig D))
  findBestConfig : List (KernelConfig D) → ObjectiveFunction σ ε D → Eff σ ε (KernelConfig D)

/-- The fitness loop, lines 60-63: `fitness.push_back(objective(config))` for
each config of the population, in order.  The second argument is the vector
`fitness` built so far. -/
def assessFitness {σ ε D : Type} (objective : ObjectiveFunction σ ε D) :
    List (KernelConfig D) → List D → World σ (Call ε D) →
      Except ε (List D) × World σ (Call ε D)
  | [], fitness, w => (Except.ok fitness, w)
  | config :: rest, fitness, w =>
    match callObjective objective config w with
    | (Except.ok v, w1) => assessFitness objective rest (fitness ++ [v]) w1
    | (Except.error e, w1) => (Except.error e, w1)

/-- The body of the generation loop, lines 59-75: from the current population
to the next one. -/
def generation {σ ε F D : Type} (h : Helpers σ ε F D) (objective : ObjectiveFunction σ ε D)
    (genetic_params : GeneticParams F) (population : List (KernelConfig D))
    (w : World σ (Call ε D)) : Except ε (List (KernelConfig D)) × World σ (Call ε D) :=
  match assessFitness objective population [] w with
  | (Except.error e, w1) => (Except.error e, w1)
  | (Except.ok fitness, w1) =>
    match w1.run (h.selection population fitness) with
    | (Except.error e, w2) => (Except.error e, w2)
    | (Except.ok selected, w2) =>
      match w2.run (h.crossover selected genetic_params.crossover_rate) with
      | (Except.error e, w3) => (Except.error e, w3)
      | (Except.ok offspring, w3) =>
        w3.run (h.mutation offspring genetic_params.mutation_rate)

/-- The generation loop, line 58: the first argument counts the iterations
that remain (`num_generations - generation`). -/
def generationLoop {σ ε F D : Type} (h : Helpers σ ε F D) (objective : ObjectiveFunction σ ε D)
    (genetic_params : GeneticParams F) :
    Nat → List (KernelConfig D) → World σ (Call ε D) →
      Except ε (List (KernelConfig D)) × World σ (Call ε D)
  | 0, population, w => (Except.ok population, w)
  | n + 1, population, w =>
    match generation h objective genetic_params population w with
    | (Except.error e, w1) => (Except.error e, w1)
    | (Except.ok offspring, w1) => generationLoop h objective genetic_params n offspring w1

/-- The function `AutoTunerImpl::geneticOptimization`. -/
def geneticOptimization {σ ε F D : Type} (h : Helpers σ ε F D)
    (params : List (TuningParameter D)) (objective : ObjectiveFunction σ ε D)
    (genetic_params : GeneticParams F) (w : World σ (Call ε D)) :
    Except ε (KernelConfig D) × World σ (Call ε D) :=
  match w.run (h.initializePopulation genetic_params.population_size) with
  | (Except.error e, w0) => (Except.error e, w0)
  | (Except.ok population, w0) =>
    match generationLoop h objective genetic_params genetic_params.num_generations
        population w0 with
    | (Except.error e, w1) => (Except.error e, w1)
    | (Except.ok final, w1) => w1.run (h.findBestConfig final objective)

/-! ## Constraint check and best-member search (bodies missing from the repository) -/

/-- Modelled from the spec: `AutoTuner::validateConfig` is declared in tuner.hpp
and has no body in the repository.  A config is valid when it violates none of
the TuningConstraints: max shared memory, max registers per thread, min
occupancy.  A KernelConfig has no register or occupancy member, so the two
estimators are parameters. -/
def validateConfig {D : Type} (registers occupancy : KernelConfig D → Nat)
    (constraints_ : TuningConstraints) (config : KernelConfig D) : Bool :=
  decide (config.shared_memory_size ≤ constraints_.max_shared_memory) &&
    decide (registers config ≤ constraints_.max_registers_per_thread) &&
    decide (constraints_.min_occupancy ≤ occupancy config)

/-- Modelled from the spec: the scan of findBestConfigSpec, whose body is missing
from the repository.  `best` with metric `best_metric` is the best member seen
so far; a later member replaces it only when strictly better. -/
def findBestFrom {σ ε D : Type} [LinearOrder D] (objective : ObjectiveFunction σ ε D) :
    KernelConfig D → D → List (KernelConfig D) → Eff σ ε (KernelConfig D)
  | best, _, [] => fun s => (Except.ok best, s)
  | best, best_metric, config :: rest => fun s =>
    match objective config s with
    | (Except.ok v, s1) =>
      if best_metric < v then findBestFrom objective config v rest s1
      else findBestFrom objective best best_metric rest s1
    | (Except.error e, s1) => (Except.error e, s1)

/-- Modelled from the spec: `findBestConfig` is called on line 78 and has no
body in the repository.  It returns the best config of the population it is
given, fitness being the objective value, higher better: every member is
evaluated once, in order, and the first member of greatest value is returned
(`KernelConfig{}` for an empty population). -/
def findBestConfigSpec {σ ε D : Type} [LinearOrder D] (d0 : dim3) :
    List (KernelConfig D) → ObjectiveFunction σ ε D → Eff σ ε (KernelConfig D)
  | [], _ => fun s => (Except.ok (KernelConfig.init d0), s)
  | config :: rest, objective => fun s =>
    match objective config s with
    | (Except.ok v, s1) => findBestFrom objective config v rest s1
    | (Except.error e, s1) => (Except.error e, s1)

/-! ## `AutoTunerImpl::optimizeKernel` and its private helpers (autotuner.cpp) -/

/-- The function `AutoTunerImpl::analyzeKernelFeatures`, lines 111-114. -/
def analyzeKernelFeatures (ptx_code : String) : KernelFeatures :=
  KernelFeatures.init

/-- The function `AutoTunerImpl::generateThreadBlockCandidates`, lines 116-122. -/
def generateThreadBlockCandidates {D : Type} (features : KernelFeatures) :
    List (KernelConfig D) :=
  []

/-- The function `AutoTunerImpl::evaluateThreadBlockConfigs`, lines 124-129. -/
def evaluateThreadBlockConfigs {D : Type} (d0 : dim3) (candidates : List (KernelConfig D)) :
    KernelConfig D :=
  KernelConfig.init d0

/-- The function `AutoTunerImpl::optimizeThreadBlocks`, lines 92-101. -/
def optimizeThreadBlocks {D : Type} (d0 : dim3) (ptx_code : String) : KernelConfig D :=
  evaluateThreadBlockConfigs d0 (generateThreadBlockCandidates (analyzeKernelFeatures ptx_code))

/-- The function `AutoTunerImpl::combineOptimizations`, lines 132-140. -/
def combineOptimizations {F D : Type} (block_config : KernelConfig D)
    (memory_opt : AccessOptimization F) (schedule_opt : SchedulingResult F) :
    KernelConfig D :=
  block_config

/-- The function `AutoTunerImpl::analyzeMemoryPattern`, lines 142-145. -/
def analyzeMemoryPattern {F : Type} [Zero F] (ptx_code : String) : MemoryAccessPattern F :=
  MemoryAccessPattern.init

/-- The two optimisation steps that optimizeKernel calls on the singletons
`MemoryOptimizer` and `InstructionScheduler`; both are declared in the headers
and have no body in the repository. -/
structure Steps (σ ε F : Type) where
  optimizeAccessPattern : String → MemoryAccessPattern F → Eff σ ε (AccessOptimization F)
  optimizeScheduling : String → Eff σ ε (SchedulingResult F)

/-- One logged call made by optimizeKernel, with the arguments it was given:
the two optimisation steps, `optimizeThreadBlocks` and `combineOptimizations`. -/
inductive StepCall (F D : Type) where
  | optimizeAccessPattern (original_ptx : String) (current_pattern : MemoryAccessPattern F)
  | optimizeScheduling (ptx_code : String)
  | optimizeThreadBlocks (ptx_code : String)
  | combineOptimizations (block_config : KernelConfig D) (memory_opt : AccessOptimization F)
      (schedule_opt : SchedulingResult F)
deriving DecidableEq, Repr

/-- The call `memory_optimizer.optimizeAccessPattern(ptx_code, memory_pattern)` of
line 28, logged with the arguments it is given. -/
def callOptimizeAccessPattern {σ ε F D : Type} (steps : Steps σ ε F) (original_ptx : String)
    (current_pattern : MemoryAccessPattern F) (w : World σ (StepCall F D)) :
    Except ε (AccessOptimization F) × World σ (StepCall F D) :=
  World.run
    { state := w.state,
      log := w.log ++ [StepCall.optimizeAccessPattern original_ptx current_pattern] }
    (steps.optimizeAccessPattern original_ptx current_pattern)

/-- The call `scheduler.optimizeScheduling(memory_opt.ptx_code)` of line 32, logged
with the argument it is given. -/
def callOptimizeScheduling {σ ε F D : Type} (steps : Steps σ ε F) (ptx_code : String)
    (w : World σ (StepCall F D)) : Except ε (SchedulingResult F) × World σ (StepCall F D) :=
  World.run { state := w.state, log := w.log ++ [StepCall.optimizeScheduling ptx_code] }
    (steps.optimizeScheduling ptx_code)

/-- The call `optimizeThreadBlocks(schedule_opt.optimized_ptx)` of line 35, logged
with the argument it is given. -/
def callOptimizeThreadBlocks {σ F D : Type} (d0 : dim3) (ptx_code : String)
    (w : World σ (StepCall F D)) : KernelConfig D × World σ (StepCall F D) :=
  (optimizeThreadBlocks d0 ptx_code,
    { state := w.state, log := w.log ++ [StepCall.optimizeThreadBlocks ptx_code] })

/-- The call `combineOptimizations(block_config, memory_opt, schedule_opt)` of
lines 38-42, logged with the arguments it is given. -/
def callCombineOptimizations {σ F D : Type} (block_config : KernelConfig D)
    (memory_opt : AccessOptimization F) (schedule_opt : SchedulingResult F)
    (w : World σ (StepCall F D)) : KernelConfig D × World σ (StepCall F D) :=
  (combineOptimizations block_config memory_opt schedule_opt,
    { state := w.state,
      log := w.log ++ [StepCall.combineOptimizations block_config memory_opt schedule_opt] })

/-- The function `AutoTunerImpl::optimizeKernel`, lines 18-45.  `uninit` is the
indeterminate value that the member `performance_metric` of the
default-initialised local `TuningResult result;` holds; the member
`optimization_log` of that local is the empty string.  The `getInstance`
accessors are taken to return. -/
def optimizeKernel {σ ε F D : Type} [Zero F] (steps : Steps σ ε F) (d0 : dim3) (uninit : D)
    (kernel_name : String) (ptx_code : String) (w : World σ (StepCall F D)) :
    Except ε (TuningResult D) × World σ (StepCall F D) :=
  let memory_pattern : MemoryAccessPattern F := analyzeMemoryPattern ptx_code
  match callOptimizeAccessPattern steps ptx_code memory_pattern w with
  | (Except.error e, w1) => (Except.error e, w1)
  | (Except.ok memory_opt, w1) =>
    match callOptimizeScheduling steps memory_opt.ptx_code w1 with
    | (Except.error e, w2) => (Except.error e, w2)
    | (Except.ok schedule_opt, w2) =>
      let block_config := callOptimizeThreadBlocks d0 schedule_opt.optimized_ptx w2
      let combined :=
        callCombineOptimizations block_config.1 memory_opt schedule_opt block_config.2
      (Except.ok
        { best_config := combined.1,
          performance_metric := uninit,
          optimization_log := "" }, combined.2)

/-! ## Concrete runs

Ingredients of the runs evaluated below: hidden state `Unit`, exceptions
`String`, and `Int` for both floating-point types. -/

/-- The config with the given shared_memory_size, unit grid and block, no parameters. -/
def cfg (shared : Nat) : KernelConfig Int :=
  { grid_dim := { x := 1, y := 1, z := 1 }, block_dim := { x := 1, y := 1, z := 1 },
    shared_memory_size := shared, parameters := [] }

/-- A deterministic metric: the shared_memory_size of the config. -/
def score (config : KernelConfig Int) : Int :=
  (config.shared_memory_size : Int)

/-- An objective that is a function of the config alone: it returns `f config`,
never throws and leaves the hidden state alone. -/
def deterministicObjective {σ ε D : Type} (f : KernelConfig D → D) : ObjectiveFunction σ ε D :=
  fun config s => (Except.ok (f config), s)

/-- The stub objective of the concrete runs: it returns `score` and never throws. -/
def scoreObjective : ObjectiveFunction Unit String Int :=
  deterministicObjective score

/-- An objective whose trial fails at run time for configs with more than 48
bytes of shared memory, and returns `score` otherwise. -/
def failingObjective : ObjectiveFunction Unit String Int :=
  fun config s =>
    if 48 < config.shared_memory_size then (Except.error "MeasurementFailure", s)
    else (Except.ok (score config), s)

/-- A mutation step that resamples the shared_memory_size of a config to 8. -/
def resample (config : KernelConfig Int) : KernelConfig Int :=
  { config with shared_memory_size := 8 }

/-- Helper behaviour of the concrete runs: the initial population is the first
`population_size` entries of `candidates`, selection keeps the population,
crossover keeps the selected configs, mutation leaves the offspring alone when
the rate is 0 and resamples every offspring otherwise, and findBestConfig is
findBestConfigSpec. -/
def tableHelpers (candidates : List (KernelConfig Int)) : Helpers Unit String Int Int :=
  { initializePopulation := fun population_size s =>
      (Except.ok (candidates.take population_size), s),
    selection := fun population _ s => (Except.ok population, s),
    crossover := fun selected _ s => (Except.ok selected, s),
    mutation := fun offspring mutation_rate s =>
      if mutation_rate = 0 then (Except.ok offspring, s)
      else (Except.ok (offspring.map resample), s),
    findBestConfig := findBestConfigSpec { x := 1, y := 1, z := 1 } }

/-- Helper behaviour of the concrete runs in which selection fails: as
tableHelpers, except that selection throws. -/
def failingSelectionHelpers (candidates : List (KernelConfig Int)) :
    Helpers Unit String Int Int :=
  { initializePopulation := (tableHelpers candidates).initializePopulation,
    selection := fun _ _ s => (Except.error "SelectionFailure", s),
    crossover := (tableHelpers candidates).crossover,
    mutation := (tableHelpers candidates).mutation,
    findBestConfig := (tableHelpers candidates).findBestConfig }

/-- Genetic parameters of the concrete runs; the crossover rate is 0. -/
def geneticParams (population_size num_generations : Nat) (mutation_rate : Int) :
    GeneticParams Int :=
  { population_size := population_size, num_generations := num_generations,
    mutation_rate := mutation_rate, crossover_rate := 0 }

/-- The initial world of a run: no call logged yet. -/
def start {L : Type} : World Unit L :=
  { state := (), log := [] }

/-- Constraints of the concrete runs: 48 bytes of shared memory, 32 registers
per thread, no occupancy floor. -/
def limits : TuningConstraints :=
  { max_shared_memory := 48, max_registers_per_thread := 32, min_occupancy := 0 }

/-- A register estimator under which no config uses a register. -/
def noRegisters (config : KernelConfig Int) : Nat :=
  0

/-- An occupancy estimator under which every config reaches occupancy 100. -/
def fullOccupancy (config : KernelConfig Int) : Nat :=
  100

/-- Step behaviour of the concrete runs: the memory optimizer returns the code
unchanged with one reported step, and the scheduler does the same unless
`cyclic` is set, in which case it throws. -/
def tableSteps (cyclic : Bool) : Steps Unit String Int :=
  { optimizeAccessPattern := fun original_ptx _ s =>
      (Except.ok { ptx_code := original_ptx,
                   optimization_steps := ["stage through shared memory"],
                   estimated_improvement := 2 }, s),
    optimizeScheduling := fun ptx_code s =>
      if cyclic then (Except.error "CyclicDependency", s)
      else (Except.ok { optimized_ptx := ptx_code, estimated_speedup := 1,
                        optimization_steps := ["list scheduling"] }, s) }

/-- The value of a value-initialised dim3 in the concrete runs. -/
def unitDim : dim3 :=
  { x := 1, y := 1, z := 1 }

/-- The TuningResult that optimizeKernel builds in the concrete runs when the
uninitialised performance_metric holds `uninit`. -/
def tableResult (uninit : Int) : TuningResult Int :=
  { best_config := KernelConfig.init unitDim, performance_metric := uninit,
    optimization_log := "" }

/-- A memory-optimizer output with the given code and estimated improvement. -/
def accessOpt (ptx_code : String) (estimated_improvement : Int) : AccessOptimization Int :=
  { ptx_code := ptx_code, optimization_steps := ["stage through shared memory"],
    estimated_improvement := estimated_improvement }

/-- A scheduler output with the given code and estimated speedup. -/
def schedOpt (optimized_ptx : String) (estimated_speedup : Int) : SchedulingResult Int :=
  { optimized_ptx := optimized_ptx, estimated_speedup := estimated_speedup,
    optimization_steps := ["list scheduling"] }

/-! ## `PTXCompiler::compilePTX` (ptx_compiler.cpp) -/

/-- An exception of a class derived from std::exception, with its `what()` text.
The only such class thrown in ptx_compiler.cpp is std::runtime_error. -/
inductive StdException where
  | runtime_error (message : String)
deriving DecidableEq, Repr

/-- The member function `what()` of an exception. -/
def StdException.what : StdException → String
  | StdException.runtime_error message => message

/-- The test `arch.find(lead) == 0` of lines 90, 94 and 98: the first occurrence
of `lead` in `arch` is at position 0, that is, `arch` begins with `lead`. -/
def findAtZero (arch lead : String) : Bool :=
  arch.toList.take lead.length == lead.toList

/-- The function `PTXCompiler::createTempFile`, lines 71-76. -/
def createTempFile (content extension : String) : String :=
  ""

/-- The function `PTXCompiler::readBinaryFile`, lines 78-82; bytes are naturals. -/
def readBinaryFile (filename : String) : List Nat :=
  []

/-- The function `PTXCompiler::cleanup`, lines 84-87. -/
def cleanup (filename : String) : Except StdException Unit :=
  Except.ok ()

/-- The function `PTXCompiler::compileWithNVPTX`, lines 49-54. -/
def compileWithNVPTX (ptxFile cubinFile arch : String) : Except StdException Unit :=
  Except.ok ()

/-- The function `PTXCompiler::compileWithAMDGPU`, lines 56-61. -/
def compileWithAMDGPU (ptxFile cubinFile arch : String) : Except StdException Unit :=
  Except.ok ()

/-- The function `PTXCompiler::compileWithIntelGPU`, lines 63-68. -/
def compileWithIntelGPU (ptxFile cubinFile arch : String) : Except StdException Unit :=
  Except.ok ()

/-- The function `PTXCompiler::isNvidiaGPU`, lines 89-91. -/
def isNvidiaGPU (arch : String) : Bool :=
  findAtZero arch "sm_"

/-- The function `PTXCompiler::isAMDGPU`, lines 93-95. -/
def isAMDGPU (arch : String) : Bool :=
  findAtZero arch "gfx"

/-- The function `PTXCompiler::isIntelGPU`, lines 97-99. -/
def isIntelGPU (arch : String) : Bool :=
  findAtZero arch "gen"

/-- The `try` block of compilePTX, lines 23-35. -/
def compilePTXBody (tempPTXFile tempCubinFile targetArch : String) :
    Except StdException (List Nat) :=
  match
    (if isNvidiaGPU targetArch then compileWithNVPTX tempPTXFile tempCubinFile targetArch
     else if isAMDGPU targetArch then compileWithAMDGPU tempPTXFile tempCubinFile targetArch
     else if isIntelGPU targetArch then compileWithIntelGPU tempPTXFile tempCubinFile targetArch
     else Except.error (StdException.runtime_error "Unsupported target architecture")) with
  | Except.error e => Except.error e
  | Except.ok _ => Except.ok (readBinaryFile tempCubinFile)

/-- The function `PTXCompiler::compilePTX`, lines 16-43.  The `catch` clause
rethrows every exception of the `try` block as a runtime_error; the two cleanup
calls of lines 41-42 follow a block that always returns or throws and are
never reached. -/
def compilePTX (ptxSource targetArch : String) : Except StdException (List Nat) :=
  let tempPTXFile := createTempFile ptxSource ".ptx"
  let tempCubinFile := tempPTXFile ++ ".cubin"
  match compilePTXBody tempPTXFile tempCubinFile targetArch with
  | Except.ok image => Except.ok image
  | Except.error e =>
    Except.error (StdException.runtime_error ("PTX compilation failed: " ++ e.what))

/-! ## `MemoryOptimizer::optimizeAccessPattern` (body missing from the repository) -/

/-- The parts of the access-pattern rewrite that the spec leaves open: the
configurable coalescence threshold, the rewrite that stages the data through
on-chip memory and remaps the lane index (`generateCoalescedAccess`, declared
without a body), the ratio of achievable to original transaction size, the
lockstep group width, and what is done for the pattern types on which the spec
is silent. -/
structure AccessRewrite (F : Type) where
  coalescence_threshold : F
  generateCoalescedAccess : String → MemoryAccessPattern F → String
  transaction_ratio : MemoryAccessPattern F → F
  group_width : F
  other : String → MemoryAccessPattern F → AccessOptimization F

/-- The result of an optimisation that leaves the code alone. -/
def AccessOptimization.unchanged {F : Type} [Zero F] (original_ptx : String) :
    AccessOptimization F :=
  { ptx_code := original_ptx, optimization_steps := [], estimated_improvement := 0 }

/-- Modelled from the spec: `MemoryOptimizer::optimizeAccessPattern` is declared
in memory_optimizer.hpp and has no body in the repository.  Spec 4.2: for
STRIDED patterns below the coalescence threshold it inserts a staged buffer and
remaps the lane-to-data index, reports each step taken and an
estimated_improvement bounded by the transaction size ratio, capped at the
lockstep group width; on an already-COALESCED pattern it returns the input
unchanged with estimated_improvement 0. -/
def MemoryOptimizer.optimizeAccessPattern {F : Type} [LinearOrder F] [Zero F]
    (rewrite : AccessRewrite F) (original_ptx : String)
    (current_pattern : MemoryAccessPattern F) : AccessOptimization F :=
  match current_pattern.pattern_type with
  | PatternType.STRIDED =>
    if current_pattern.coalescence_rate < rewrite.coalescence_threshold then
      { ptx_code := rewrite.generateCoalescedAccess original_ptx current_pattern,
        optimization_steps := ["insert staged buffer", "remap lane-to-data index"],
        estimated_improvement :=
          min (rewrite.transaction_ratio current_pattern) rewrite.group_width }
    else AccessOptimization.unchanged original_ptx
  | PatternType.COALESCED => AccessOptimization.unchanged original_ptx
  | _ => rewrite.other original_ptx current_pattern

/-- A rewrite for the concrete runs: threshold 50, a marker line put before the
code, ratio 4, group width 32, other pattern types left alone. -/
def tableRewrite : AccessRewrite Int :=
  { coalescence_threshold := 50,
    generateCoalescedAccess := fun original_ptx _ => ".shared .f32 stage;" ++ original_ptx,
    transaction_ratio := fun _ => 4,
    group_width := 32,
    other := fun original_ptx _ => AccessOptimization.unchanged original_ptx }

/-- A COALESCED pattern for the concrete runs. -/
def coalescedPattern : MemoryAccessPattern Int :=
  { pattern_type := PatternType.COALESCED, stride_size := 4, coalescence_rate := 100,
    has_bank_conflicts := false }

/-! ## A 64-point search space -/

/-- A tuning parameter with domain 0..3 and the given current value. -/
def tuningParameter (name : String) (current_value : Int) : TuningParameter Int :=
  { name := name, possible_values := [0, 1, 2, 3], current_value := current_value,
    impact_score := 0 }

/-- The point of the search space with the given values of the three parameters. -/
def point (x y z : Int) : KernelConfig Int :=
  { grid_dim := { x := 1, y := 1, z := 1 }, block_dim := { x := 1, y := 1, z := 1 },
    shared_memory_size := 0,
    parameters := [tuningParameter "x" x, tuningParameter "y" y, tuningParameter "z" z] }

/-- The cartesian product of the three domains: 64 points, `point 0 0 0` first. -/
def searchSpace : List (KernelConfig Int) :=
  [0, 1, 2, 3].flatMap fun x => [0, 1, 2, 3].flatMap fun y => [0, 1, 2, 3].map fun z => point x y z

/-- A deterministic synthetic objective: the sum of the current parameter values.
Its maximum over the search space is 9, reached at `point 3 3 3` only. -/
def sumObjective (config : KernelConfig Int) : Int :=
  (config.parameters.map fun parameter => parameter.current_value).sum

/-! ## Stateful steps -/

/-- Step behaviour with a hidden counter of scheduler calls: the memory
optimizer returns the code unchanged, and the scheduler returns the code
unchanged on its first call and throws on every later call. -/
def flakySteps : Steps Nat String Int :=
  { optimizeAccessPattern := fun original_ptx _ s =>
      (Except.ok { ptx_code := original_ptx, optimization_steps := [],
                   estimated_improvement := 0 }, s),
    optimizeScheduling := fun ptx_code s =>
      if s = 0 then
        (Except.ok { optimized_ptx := ptx_code, estimated_speedup := 1,
                     optimization_steps := [] }, s + 1)
      else (Except.error "SchedulerUnavailable", s + 1) }

/-! ## Dependency graph (`instruction_scheduler.hpp`) -/

/-- The enum `Instruction::Type` of instruction_scheduler.hpp. -/
inductive InstructionType where
  | ARITHMETIC
  | MEMORY
  | CONTROL
  | SYNC
  | SPECIAL
deriving DecidableEq, Repr

/-- The struct `Instruction` of instruction_scheduler.hpp. -/
structure Instruction where
  opcode : String
  type : InstructionType
  operands : List String
  latency : Nat
  throughput : Nat
deriving DecidableEq, Repr

/-- The struct `DependencyGraph::Node` of instruction_scheduler.hpp. -/
structure Node where
  instruction : Instruction
  predecessors : List Nat
  successors : List Nat
  earliest_start : Int
  latest_start : Int
deriving DecidableEq, Repr

/-- The struct `DependencyGraph` of instruction_scheduler.hpp. -/
structure DependencyGraph where
  nodes : List Node
  adjacency_matrix : List (List Bool)
deriving DecidableEq, Repr

/-- The vector `nodes[n].predecessors` (empty when `n` is no node). -/
def DependencyGraph.predecessors (g : DependencyGraph) (n : Nat) : List Nat :=
  match g.nodes[n]? with
  | some node => node.predecessors
  | none => []

/-- The vector `nodes[n].successors` (empty when `n` is no node). -/
def DependencyGraph.successors (g : DependencyGraph) (n : Nat) : List Nat :=
  match g.nodes[n]? with
  | some node => node.successors
  | none => []

/-- The value `nodes[n].instruction.latency` (0 when `n` is no node). -/
def DependencyGraph.latency (g : DependencyGraph) (n : Nat) : Int :=
  match g.nodes[n]? with
  | some node => (node.instruction.latency : Int)
  | none => 0

/-- The value `nodes[n].instruction` (none when `n` is no node). -/
def DependencyGraph.instructionAt (g : DependencyGraph) (n : Nat) : Option Instruction :=
  (g.nodes[n]?).map fun node => node.instruction

/-! ## Acyclic graphs -/

/-- Every entry of `order` has all its `rel`-neighbours earlier in `done ++ order`
(`done` being the entries already passed, in any order). -/
def topoCheck (rel : Nat → List Nat) : List Nat → List Nat → Bool
  | _, [] => true
  | done, n :: rest =>
    (rel n).all (fun p => decide (p ∈ done)) && topoCheck rel (n :: done) rest

/-- The list `order` is a topological order of the graph: it lists every node
index exactly once, and every predecessor of a node before the node. -/
def DependencyGraph.isTopologicalOrder (g : DependencyGraph) (order : List Nat) : Bool :=
  decide order.Nodup && order.all (fun n => decide (n < g.nodes.length)) &&
    (List.range g.nodes.length).all (fun n => decide (n ∈ order)) &&
    topoCheck g.predecessors [] order

/-- The successor vectors mirror the predecessor vectors: every successor `s` of
a node `n` is a node that has `n` among its predecessors. -/
def DependencyGraph.successorsMirrored (g : DependencyGraph) : Bool :=
  (List.range g.nodes.length).all fun n =>
    (g.successors n).all fun s =>
      decide (s < g.nodes.length) && decide (n ∈ g.predecessors s)

/-- The graph is acyclic, as witnessed by the topological order `order`. -/
def DependencyGraph.acyclicWith (g : DependencyGraph) (order : List Nat) : Bool :=
  g.isTopologicalOrder order && g.successorsMirrored

/-- Positional form of a topological order with respect to `rel`: no entry is
repeated, and wherever an entry `n` stands, its `rel`-neighbours stand before it. -/
def RespectsOrder (rel : Nat → List Nat) (order : List Nat) : Prop :=
  order.Nodup ∧ ∀ l1 n l2, order = l1 ++ n :: l2 → ∀ p ∈ rel n, p ∈ l1

/-! ## Forward and backward pass (bodies missing from the repository) -/

/-- One sweep over `order`: the table entry of each node is recomputed, in
order, from the table as it stands. -/
def sweep (f : (Nat → Int) → Nat → Int) (table : Nat → Int) (order : List Nat) : Nat → Int :=
  order.foldl (fun t n => Function.update t n (f t n)) table

/-- Modelled from the spec: the forward pass has no code in the repository.
Spec 4.1: `earliest_start[n] = max(earliest_start[p] + latency[p])` over
predecessors p, 0 if none. -/
def earliestStart (g : DependencyGraph) (earliest : Nat → Int) (n : Nat) : Int :=
  match g.predecessors n with
  | [] => 0
  | p :: ps =>
    ps.foldl (fun m q => max m (earliest q + g.latency q)) (earliest p + g.latency p)

/-- Modelled from the spec: the forward pass, in topological order (spec 4.1);
it has no code in the repository. -/
def forwardPass (g : DependencyGraph) (order : List Nat) : Nat → Int :=
  sweep (earliestStart g) (fun _ => 0) order

/-- Modelled from the spec: the scheduling horizon, which the spec names without
defining it, is taken to be the length of the schedule the forward pass
computes, the greatest `earliest_start[n] + latency[n]`. -/
def schedulingHorizon (g : DependencyGraph) (earliest : Nat → Int) : Int :=
  (List.range g.nodes.length).foldl (fun m n => max m (earliest n + g.latency n)) 0

/-- Modelled from the spec: the backward pass has no code in the repository.
Spec 4.1: `latest_start[n] = min(latest_start[s] - latency[n])` over successors
s, anchored at the scheduling horizon for sink nodes. -/
def latestStart (g : DependencyGraph) (horizon : Int) (latest : Nat → Int) (n : Nat) : Int :=
  match g.successors n with
  | [] => horizon - g.latency n
  | s :: ss =>
    ss.foldl (fun m t => min m (latest t - g.latency n)) (latest s - g.latency n)

/-- Modelled from the spec: the backward pass, in reverse topological order
(spec 4.1); it has no code in the repository. -/
def backwardPass (g : DependencyGraph) (horizon : Int) (order : List Nat) : Nat → Int :=
  sweep (latestStart g horizon) (fun _ => horizon) order.reverse

/-- Modelled from the spec: a scheduling run computes `earliest_start` and
`latest_start` of every node by the forward and the backward pass and stores
them in the nodes. -/
def annotate (g : DependencyGraph) (order : List Nat) : DependencyGraph :=
  { g with
    nodes := g.nodes.enum.map fun entry =>
      { entry.2 with
        earliest_start := forwardPass g order entry.1,
        latest_start :=
          backwardPass g (schedulingHorizon g (forwardPass g order)) order entry.1 } }

/-! ## List scheduling (body missing from the repository) -/

/-- Modelled from the spec: the ready set of list scheduling, the nodes not yet
placed whose predecessors are all placed, in program order. -/
def readySet (g : DependencyGraph) (placed : List Nat) : List Nat :=
  (List.range g.nodes.length).filter fun n =>
    !(decide (n ∈ placed)) && (g.predecessors n).all (fun p => decide (p ∈ placed))

/-- Modelled from the spec: the scan behind the pick among the ready nodes, the
one of least slack, ties broken by program order: `best` is the pick so far,
and a later node replaces it only when its slack is strictly less. -/
def leastSlackFrom (slack : Nat → Int) : Nat → List Nat → Nat
  | best, [] => best
  | best, n :: rest =>
    if slack n < slack best then leastSlackFrom slack n rest
    else leastSlackFrom slack best rest

/-- Modelled from the spec: the pick of list scheduling among the ready nodes
`ready`, which are listed in program order (0 for an empty list). -/
def leastSlack (slack : Nat → Int) (ready : List Nat) : Nat :=
  match ready with
  | [] => 0
  | n :: rest => leastSlackFrom slack n rest

/-- Modelled from the spec: the steps of list scheduling.  While a node is
ready, the node picked by `choose` among the ready nodes is placed next;
`fuel` bounds the number of steps. -/
def listSchedulingFrom (g : DependencyGraph) (choose : List Nat → Nat) :
    Nat → List Nat → List Nat
  | 0, placed => placed
  | fuel + 1, placed =>
    match readySet g placed with
    | [] => placed
    | n :: rest => listSchedulingFrom g choose fuel (placed ++ [choose (n :: rest)])

/-- Modelled from the spec: the order in which list scheduling places the nodes,
one step per node of the graph. -/
def listSchedulingOrder (g : DependencyGraph) (choose : List Nat → Nat) : List Nat :=
  listSchedulingFrom g choose g.nodes.length []

/-- Modelled from the spec: `InstructionScheduler::listScheduling` is declared in
instruction_scheduler.hpp and has no body in the repository.  Spec 4.1: list
scheduling maintains a ready set (nodes whose predecessors are already placed)
and at each step picks a ready node; the result is the instructions in the
order of placement.  `choose` is the pick among the ready nodes (least slack,
ties by program order, within the limits of ILPConfig). -/
def listScheduling (g : DependencyGraph) (choose : List Nat → Nat) : List Instruction :=
  (listSchedulingOrder g choose).filterMap g.instructionAt

/-- An instruction of the concrete graphs. -/
def instr (opcode : String) (latency : Nat) : Instruction :=
  { opcode := opcode, type := InstructionType.ARITHMETIC, operands := [], latency := latency,
    throughput := 1 }

/-- A node of the concrete graphs, its two start times not yet computed. -/
def node (instruction : Instruction) (predecessors successors : List Nat) : Node :=
  { instruction := instruction, predecessors := predecessors, successors := successors,
    earliest_start := 0, latest_start := 0 }

/-- A diamond: node 0 feeds nodes 1 and 2, which both feed node 3. -/
def diamond : DependencyGraph :=
  { nodes := [node (instr "ld" 4) [] [1, 2], node (instr "mul" 2) [0] [3],
              node (instr "add" 1) [0] [3], node (instr "st" 1) [1, 2] []],
    adjacency_matrix :=
      [[false, true, true, false], [false, false, false, true],
       [false, false, false, true], [false, false, false, false]] }

/-! ## `AutoTunerImpl::bayesianOptimization` (autotuner.cpp lines 82-89) -/

/-- The function `AutoTunerImpl::bayesianOptimization`: it returns `KernelConfig{}`.
The world is passed through so that objective calls, had the function made
any, would be logged like those of geneticOptimization. -/
def bayesianOptimization {σ ε D : Type} (d0 : dim3) (params : List (TuningParameter D))
    (objective : ObjectiveFunction σ ε D) (w : World σ (Call ε D)) :
    Except ε (KernelConfig D) × World σ (Call ε D) :=
  (Except.ok (KernelConfig.init d0), w)

/-! ## Tasks (`runtime/task.hpp`, `runtime/scheduler.hpp`) -/

/-- The enum `TaskPriority` of scheduler.hpp. -/
inductive TaskPriority where
  | HIGH
  | NORMAL
  | LOW
  | BACKGROUND
deriving DecidableEq, Repr

/-- The enum `TaskStatus` of scheduler.hpp. -/
inductive TaskStatus where
  | PENDING
  | RUNNING
  | COMPLETED
  | FAILED
  | CANCELLED
deriving DecidableEq, Repr

/-- The dynamic class of a task object: `Task` itself or one of its four
subclasses of task.hpp. -/
inductive TaskKind where
  | Task
  | ComputeTask
  | CommunicationTask
  | MemoryTransferTask
  | SynchronizationTask
deriving DecidableEq, Repr

/-- The data members of a `Task` other than `function_`, with the dynamic class
of the object.  Time points are clock readings, 0 for a default-constructed
`time_point`. -/
structure TaskState where
  kind : TaskKind
  name_ : String
  priority_ : TaskPriority
  status_ : TaskStatus
  start_time_ : Nat
  end_time_ : Nat
deriving DecidableEq, Repr

/-- The type `Task::TaskFunction`, a `std::function<void(ExecutionContext&)>`.  The
call runs on the execution context and on whatever the function captured
(`σ`); through a captured pointer it may also reach the data members of the
task that runs it, so these are part of what it may change. -/
abbrev TaskFunction (σ ε : Type) : Type := Eff (TaskState × σ) ε Unit

/-- A task object: its data members and its `function_`. -/
structure Task (σ ε : Type) where
  state : TaskState
  function_ : TaskFunction σ ε

/-- The constructor `Task(name, func, priority)`, lines 19-24, for an object of
dynamic class `kind`: the status starts as PENDING. -/
def Task.new {σ ε : Type} (kind : TaskKind) (name : String) (func : TaskFunction σ ε)
    (priority : TaskPriority) : Task σ ε :=
  { state := { kind := kind, name_ := name, priority_ := priority,
               status_ := TaskStatus.PENDING, start_time_ := 0, end_time_ := 0 },
    function_ := func }

/-- The function `Task::execute` of the base class, lines 29-42: what a call of
`execute` runs on an object whose class does not override it, and what
`ComputeTask::execute` runs after setDevice.  `now` reads
`std::chrono::steady_clock::now()` off the hidden state.  The `catch (...)`
clause sets FAILED and rethrows the exception it caught. -/
def Task.execute {σ ε : Type} (now : σ → Nat) (task : Task σ ε) (context : σ) :
    Except ε Unit × (Task σ ε × σ) :=
  let running : TaskState :=
    { task.state with start_time_ := now context, status_ := TaskStatus.RUNNING }
  match task.function_ (running, context) with
  | (Except.ok _, (after, context1)) =>
    (Except.ok (),
      ({ task with
          state := { after with status_ := TaskStatus.COMPLETED, end_time_ := now context1 } },
        context1))
  | (Except.error e, (after, context1)) =>
    (Except.error e,
      ({ task with state := { after with status_ := TaskStatus.FAILED } }, context1))

/-- The override `ComputeTask::execute`, lines 87-90:
`context.setDevice(device_id_); Task::execute(context);`.
`ExecutionContext::setDevice` is declared in scheduler.hpp (line 161) and has no
body in the repository, so it is a parameter: a call on the execution context
that returns or throws.  `device_id_` is the data member of the ComputeTask
object.  When setDevice throws, the exception leaves execute before
`Task::execute` is entered, and the task is as it was. -/
def ComputeTask.execute {σ ε : Type} (setDevice : Int → Eff σ ε Unit) (now : σ → Nat)
    (device_id_ : Int) (task : Task σ ε) (context : σ) : Except ε Unit × (Task σ ε × σ) :=
  match setDevice device_id_ context with
  | (Except.error e, context1) => (Except.error e, (task, context1))
  | (Except.ok _, context1) => Task.execute now task context1

/-- The virtual call `task.execute(context)`, resolved on the dynamic class of
the object: `ComputeTask` overrides execute, the other three subclasses
inherit `Task::execute`.  `device_id_` is read for a ComputeTask only. -/
def Task.executeVirtual {σ ε : Type} (setDevice : Int → Eff σ ε Unit) (now : σ → Nat)
    (device_id_ : Int) (task : Task σ ε) (context : σ) : Except ε Unit × (Task σ ε × σ) :=
  match task.state.kind with
  | TaskKind.ComputeTask => ComputeTask.execute setDevice now device_id_ task context
  | _ => Task.execute now task context

/-- The function `Task::cancel`, lines 45-47; no subclass overrides it. -/
def Task.cancel {σ ε : Type} (task : Task σ ε) : Task σ ε :=
  { task with state := { task.state with status_ := TaskStatus.CANCELLED } }

/-- The virtual function `isCancellable`: `Task::isCancellable` (lines 49-51)
returns true, and only `SynchronizationTask` overrides it (lines 153-155), to
return false. -/
def Task.isCancellable {σ ε : Type} (task : Task σ ε) : Bool :=
  match task.state.kind with
  | TaskKind.SynchronizationTask => false
  | _ => true

/-- The function `Task::getStatus`, line 56. -/
def Task.getStatus {σ ε : Type} (task : Task σ ε) : TaskStatus :=
  task.state.status_

/-! ## `DeviceManager::discoverDevices` (device_manager.cpp) -/

/-- What a C++ call may throw: an object of a class derived from std::exception,
which a `catch (const std::exception&)` clause catches, or anything else,
which such a clause lets through. -/
inductive Thrown where
  | std_exception (e : StdException)
  | other (description : String)
deriving DecidableEq, Repr

/-- A detection step: a `void` function on the device list it is given by
reference.  The list is kept as the step left it when the step throws. -/
abbrev DetectionStep (Device : Type) : Type := Eff (List Device) Thrown Unit

/-- The function `DeviceManager::detectNvidiaDevices`, lines 46-49. -/
def detectNvidiaDevices {Device : Type} : DetectionStep Device :=
  fun devices => (Except.ok (), devices)

/-- The function `DeviceManager::detectAMDDevices`, lines 51-53. -/
def detectAMDDevices {Device : Type} : DetectionStep Device :=
  fun devices => (Except.ok (), devices)

/-- The function `DeviceManager::detectIntelDevices`, lines 55-57. -/
def detectIntelDevices {Device : Type} : DetectionStep Device :=
  fun devices => (Except.ok (), devices)

/-- One `try { step(devices); } catch (const std::exception& e) { }` block of
discoverDevices: an exception derived from std::exception is dropped and the
list is kept as the step left it; any other exception leaves the block. -/
def tryDetect {Device : Type} (step : DetectionStep Device) (devices : List Device) :
    Except Thrown (List Device) :=
  match step devices with
  | (Except.ok _, devices1) => Except.ok devices1
  | (Except.error (Thrown.std_exception _), devices1) => Except.ok devices1
  | (Except.error (Thrown.other description), _) => Except.error (Thrown.other description)

/-- The body of `DeviceManager::discoverDevices`, lines 16-41, for given
detection steps: three `try` blocks in a row on a list that starts empty. -/
def discoverDevicesWith {Device : Type} (nvidia amd intel : DetectionStep Device) :
    Except Thrown (List Device) :=
  match tryDetect nvidia [] with
  | Except.error e => Except.error e
  | Except.ok devices1 =>
    match tryDetect amd devices1 with
    | Except.error e => Except.error e
    | Except.ok devices2 => tryDetect intel devices2

/-- The function `DeviceManager::discoverDevices`, with the three detection
steps of device_manager.cpp.  The class `Device` is not declared in the
repository and is a parameter. -/
def discoverDevices {Device : Type} : Except Thrown (List Device) :=
  discoverDevicesWith detectNvidiaDevices detectAMDDevices detectIntelDevices

/-- A task function for the concrete runs: it adds 5 to the hidden state (which
serves as the clock) and returns, or throws when `fails` is set; when `cancels`
is set it first cancels the task that runs it. -/
def tableFunction (fails cancels : Bool) : TaskFunction Nat String :=
  fun (state, context) =>
    let state1 : TaskState :=
      if cancels then { state with status_ := TaskStatus.CANCELLED } else state
    if fails then (Except.error "KernelFault", (state1, context + 5))
    else (Except.ok (), (state1, context + 5))

/-- A setDevice for the concrete runs: it adds 1 to the hidden state and
returns, or throws without changing the hidden state when `fails` is set. -/
def tableSetDevice (fails : Bool) : Int → Eff Nat String Unit :=
  fun _ context =>
    if fails then (Except.error "NoSuchDevice", context) else (Except.ok (), context + 1)

/-- A detection step for the concrete runs that adds the device `found` to the
list and then throws an exception derived from std::exception. -/
def faultyStep (found : String) : DetectionStep String :=
  fun devices =>
    (Except.error (Thrown.std_exception (StdException.runtime_error "driver not loaded")),
      devices ++ [found])

/-- A detection step for the concrete runs that adds the device `found` to the list. -/
def findingStep (found : String) : DetectionStep String :=
  fun devices => (Except.ok (), devices ++ [found])

/-! ## Instrumentation of the generation loop -/

/-- The populations on which the body of the generation loop is entered, in
order: one entry per iteration started.  An instrumentation of generationLoop;
the run itself does not use it. -/
def populationTrace {σ ε F D : Type} (h : Helpers σ ε F D)
    (objective : ObjectiveFunction σ ε D) (genetic_params : GeneticParams F) :
    Nat → List (KernelConfig D) → World σ (Call ε D) → List (List (KernelConfig D))
  | 0, _, _ => []
  | n + 1, population, w =>
    population ::
      match generation h objective genetic_params population w with
      | (Except.error _, _) => []
      | (Except.ok offspring, w1) => populationTrace h objective genetic_params n offspring w1

/-! ## Predicates on logs -/

/-- No logged objective call threw. -/
def NoFailure {ε D : Type} (log : List (Call ε D)) : Prop :=
  ∀ call ∈ log, ∀ e, call.outcome ≠ Except.error e

/-- Every logged objective call that threw is the last call of the log, and the
run ended in the exception it threw. -/
def Propagated {ε D α : Type} (r : Except ε α) (log : List (Call ε D)) : Prop :=
  ∀ call ∈ log, ∀ e, call.outcome = Except.error e →
    r = Except.error e ∧ log.getLast? = some call

/-- A call made by the body of the generation loop (lines 59-75), entered on
`population` in the world `w`, throws `e` and leaves the world `w1`: the
objective call on member `k` of the population, after the calls on the members
before it returned; or selection, after the fitness loop completed; or
crossover, after selection returned; or mutation, after crossover returned. -/
def BodyThrows {σ ε F D : Type} (h : Helpers σ ε F D) (objective : ObjectiveFunction σ ε D)
    (genetic_params : GeneticParams F) (population : List (KernelConfig D))
    (w : World σ (Call ε D)) (e : ε) (w1 : World σ (Call ε D)) : Prop :=
  (∃ k config fitness wk, population[k]? = some config ∧
      assessFitness objective (population.take k) [] w = (Except.ok fitness, wk) ∧
      callObjective objective config wk = (Except.error e, w1)) ∨
  (∃ fitness wf, assessFitness objective population [] w = (Except.ok fitness, wf) ∧
    (wf.run (h.selection population fitness) = (Except.error e, w1) ∨
      ∃ selected ws, wf.run (h.selection population fitness) = (Except.ok selected, ws) ∧
        (ws.run (h.crossover selected genetic_params.crossover_rate) = (Except.error e, w1) ∨
          ∃ offspring wc,
            ws.run (h.crossover selected genetic_params.crossover_rate) =
              (Except.ok offspring, wc) ∧
            wc.run (h.mutation offspring genetic_params.mutation_rate) =
              (Except.error e, w1))))

/-- The population helpers only hand out configs that satisfy `P`: those of an
initial population do, and selection, crossover and mutation return configs
that satisfy `P` whenever they are given such configs. -/
def Helpers.Keep {σ ε F D : Type} (h : Helpers σ ε F D) (P : KernelConfig D → Prop) : Prop :=
  (∀ population_size s population s1,
      h.initializePopulation population_size s = (Except.ok population, s1) →
        ∀ c ∈ population, P c) ∧
  (∀ population fitness s selected s1, (∀ c ∈ population, P c) →
      h.selection population fitness s = (Except.ok selected, s1) → ∀ c ∈ selected, P c) ∧
  (∀ selected rate s offspring s1, (∀ c ∈ selected, P c) →
      h.crossover selected rate s = (Except.ok offspring, s1) → ∀ c ∈ offspring, P c) ∧
  (∀ offspring rate s mutated s1, (∀ c ∈ offspring, P c) →
      h.mutation offspring rate s = (Except.ok mutated, s1) → ∀ c ∈ mutated, P c)

/-! ## Lemmas on the instrumented run -/

section Lemmas

variable {σ ε F D : Type}

theorem run_log {L α : Type} (w : World σ L) (m : Eff σ ε α) : (w.run m).2.log = w.log :=
  rfl

theorem run_eq {L α : Type} (w : World σ L) (m : Eff σ ε α) (r : Except ε α)
    (w1 : World σ L) (hrun : w.run m = (r, w1)) :
    m w.state = (r, w1.state) ∧ w1.log = w.log := by
  simp only [World.run, Prod.mk.injEq] at hrun
  obtain ⟨h1, h2⟩ := hrun
  subst h2
  exact ⟨Prod.ext h1 rfl, rfl⟩

theorem callObjective_log (objective : ObjectiveFunction σ ε D) (config : KernelConfig D)
    (w : World σ (Call ε D)) :
    (callObjective objective config w).2.log =
      w.log ++ [{ config := config, outcome := (callObjective objective config w).1 }] :=
  rfl

theorem assessFitness_cons_ok (objective : ObjectiveFunction σ ε D) (config : KernelConfig D)
    (rest : List (KernelConfig D)) (fitness : List D) (w w1 : World σ (Call ε D)) (v : D)
    (hcall : callObjective objective config w = (Except.ok v, w1)) :
    assessFitness objective (config :: rest) fitness w =
      assessFitness objective rest (fitness ++ [v]) w1 := by
  simp only [assessFitness, hcall]

theorem assessFitness_cons_error (objective : ObjectiveFunction σ ε D)
    (config : KernelConfig D) (rest : List (KernelConfig D)) (fitness : List D)
    (w w1 : World σ (Call ε D)) (e : ε)
    (hcall : callObjective objective config w = (Except.error e, w1)) :
    assessFitness objective (config :: rest) fitness w = (Except.error e, w1) := by
  simp only [assessFitness, hcall]

/-- The fitness loop logs a call for each member of an initial segment of the
population, in order, and nothing else. -/
theorem assessFitness_configs (objective : ObjectiveFunction σ ε D) :
    ∀ (population : List (KernelConfig D)) (fitness : List D) (w : World σ (Call ε D)),
      ∃ k, (assessFitness objective population fitness w).2.log.map Call.config =
        w.log.map Call.config ++ population.take k
  | [], fitness, w => ⟨0, by simp [assessFitness]⟩
  | config :: rest, fitness, w => by
    rcases hcall : callObjective objective config w with ⟨r, w1⟩
    have hlog : w1.log = w.log ++ [{ config := config, outcome := r }] := by
      have h := callObjective_log objective config w
      rw [hcall] at h
      exact h
    cases r with
    | error e =>
      refine ⟨1, ?_⟩
      rw [assessFitness_cons_error objective config rest fitness w w1 e hcall]
      simp [hlog]
    | ok v =>
      obtain ⟨k, hk⟩ := assessFitness_configs objective rest (fitness ++ [v]) w1
      refine ⟨k + 1, ?_⟩
      rw [assessFitness_cons_ok objective config rest fitness w w1 v hcall, hk]
      simp [hlog]

/-- When the fitness loop completes, it has logged exactly one call per member
of the population, in population order, and pushed one fitness value per member. -/
theorem assessFitness_configs_ok (objective : ObjectiveFunction σ ε D) :
    ∀ (population : List (KernelConfig D)) (fitness fitness1 : List D)
      (w w1 : World σ (Call ε D)),
      assessFitness objective population fitness w = (Except.ok fitness1, w1) →
        w1.log.map Call.config = w.log.map Call.config ++ population ∧
          fitness1.length = fitness.length + population.length
  | [], fitness, fitness1, w, w1, hrun => by
    simp only [assessFitness, Prod.mk.injEq, Except.ok.injEq] at hrun
    obtain ⟨h1, h2⟩ := hrun
    subst h1 h2
    simp
  | config :: rest, fitness, fitness1, w, w1, hrun => by
    rcases hcall : callObjective objective config w with ⟨r, w2⟩
    have hlog : w2.log = w.log ++ [{ config := config, outcome := r }] := by
      have h := callObjective_log objective config w
      rw [hcall] at h
      exact h
    cases r with
    | error e =>
      rw [assessFitness_cons_error objective config rest fitness w w2 e hcall] at hrun
      simp at hrun
    | ok v =>
      rw [assessFitness_cons_ok objective config rest fitness w w2 v hcall] at hrun
      obtain ⟨h1, h2⟩ := assessFitness_configs_ok objective rest (fitness ++ [v]) fitness1 w2 w1 hrun
      refine ⟨?_, ?_⟩
      · rw [h1, hlog]
        simp
      · rw [h2]
        simp
        omega

/-- The generation body leaves the log as the fitness loop left it: the three
helpers run on the hidden state only. -/
theorem generation_log (h : Helpers σ ε F D) (objective : ObjectiveFunction σ ε D)
    (genetic_params : GeneticParams F) (population : List (KernelConfig D))
    (w : World σ (Call ε D)) :
    (generation h objective genetic_params population w).2.log =
      (assessFitness objective population [] w).2.log := by
  unfold generation
  rcases assessFitness objective population [] w with ⟨r, w1⟩
  cases r with
  | error e => rfl
  | ok fitness =>
    simp only [World.run]
    rcases h.selection population fitness w1.state with ⟨r2, s2⟩
    cases r2 with
    | error e => rfl
    | ok selected =>
      simp only
      rcases h.crossover selected genetic_params.crossover_rate s2 with ⟨r3, s3⟩
      cases r3 with
      | error e => rfl
      | ok offspring => rfl

/-- A failure of the fitness loop is the outcome of the generation body. -/
theorem generation_error (h : Helpers σ ε F D) (objective : ObjectiveFunction σ ε D)
    (genetic_params : GeneticParams F) (population : List (KernelConfig D))
    (w w1 : World σ (Call ε D)) (e : ε)
    (hfit : assessFitness objective population [] w = (Except.error e, w1)) :
    generation h objective genetic_params population w = (Except.error e, w1) := by
  simp only [generation, hfit]

/-- A generation body that completes went through the fitness loop, selection,
crossover and mutation, each of which returned; the next population is what
mutation left in `offspring`. -/
theorem generation_ok_inv (h : Helpers σ ε F D) (objective : ObjectiveFunction σ ε D)
    (genetic_params : GeneticParams F) (population next : List (KernelConfig D))
    (w w4 : World σ (Call ε D))
    (hgen : generation h objective genetic_params population w = (Except.ok next, w4)) :
    ∃ (fitness : List D) (w1 : World σ (Call ε D)) (selected offspring : List (KernelConfig D))
      (s2 s3 : σ),
      assessFitness objective population [] w = (Except.ok fitness, w1) ∧
      h.selection population fitness w1.state = (Except.ok selected, s2) ∧
      h.crossover selected genetic_params.crossover_rate s2 = (Except.ok offspring, s3) ∧
      h.mutation offspring genetic_params.mutation_rate s3 = (Except.ok next, w4.state) ∧
      w4.log = w1.log := by
  unfold generation at hgen
  rcases hfit : assessFitness objective population [] w with ⟨r, w1⟩
  rw [hfit] at hgen
  cases r with
  | error e => simp at hgen
  | ok fitness =>
    simp only [World.run] at hgen
    rcases hsel : h.selection population fitness w1.state with ⟨r2, s2⟩
    rw [hsel] at hgen
    cases r2 with
    | error e => simp at hgen
    | ok selected =>
      simp only at hgen
      rcases hcross : h.crossover selected genetic_params.crossover_rate s2 with ⟨r3, s3⟩
      rw [hcross] at hgen
      cases r3 with
      | error e => simp at hgen
      | ok offspring =>
        simp only [Prod.mk.injEq] at hgen
        obtain ⟨h1, h2⟩ := hgen
        subst h2
        exact ⟨fitness, w1, selected, offspring, s2, s3, rfl, hsel, hcross,
          Prod.ext h1 rfl, rfl⟩

theorem propagated_of_noFailure {α : Type} (r : Except ε α) (log : List (Call ε D))
    (hlog : NoFailure log) : Propagated r log :=
  fun call hmem e he => absurd he (hlog call hmem e)

theorem noFailure_of_propagated_ok {α : Type} (a : α) (log : List (Call ε D))
    (hlog : Propagated (Except.ok a : Except ε α) log) : NoFailure log := by
  intro call hmem e he
  have h := (hlog call hmem e he).1
  simp at h

theorem propagated_error {α β : Type} (e : ε) (log : List (Call ε D))
    (hlog : Propagated (Except.error e : Except ε α) log) :
    Propagated (Except.error e : Except ε β) log := by
  intro call hmem e1 he1
  obtain ⟨h1, h2⟩ := hlog call hmem e1 he1
  simp only [Except.error.injEq] at h1
  subst h1
  exact ⟨rfl, h2⟩

/-- The fitness loop stops at the first objective call that throws, and ends in
that exception. -/
theorem assessFitness_propagated (objective : ObjectiveFunction σ ε D) :
    ∀ (population : List (KernelConfig D)) (fitness : List D) (w : World σ (Call ε D)),
      NoFailure w.log →
        Propagated (assessFitness objective population fitness w).1
          (assessFitness objective population fitness w).2.log
  | [], fitness, w, hw => by
    simpa [assessFitness] using propagated_of_noFailure _ _ hw
  | config :: rest, fitness, w, hw => by
    rcases hcall : callObjective objective config w with ⟨r, w1⟩
    have hlog : w1.log = w.log ++ [{ config := config, outcome := r }] := by
      have h := callObjective_log objective config w
      rw [hcall] at h
      exact h
    cases r with
    | error e =>
      rw [assessFitness_cons_error objective config rest fitness w w1 e hcall]
      intro call hmem e1 he1
      simp only [hlog, List.mem_append, List.mem_singleton] at hmem
      rcases hmem with hmem | hmem
      · exact absurd he1 (hw call hmem e1)
      · subst hmem
        simp only [Except.error.injEq] at he1
        subst he1
        simp [hlog]
    | ok v =>
      rw [assessFitness_cons_ok objective config rest fitness w w1 v hcall]
      apply assessFitness_propagated objective rest (fitness ++ [v]) w1
      intro call hmem e1 he1
      simp only [hlog, List.mem_append, List.mem_singleton] at hmem
      rcases hmem with hmem | hmem
      · exact absurd he1 (hw call hmem e1)
      · subst hmem
        simp at he1

theorem generation_propagated (h : Helpers σ ε F D) (objective : ObjectiveFunction σ ε D)
    (genetic_params : GeneticParams F) (population : List (KernelConfig D))
    (w : World σ (Call ε D)) (hw : NoFailure w.log) :
    Propagated (generation h objective genetic_params population w).1
      (generation h objective genetic_params population w).2.log := by
  have hfit := assessFitness_propagated objective population [] w hw
  rcases hrun : assessFitness objective population [] w with ⟨r, w1⟩
  rw [hrun] at hfit
  cases r with
  | error e =>
    rw [generation_error h objective genetic_params population w w1 e hrun]
    exact propagated_error e w1.log hfit
  | ok fitness =>
    apply propagated_of_noFailure
    rw [generation_log, hrun]
    exact noFailure_of_propagated_ok fitness w1.log hfit

theorem generationLoop_propagated (h : Helpers σ ε F D) (objective : ObjectiveFunction σ ε D)
    (genetic_params : GeneticParams F) :
    ∀ (n : Nat) (population : List (KernelConfig D)) (w : World σ (Call ε D)),
      NoFailure w.log →
        Propagated (generationLoop h objective genetic_params n population w).1
          (generationLoop h objective genetic_params n population w).2.log
  | 0, population, w, hw => by
    simpa [generationLoop] using propagated_of_noFailure _ _ hw
  | n + 1, population, w, hw => by
    have hgen := generation_propagated h objective genetic_params population w hw
    rcases hrun : generation h objective genetic_params population w with ⟨r, w1⟩
    rw [hrun] at hgen
    cases r with
    | error e =>
      simp only [generationLoop, hrun]
      exact hgen
    | ok offspring =>
      simp only [generationLoop, hrun]
      exact generationLoop_propagated h objective genetic_params n offspring w1
        (noFailure_of_propagated_ok offspring w1.log hgen)

theorem geneticOptimization_propagated (h : Helpers σ ε F D)
    (params : List (TuningParameter D)) (objective : ObjectiveFunction σ ε D)
    (genetic_params : GeneticParams F) (w : World σ (Call ε D)) (hw : NoFailure w.log) :
    Propagated (geneticOptimization h params objective genetic_params w).1
      (geneticOptimization h params objective genetic_params w).2.log := by
  unfold geneticOptimization
  simp only [World.run]
  rcases h.initializePopulation genetic_params.population_size w.state with ⟨r0, s0⟩
  cases r0 with
  | error e => exact propagated_of_noFailure _ _ hw
  | ok population =>
    simp only
    have hloop := generationLoop_propagated h objective genetic_params
      genetic_params.num_generations population { state := s0, log := w.log } hw
    rcases hrun : generationLoop h objective genetic_params genetic_params.num_generations
      population { state := s0, log := w.log } with ⟨r1, w1⟩
    rw [hrun] at hloop
    cases r1 with
    | error e => exact propagated_error e w1.log hloop
    | ok final =>
      exact propagated_of_noFailure _ _ (noFailure_of_propagated_ok final w1.log hloop)

/-- The fitness loop calls the objective on members of the population only. -/
theorem assessFitness_log_mem (objective : ObjectiveFunction σ ε D)
    (population : List (KernelConfig D)) (fitness : List D) (w : World σ (Call ε D))
    (P : KernelConfig D → Prop) (hpop : ∀ c ∈ population, P c)
    (hw : ∀ call ∈ w.log, P call.config) :
    ∀ call ∈ (assessFitness objective population fitness w).2.log, P call.config := by
  intro call hmem
  obtain ⟨k, hk⟩ := assessFitness_configs objective population fitness w
  have hcfg : call.config ∈ (assessFitness objective population fitness w).2.log.map Call.config :=
    List.mem_map_of_mem Call.config hmem
  rw [hk, List.mem_append] at hcfg
  rcases hcfg with hcfg | hcfg
  · obtain ⟨call1, hmem1, heq⟩ := List.mem_map.mp hcfg
    rw [← heq]
    exact hw call1 hmem1
  · exact hpop _ (List.mem_of_mem_take hcfg)

theorem generation_keep (h : Helpers σ ε F D) (objective : ObjectiveFunction σ ε D)
    (genetic_params : GeneticParams F) (population : List (KernelConfig D))
    (w : World σ (Call ε D)) (P : KernelConfig D → Prop) (hkeep : h.Keep P)
    (hpop : ∀ c ∈ population, P c) (hw : ∀ call ∈ w.log, P call.config) :
    (∀ call ∈ (generation h objective genetic_params population w).2.log, P call.config) ∧
      ∀ next w4, generation h objective genetic_params population w = (Except.ok next, w4) →
        ∀ c ∈ next, P c := by
  refine ⟨?_, ?_⟩
  · rw [generation_log]
    exact assessFitness_log_mem objective population [] w P hpop hw
  · intro next w4 hgen
    obtain ⟨fitness, w1, selected, offspring, s2, s3, -, hsel, hcross, hmut, -⟩ :=
      generation_ok_inv h objective genetic_params population next w w4 hgen
    obtain ⟨-, ksel, kcross, kmut⟩ := hkeep
    exact kmut offspring _ s3 next _
      (kcross selected _ s2 offspring s3 (ksel population fitness _ selected s2 hpop hsel) hcross)
      hmut

theorem generationLoop_keep (h : Helpers σ ε F D) (objective : ObjectiveFunction σ ε D)
    (genetic_params : GeneticParams F) (P : KernelConfig D → Prop) (hkeep : h.Keep P) :
    ∀ (n : Nat) (population : List (KernelConfig D)) (w : World σ (Call ε D)),
      (∀ c ∈ population, P c) → (∀ call ∈ w.log, P call.config) →
        ∀ call ∈ (generationLoop h objective genetic_params n population w).2.log,
          P call.config
  | 0, population, w, _, hw => by
    simpa [generationLoop] using hw
  | n + 1, population, w, hpop, hw => by
    obtain ⟨hlog, hnext⟩ :=
      generation_keep h objective genetic_params population w P hkeep hpop hw
    rcases hrun : generation h objective genetic_params population w with ⟨r, w1⟩
    rw [hrun] at hlog
    cases r with
    | error e =>
      simp only [generationLoop, hrun]
      exact hlog
    | ok offspring =>
      simp only [generationLoop, hrun]
      exact generationLoop_keep h objective genetic_params P hkeep n offspring w1
        (hnext offspring w1 hrun) hlog

theorem geneticOptimization_log (h : Helpers σ ε F D)
    (params : List (TuningParameter D)) (objective : ObjectiveFunction σ ε D)
    (genetic_params : GeneticParams F) (w : World σ (Call ε D))
    (population : List (KernelConfig D)) (s0 : σ)
    (hinit : h.initializePopulation genetic_params.population_size w.state =
      (Except.ok population, s0)) :
    (geneticOptimization h params objective genetic_params w).2.log =
      (generationLoop h objective genetic_params genetic_params.num_generations population
        { state := s0, log := w.log }).2.log := by
  unfold geneticOptimization
  simp only [World.run, hinit]
  rcases generationLoop h objective genetic_params genetic_params.num_generations
    population { state := s0, log := w.log } with ⟨r1, w1⟩
  cases r1 with
  | error e => rfl
  | ok final => rfl

theorem validateConfig_resample (config : KernelConfig Int) :
    validateConfig noRegisters fullOccupancy limits (resample config) = true := by
  simp [validateConfig, resample, noRegisters, fullOccupancy, limits]

/-- The helpers of the concrete runs only hand out valid configs when the
candidates are valid. -/
theorem tableHelpers_keep (candidates : List (KernelConfig Int))
    (hvalid : ∀ c ∈ candidates, validateConfig noRegisters fullOccupancy limits c = true) :
    (tableHelpers candidates).Keep
      (fun c => validateConfig noRegisters fullOccupancy limits c = true) := by
  refine ⟨?_, ?_, ?_, ?_⟩
  · intro n s population s1 hrun c hc
    simp only [tableHelpers, Prod.mk.injEq, Except.ok.injEq] at hrun
    obtain ⟨h1, -⟩ := hrun
    subst h1
    exact hvalid c (List.mem_of_mem_take hc)
  · intro population fitness s selected s1 hpop hrun c hc
    simp only [tableHelpers, Prod.mk.injEq, Except.ok.injEq] at hrun
    obtain ⟨h1, -⟩ := hrun
    subst h1
    exact hpop c hc
  · intro selected rate s offspring s1 hpop hrun c hc
    simp only [tableHelpers, Prod.mk.injEq, Except.ok.injEq] at hrun
    obtain ⟨h1, -⟩ := hrun
    subst h1
    exact hpop c hc
  · intro offspring rate s mutated s1 hpop hrun c hc
    simp only [tableHelpers] at hrun
    split at hrun
    · simp only [Prod.mk.injEq, Except.ok.injEq] at hrun
      obtain ⟨h1, -⟩ := hrun
      subst h1
      exact hpop c hc
    · simp only [Prod.mk.injEq, Except.ok.injEq] at hrun
      obtain ⟨h1, -⟩ := hrun
      subst h1
      obtain ⟨c1, -, heq⟩ := List.mem_map.mp hc
      rw [← heq]
      exact validateConfig_resample c1

/-- The scan of findBestConfigSpec on a deterministic objective returns the
config it started from or a later member, of greatest value among them. -/
theorem findBestFrom_deterministic [LinearOrder D] (f : KernelConfig D → D) :
    ∀ (rest : List (KernelConfig D)) (best : KernelConfig D) (s : σ),
      ∃ b, findBestFrom (deterministicObjective f : ObjectiveFunction σ ε D) best (f best) rest s =
          (Except.ok b, s) ∧
        (b = best ∨ b ∈ rest) ∧ f best ≤ f b ∧ ∀ c ∈ rest, f c ≤ f b
  | [], best, s => ⟨best, by simp [findBestFrom]⟩
  | config :: rest, best, s => by
    by_cases hlt : f best < f config
    · obtain ⟨b, hrun, hmem, hle, hall⟩ := findBestFrom_deterministic f rest config s
      refine ⟨b, ?_, ?_, le_trans (le_of_lt hlt) hle, ?_⟩
      · simp only [findBestFrom, deterministicObjective, hlt, if_true]
        exact hrun
      · rcases hmem with hmem | hmem
        · exact Or.inr (hmem ▸ List.mem_cons_self _ _)
        · exact Or.inr (List.mem_cons_of_mem _ hmem)
      · intro c hc
        rcases List.mem_cons.mp hc with hc | hc
        · exact hc ▸ hle
        · exact hall c hc
    · obtain ⟨b, hrun, hmem, hle, hall⟩ := findBestFrom_deterministic f rest best s
      refine ⟨b, ?_, ?_, hle, ?_⟩
      · simp only [findBestFrom, deterministicObjective, hlt, if_false]
        exact hrun
      · rcases hmem with hmem | hmem
        · exact Or.inl hmem
        · exact Or.inr (List.mem_cons_of_mem _ hmem)
      · intro c hc
        rcases List.mem_cons.mp hc with hc | hc
        · exact hc ▸ le_trans (not_lt.mp hlt) hle
        · exact hall c hc

/-- On a deterministic objective findBestConfigSpec returns a member of the
population of greatest objective value. -/
theorem findBestConfigSpec_deterministic [LinearOrder D] (d0 : dim3) (f : KernelConfig D → D)
    (population : List (KernelConfig D)) (s : σ) :
    ∃ b, findBestConfigSpec d0 population (deterministicObjective f : ObjectiveFunction σ ε D) s =
        (Except.ok b, s) ∧
      (population ≠ [] → b ∈ population) ∧ ∀ c ∈ population, f c ≤ f b := by
  cases population with
  | nil => exact ⟨KernelConfig.init d0, by simp [findBestConfigSpec]⟩
  | cons config rest =>
    obtain ⟨b, hrun, hmem, hle, hall⟩ :=
      findBestFrom_deterministic (σ := σ) (ε := ε) f rest config s
    refine ⟨b, ?_, ?_, ?_⟩
    · simp only [findBestConfigSpec, deterministicObjective]
      exact hrun
    · intro _
      rcases hmem with hmem | hmem
      · exact hmem ▸ List.mem_cons_self _ _
      · exact List.mem_cons_of_mem _ hmem
    · intro c hc
      rcases List.mem_cons.mp hc with hc | hc
      · exact hc ▸ hle
      · exact hall c hc

end Lemmas

/-! ## The claims on geneticOptimization -/

section Genetic

variable {σ ε F D : Type}

/-- C1, as amended.  geneticOptimization checks no constraint itself: the
objective is invoked on members of the populations only, so when the helpers
only hand out valid configs (`Helpers.Keep` for validateConfig), every config
on which the generation loop invokes the objective is valid. -/
theorem geneticOptimization_calls_valid (h : Helpers σ ε F D)
    (params : List (TuningParameter D)) (objective : ObjectiveFunction σ ε D)
    (genetic_params : GeneticParams F) (w : World σ (Call ε D))
    (registers occupancy : KernelConfig D → Nat) (constraints_ : TuningConstraints)
    (hkeep : h.Keep (fun c => validateConfig registers occupancy constraints_ c = true))
    (hw : w.log = []) :
    ∀ call ∈ (geneticOptimization h params objective genetic_params w).2.log,
      validateConfig registers occupancy constraints_ call.config = true := by
  rcases hinit : h.initializePopulation genetic_params.population_size w.state with ⟨r0, s0⟩
  cases r0 with
  | error e =>
    intro call hmem
    simp [geneticOptimization, World.run, hinit, hw] at hmem
  | ok population =>
    rw [geneticOptimization_log h params objective genetic_params w population s0 hinit]
    apply generationLoop_keep h objective genetic_params _ hkeep
    · exact hkeep.1 _ _ _ _ hinit
    · intro call hmem
      simp [hw] at hmem

/-- C1, the amended statement at a concrete run: two generations from the
population `[cfg 16]` with every offspring resampled; both calls are on valid
configs. -/
theorem geneticOptimization_calls_valid_witness :
    (geneticOptimization (tableHelpers [cfg 16]) [] scoreObjective (geneticParams 1 2 1)
        start).2.log.map Call.config = [cfg 16, cfg 8] ∧
      ∀ call ∈ (geneticOptimization (tableHelpers [cfg 16]) [] scoreObjective
          (geneticParams 1 2 1) start).2.log,
        validateConfig noRegisters fullOccupancy limits call.config = true :=
  ⟨rfl, geneticOptimization_calls_valid (tableHelpers [cfg 16]) [] scoreObjective
    (geneticParams 1 2 1) start noRegisters fullOccupancy limits
    (tableHelpers_keep [cfg 16] (by decide)) rfl⟩

/-- C1, refuted as stated: with a shared-memory limit of 48 bytes the config
`cfg 64` is invalid, it is held in the initial population, and the objective is
invoked on it. -/
theorem geneticOptimization_calls_invalid_config :
    validateConfig noRegisters fullOccupancy limits (cfg 64) = false ∧
      (tableHelpers [cfg 64]).initializePopulation (geneticParams 1 1 0).population_size () =
        (Except.ok [cfg 64], ()) ∧
      (geneticOptimization (tableHelpers [cfg 64]) [] scoreObjective (geneticParams 1 1 0)
        start).2.log.map Call.config = [cfg 64] :=
  ⟨rfl, rfl, rfl⟩

/-- C2, as amended.  geneticOptimization keeps no memo: a generation whose body
completes has invoked the objective once for every member of its population,
in population order, duplicates included. -/
theorem generation_evaluates_every_member (h : Helpers σ ε F D)
    (objective : ObjectiveFunction σ ε D) (genetic_params : GeneticParams F)
    (population next : List (KernelConfig D)) (w w4 : World σ (Call ε D))
    (hgen : generation h objective genetic_params population w = (Except.ok next, w4)) :
    w4.log.map Call.config = w.log.map Call.config ++ population := by
  obtain ⟨fitness, w1, selected, offspring, s2, s3, hfit, -, -, -, hlog⟩ :=
    generation_ok_inv h objective genetic_params population next w w4 hgen
  rw [hlog]
  exact (assessFitness_configs_ok objective population [] fitness w w1 hfit).1

/-- C2, the amended statement at a concrete run: the population `[cfg 16, cfg 16]`
is evaluated member by member. -/
theorem generation_evaluates_every_member_witness :
    (generation (tableHelpers []) scoreObjective (geneticParams 2 1 0) [cfg 16, cfg 16]
        start).2.log.map Call.config = [] ++ [cfg 16, cfg 16] :=
  generation_evaluates_every_member (tableHelpers []) scoreObjective (geneticParams 2 1 0)
    [cfg 16, cfg 16] [cfg 16, cfg 16] start
    (generation (tableHelpers []) scoreObjective (geneticParams 2 1 0) [cfg 16, cfg 16]
      start).2 rfl

/-- C2, refuted as stated: in a single generation over the population
`[cfg 16, cfg 16]` the objective is invoked twice on the config `cfg 16`. -/
theorem geneticOptimization_evaluates_duplicate_twice :
    ((geneticOptimization (tableHelpers [cfg 16, cfg 16]) [] scoreObjective
        (geneticParams 2 1 0) start).2.log.map Call.config).count (cfg 16) = 2 := by
  decide

/-- C3, as amended.  geneticOptimization does not catch a failing objective:
when an objective call of the generation loop throws, that call is the last
one made and geneticOptimization ends in the exception it threw, returning no
KernelConfig. -/
theorem geneticOptimization_objective_failure_propagates (h : Helpers σ ε F D)
    (params : List (TuningParameter D)) (objective : ObjectiveFunction σ ε D)
    (genetic_params : GeneticParams F) (w : World σ (Call ε D)) (hw : w.log = [])
    (call : Call ε D) (e : ε)
    (hmem : call ∈ (geneticOptimization h params objective genetic_params w).2.log)
    (hfail : call.outcome = Except.error e) :
    (geneticOptimization h params objective genetic_params w).1 = Except.error e ∧
      (geneticOptimization h params objective genetic_params w).2.log.getLast? = some call := by
  have hno : NoFailure w.log := by
    intro c hc
    simp [hw] at hc
  exact geneticOptimization_propagated h params objective genetic_params w hno call hmem e hfail

/-- C3, the amended statement at a concrete run: the trial of `cfg 64` fails,
the run ends in that failure and `cfg 16` is never evaluated. -/
theorem geneticOptimization_objective_failure_propagates_witness :
    (geneticOptimization (tableHelpers [cfg 64, cfg 16]) [] failingObjective
        (geneticParams 2 1 0) start).1 = Except.error "MeasurementFailure" ∧
      (geneticOptimization (tableHelpers [cfg 64, cfg 16]) [] failingObjective
        (geneticParams 2 1 0) start).2.log.getLast? =
          some { config := cfg 64, outcome := Except.error "MeasurementFailure" } :=
  geneticOptimization_objective_failure_propagates (tableHelpers [cfg 64, cfg 16]) []
    failingObjective (geneticParams 2 1 0) start rfl
    { config := cfg 64, outcome := Except.error "MeasurementFailure" } "MeasurementFailure"
    (List.Mem.head _) rfl

/-- C3, refuted as stated: the objective throws on the first candidate and
geneticOptimization ends in that exception instead of returning a KernelConfig;
the remaining candidate `cfg 16` is not processed. -/
theorem geneticOptimization_aborts_on_failure :
    (geneticOptimization (tableHelpers [cfg 64, cfg 16]) [] failingObjective
        (geneticParams 2 1 0) start).1 = Except.error "MeasurementFailure" ∧
      (geneticOptimization (tableHelpers [cfg 64, cfg 16]) [] failingObjective
        (geneticParams 2 1 0) start).2.log.map Call.config = [cfg 64] :=
  ⟨rfl, rfl⟩

/-- C4, as amended.  The generation body has no elitism step: when it completes,
the next population is exactly what mutation left of the offspring that
crossover made of the configs that selection chose from the current population
and its fitness vector (one fitness value per member). -/
theorem generation_next_population (h : Helpers σ ε F D)
    (objective : ObjectiveFunction σ ε D) (genetic_params : GeneticParams F)
    (population next : List (KernelConfig D)) (w w4 : World σ (Call ε D))
    (hgen : generation h objective genetic_params population w = (Except.ok next, w4)) :
    ∃ (fitness : List D) (w1 : World σ (Call ε D)) (selected offspring : List (KernelConfig D))
      (s2 s3 : σ),
      assessFitness objective population [] w = (Except.ok fitness, w1) ∧
      fitness.length = population.length ∧
      h.selection population fitness w1.state = (Except.ok selected, s2) ∧
      h.crossover selected genetic_params.crossover_rate s2 = (Except.ok offspring, s3) ∧
      h.mutation offspring genetic_params.mutation_rate s3 = (Except.ok next, w4.state) := by
  obtain ⟨fitness, w1, selected, offspring, s2, s3, hfit, hsel, hcross, hmut, -⟩ :=
    generation_ok_inv h objective genetic_params population next w w4 hgen
  have hlen := (assessFitness_configs_ok objective population [] fitness w w1 hfit).2
  exact ⟨fitness, w1, selected, offspring, s2, s3, hfit, by simpa using hlen, hsel, hcross, hmut⟩

/-- C4, the amended statement at a concrete generation: population
`[cfg 16, cfg 8]`, mutation rate 1. -/
theorem generation_next_population_witness :
    ∃ (fitness : List Int) (w1 : World Unit (Call String Int))
      (selected offspring : List (KernelConfig Int)) (s2 s3 : Unit),
      assessFitness scoreObjective [cfg 16, cfg 8] [] start = (Except.ok fitness, w1) ∧
      fitness.length = [cfg 16, cfg 8].length ∧
      (tableHelpers []).selection [cfg 16, cfg 8] fitness w1.state = (Except.ok selected, s2) ∧
      (tableHelpers []).crossover selected (geneticParams 2 1 1).crossover_rate s2 =
        (Except.ok offspring, s3) ∧
      (tableHelpers []).mutation offspring (geneticParams 2 1 1).mutation_rate s3 =
        (Except.ok [cfg 8, cfg 8], ()) :=
  generation_next_population (tableHelpers []) scoreObjective (geneticParams 2 1 1)
    [cfg 16, cfg 8] [cfg 8, cfg 8] start
    (generation (tableHelpers []) scoreObjective (geneticParams 2 1 1) [cfg 16, cfg 8]
      start).2 rfl

/-- C4, refuted as stated: with mutation rate 1 every offspring is resampled; the
population `[cfg 16, cfg 8]`, whose best member `cfg 16` has fitness 16, is
followed by `[cfg 8, cfg 8]`, which does not contain `cfg 16` and whose best
fitness is 8.  The last conjunct is the same fact seen in a run of
geneticOptimization over two generations: the objective is called on the
initial population and then on `[cfg 8, cfg 8]`. -/
theorem generation_drops_best_config :
    (generation (tableHelpers []) scoreObjective (geneticParams 2 1 1) [cfg 16, cfg 8]
        start).1 = Except.ok [cfg 8, cfg 8] ∧
      (assessFitness scoreObjective [cfg 16, cfg 8] [] start).1 = Except.ok [16, 8] ∧
      (∀ c ∈ [cfg 16, cfg 8], score c ≤ score (cfg 16)) ∧
      cfg 16 ∉ [cfg 8, cfg 8] ∧
      (∀ c ∈ [cfg 8, cfg 8], score c < score (cfg 16)) ∧
      (geneticOptimization (tableHelpers [cfg 16, cfg 8]) [] scoreObjective
        (geneticParams 2 2 1) start).2.log.map (fun call => (call.config, call.outcome)) =
          [(cfg 16, Except.ok 16), (cfg 8, Except.ok 8), (cfg 8, Except.ok 8),
           (cfg 8, Except.ok 8)] :=
  ⟨rfl, rfl, by decide, by decide, by decide, rfl⟩

/-- C5, as amended.  geneticOptimization returns findBestConfig of the final
population, the offspring of the last generation: when findBestConfig returns
a member of greatest objective value (findBestConfigSpec) and the objective is
deterministic, the returned config is a member of the final population whose
objective value is at least that of every member of the final population. -/
theorem geneticOptimization_returns_best_of_final_population [LinearOrder D]
    (h : Helpers σ ε F D) (d0 : dim3) (params : List (TuningParameter D))
    (f : KernelConfig D → D) (genetic_params : GeneticParams F) (w w1 : World σ (Call ε D))
    (population final : List (KernelConfig D)) (s0 : σ)
    (hbest : h.findBestConfig = findBestConfigSpec d0)
    (hinit : h.initializePopulation genetic_params.population_size w.state =
      (Except.ok population, s0))
    (hloop : generationLoop h (deterministicObjective f) genetic_params
      genetic_params.num_generations population { state := s0, log := w.log } =
        (Except.ok final, w1)) :
    ∃ best, (geneticOptimization h params (deterministicObjective f) genetic_params w).1 =
        Except.ok best ∧
      (final ≠ [] → best ∈ final) ∧ ∀ c ∈ final, f c ≤ f best := by
  obtain ⟨b, hrun, hmem, hall⟩ :=
    findBestConfigSpec_deterministic (σ := σ) (ε := ε) d0 f final w1.state
  refine ⟨b, ?_, hmem, hall⟩
  simp only [geneticOptimization, World.run, hinit, hloop, hbest, hrun]

/-- C5, the amended statement at a concrete run: one generation from `[cfg 16]`
with mutation rate 1; the final population is `[cfg 8]`. -/
theorem geneticOptimization_returns_best_of_final_population_witness :
    ∃ best, (geneticOptimization (tableHelpers [cfg 16]) [] (deterministicObjective score)
        (geneticParams 1 1 1) start).1 = Except.ok best ∧
      ([cfg 8] ≠ [] → best ∈ [cfg 8]) ∧ ∀ c ∈ [cfg 8], score c ≤ score best :=
  geneticOptimization_returns_best_of_final_population (tableHelpers [cfg 16])
    { x := 1, y := 1, z := 1 } [] score (geneticParams 1 1 1) start
    { state := (), log := [{ config := cfg 16, outcome := Except.ok 16 }] }
    [cfg 16] [cfg 8] () rfl rfl rfl

/-- C5, refuted as stated: one generation from `[cfg 16]` with mutation rate 1.
The loop evaluates `cfg 16`, of objective value 16; the config returned is
`cfg 8`, of objective value 8. -/
theorem geneticOptimization_returns_worse_than_evaluated :
    (geneticOptimization (tableHelpers [cfg 16]) [] scoreObjective (geneticParams 1 1 1)
        start).1 = Except.ok (cfg 8) ∧
      (geneticOptimization (tableHelpers [cfg 16]) [] scoreObjective (geneticParams 1 1 1)
        start).2.log.map (fun call => (call.config, call.outcome)) =
          [(cfg 16, Except.ok 16)] ∧
      (scoreObjective (cfg 8) ()).1 = Except.ok 8 ∧
      ¬ ((16 : Int) ≤ 8) :=
  ⟨rfl, rfl, rfl, by decide⟩

end Genetic

/-! ## The claims on optimizeKernel and combineOptimizations -/

section Kernel

variable {σ ε F D : Type}

/-- C6, as amended.  optimizeKernel has no fallback: it returns a TuningResult
exactly when the memory-optimizer step and the scheduling step both return,
and it ends in the exception `e` exactly when one of the two steps throws `e`
(the scheduling step being run only after the memory-optimizer step returned). -/
theorem optimizeKernel_returns_iff_steps_return [Zero F] (steps : Steps σ ε F) (d0 : dim3)
    (uninit : D) (kernel_name ptx_code : String) (w : World σ (StepCall F D)) :
    ((∃ result, (optimizeKernel steps d0 uninit kernel_name ptx_code w).1 = Except.ok result) ↔
      ∃ memory_opt s1 schedule_opt s2,
        steps.optimizeAccessPattern ptx_code (analyzeMemoryPattern ptx_code) w.state =
          (Except.ok memory_opt, s1) ∧
        steps.optimizeScheduling memory_opt.ptx_code s1 = (Except.ok schedule_opt, s2)) ∧
    ∀ e, (optimizeKernel steps d0 uninit kernel_name ptx_code w).1 = Except.error e ↔
      ((∃ s1, steps.optimizeAccessPattern ptx_code (analyzeMemoryPattern ptx_code) w.state =
          (Except.error e, s1)) ∨
        ∃ memory_opt s1 s2,
          steps.optimizeAccessPattern ptx_code (analyzeMemoryPattern ptx_code) w.state =
            (Except.ok memory_opt, s1) ∧
          steps.optimizeScheduling memory_opt.ptx_code s1 = (Except.error e, s2)) := by
  rcases hm : steps.optimizeAccessPattern ptx_code (analyzeMemoryPattern ptx_code) w.state
    with ⟨r1, s1⟩
  cases r1 with
  | error e1 => simp [optimizeKernel, callOptimizeAccessPattern, callOptimizeScheduling,
      callOptimizeThreadBlocks, callCombineOptimizations, World.run, hm]
  | ok memory_opt =>
    rcases hs : steps.optimizeScheduling memory_opt.ptx_code s1 with ⟨r2, s2⟩
    cases r2 with
    | error e2 =>
      refine ⟨?_, ?_⟩
      · simp [optimizeKernel, callOptimizeAccessPattern, callOptimizeScheduling,
      callOptimizeThreadBlocks, callCombineOptimizations, World.run, hm, hs]
      · intro e
        simp only [optimizeKernel, callOptimizeAccessPattern, callOptimizeScheduling,
      callOptimizeThreadBlocks, callCombineOptimizations, World.run, hm, hs, Except.error.injEq]
        constructor
        · intro he
          exact Or.inr ⟨memory_opt, s1, s2, rfl, he ▸ hs⟩
        · rintro (⟨s3, h3⟩ | ⟨m3, s3, s4, h3, h4⟩)
          · simp at h3
          · simp only [Prod.mk.injEq, Except.ok.injEq] at h3
            obtain ⟨h5, h6⟩ := h3
            subst h5 h6
            rw [hs] at h4
            simp only [Prod.mk.injEq, Except.error.injEq] at h4
            exact h4.1
    | ok schedule_opt =>
      refine ⟨?_, ?_⟩
      · simp only [optimizeKernel, callOptimizeAccessPattern, callOptimizeScheduling,
      callOptimizeThreadBlocks, callCombineOptimizations, World.run, hm, hs]
        exact ⟨fun _ => ⟨memory_opt, s1, schedule_opt, s2, rfl, hs⟩, fun _ => ⟨_, rfl⟩⟩
      · intro e
        simp only [optimizeKernel, callOptimizeAccessPattern, callOptimizeScheduling,
      callOptimizeThreadBlocks, callCombineOptimizations, World.run, hm, hs]
        constructor
        · intro he
          simp at he
        · rintro (⟨s3, h3⟩ | ⟨m3, s3, s4, h3, h4⟩)
          · simp at h3
          · simp only [Prod.mk.injEq, Except.ok.injEq] at h3
            obtain ⟨h5, h6⟩ := h3
            subst h5 h6
            rw [hs] at h4
            simp at h4

/-- C6, refuted as stated: the scheduling step detects a cyclic dependency and
throws; optimizeKernel ends in that exception and returns no TuningResult. -/
theorem optimizeKernel_raises_on_cyclic_dependency :
    (optimizeKernel (tableSteps true) unitDim (0 : Int) "kernel" "ld.global.f32" start).1 =
      Except.error "CyclicDependency" :=
  rfl

/-- C7.  The data flow of optimizeKernel, for every input and every behaviour
of the two steps, as the log of the calls it makes shows: the memory optimizer
is called first, on the original ptx_code and the pattern analysed from it;
when it returns, the scheduler is called on the ptx_code of its result; when
that returns, optimizeThreadBlocks is called on the scheduler's optimized_ptx,
combineOptimizations is called on the thread-block config so obtained, the
memory-optimizer result and the scheduler result, and best_config is what it
returns.  A step that throws ends the call and no later call is made. -/
theorem optimizeKernel_data_flow [Zero F] (steps : Steps σ ε F) (d0 : dim3) (uninit : D)
    (kernel_name ptx_code : String) (w : World σ (StepCall F D)) :
    (∀ e s1, steps.optimizeAccessPattern ptx_code (analyzeMemoryPattern ptx_code) w.state =
        (Except.error e, s1) →
      optimizeKernel steps d0 uninit kernel_name ptx_code w =
        (Except.error e,
          { state := s1,
            log := w.log ++
              [StepCall.optimizeAccessPattern ptx_code (analyzeMemoryPattern ptx_code)] })) ∧
    (∀ memory_opt s1,
      steps.optimizeAccessPattern ptx_code (analyzeMemoryPattern ptx_code) w.state =
        (Except.ok memory_opt, s1) →
      (∀ e s2, steps.optimizeScheduling memory_opt.ptx_code s1 = (Except.error e, s2) →
        optimizeKernel steps d0 uninit kernel_name ptx_code w =
          (Except.error e,
            { state := s2,
              log := w.log ++
                [StepCall.optimizeAccessPattern ptx_code (analyzeMemoryPattern ptx_code),
                 StepCall.optimizeScheduling memory_opt.ptx_code] })) ∧
      (∀ schedule_opt s2,
        steps.optimizeScheduling memory_opt.ptx_code s1 = (Except.ok schedule_opt, s2) →
        optimizeKernel steps d0 uninit kernel_name ptx_code w =
          (Except.ok
            { best_config :=
                combineOptimizations (optimizeThreadBlocks d0 schedule_opt.optimized_ptx)
                  memory_opt schedule_opt,
              performance_metric := uninit,
              optimization_log := "" },
            { state := s2,
              log := w.log ++
                [StepCall.optimizeAccessPattern ptx_code (analyzeMemoryPattern ptx_code),
                 StepCall.optimizeScheduling memory_opt.ptx_code,
                 StepCall.optimizeThreadBlocks schedule_opt.optimized_ptx,
                 StepCall.combineOptimizations
                   (optimizeThreadBlocks d0 schedule_opt.optimized_ptx) memory_opt
                   schedule_opt] }))) := by
  refine ⟨?_, ?_⟩
  · intro e s1 hmem
    simp [optimizeKernel, callOptimizeAccessPattern, callOptimizeScheduling,
      callOptimizeThreadBlocks, callCombineOptimizations, World.run, hmem]
  · intro memory_opt s1 hmem
    refine ⟨?_, ?_⟩
    · intro e s2 hsched
      simp [optimizeKernel, callOptimizeAccessPattern, callOptimizeScheduling,
      callOptimizeThreadBlocks, callCombineOptimizations, World.run, hmem, hsched]
    · intro schedule_opt s2 hsched
      simp [optimizeKernel, callOptimizeAccessPattern, callOptimizeScheduling,
      callOptimizeThreadBlocks, callCombineOptimizations, World.run, hmem, hsched]

/-- C8, as amended.  The TuningResult returned by optimizeKernel carries
best_config only: its optimization_log is the empty string, whatever steps the
memory optimizer and the scheduler report, and its performance_metric is never
assigned and keeps the value held by the default-initialised local. -/
theorem optimizeKernel_log_empty_metric_unset [Zero F] (steps : Steps σ ε F) (d0 : dim3)
    (uninit : D) (kernel_name ptx_code : String) (w : World σ (StepCall F D))
    (result : TuningResult D)
    (hret : (optimizeKernel steps d0 uninit kernel_name ptx_code w).1 = Except.ok result) :
    result.optimization_log = "" ∧ result.performance_metric = uninit := by
  rcases hm : steps.optimizeAccessPattern ptx_code (analyzeMemoryPattern ptx_code) w.state
    with ⟨r1, s1⟩
  cases r1 with
  | error e1 => simp [optimizeKernel, callOptimizeAccessPattern, callOptimizeScheduling,
      callOptimizeThreadBlocks, callCombineOptimizations, World.run, hm] at hret
  | ok memory_opt =>
    rcases hs : steps.optimizeScheduling memory_opt.ptx_code s1 with ⟨r2, s2⟩
    cases r2 with
    | error e2 => simp [optimizeKernel, callOptimizeAccessPattern, callOptimizeScheduling,
      callOptimizeThreadBlocks, callCombineOptimizations, World.run, hm, hs] at hret
    | ok schedule_opt =>
      simp only [optimizeKernel, callOptimizeAccessPattern, callOptimizeScheduling,
      callOptimizeThreadBlocks, callCombineOptimizations, World.run, hm, hs, Except.ok.injEq] at hret
      subst hret
      exact ⟨rfl, rfl⟩

/-- C8, the amended statement at a concrete run in which both steps report a step. -/
theorem optimizeKernel_log_empty_metric_unset_witness :
    (optimizeKernel (tableSteps false) unitDim (7 : Int) "kernel" "ld.global.f32" start).1 =
        Except.ok (tableResult 7) ∧
      (tableResult 7).optimization_log = "" ∧ (tableResult 7).performance_metric = 7 :=
  ⟨rfl, optimizeKernel_log_empty_metric_unset (tableSteps false) unitDim (7 : Int) "kernel"
    "ld.global.f32" start (tableResult 7) rfl⟩

/-- C8, refuted as stated: the memory optimizer and the scheduler each report
one optimization step, and the optimization_log of the returned TuningResult is
empty; its performance_metric is whatever the uninitialised member held (7 in
one run, 8 in the other), for the same best_config. -/
theorem optimizeKernel_log_empty_with_steps :
    ((tableSteps false).optimizeAccessPattern "ld.global.f32"
        (analyzeMemoryPattern "ld.global.f32") ()).1 =
      Except.ok (accessOpt "ld.global.f32" 2) ∧
    (accessOpt "ld.global.f32" 2).optimization_steps ≠ [] ∧
    ((tableSteps false).optimizeScheduling "ld.global.f32" ()).1 =
      Except.ok (schedOpt "ld.global.f32" 1) ∧
    (schedOpt "ld.global.f32" 1).optimization_steps ≠ [] ∧
    (optimizeKernel (tableSteps false) unitDim (7 : Int) "kernel" "ld.global.f32" start).1 =
      Except.ok { best_config := KernelConfig.init unitDim, performance_metric := 7,
                  optimization_log := "" } ∧
    (optimizeKernel (tableSteps false) unitDim (8 : Int) "kernel" "ld.global.f32" start).1 =
      Except.ok { best_config := KernelConfig.init unitDim, performance_metric := 8,
                  optimization_log := "" } :=
  ⟨rfl, by decide, rfl, by decide, rfl, rfl⟩

/-- C9, as amended.  combineOptimizations returns the thread-block config
unchanged: its result is a function of block_config alone. -/
theorem combineOptimizations_eq_block_config (block_config : KernelConfig D)
    (memory_opt : AccessOptimization F) (schedule_opt : SchedulingResult F) :
    combineOptimizations block_config memory_opt schedule_opt = block_config :=
  rfl

/-- C9, refuted as stated: no two inputs that differ only in the
memory-optimizer output, and no two that differ only in the scheduler output,
give different combined configs. -/
theorem combineOptimizations_ignores_optimizer_outputs :
    (¬ ∃ (block_config : KernelConfig Int) (m1 m2 : AccessOptimization Int)
        (schedule_opt : SchedulingResult Int),
        combineOptimizations block_config m1 schedule_opt ≠
          combineOptimizations block_config m2 schedule_opt) ∧
    (¬ ∃ (block_config : KernelConfig Int) (memory_opt : AccessOptimization Int)
        (s1 s2 : SchedulingResult Int),
        combineOptimizations block_config memory_opt s1 ≠
          combineOptimizations block_config memory_opt s2) :=
  ⟨fun ⟨_, _, _, _, hne⟩ => hne rfl, fun ⟨_, _, _, _, hne⟩ => hne rfl⟩

/-- C10, as amended.  combineOptimizations enforces no limit: its result has the
shared_memory_size of the incoming block_config and satisfies the constraints
exactly when the incoming block_config does. -/
theorem combineOptimizations_valid_iff (registers occupancy : KernelConfig D → Nat)
    (constraints_ : TuningConstraints) (block_config : KernelConfig D)
    (memory_opt : AccessOptimization F) (schedule_opt : SchedulingResult F) :
    (combineOptimizations block_config memory_opt schedule_opt).shared_memory_size =
        block_config.shared_memory_size ∧
      (validateConfig registers occupancy constraints_
          (combineOptimizations block_config memory_opt schedule_opt) = true ↔
        validateConfig registers occupancy constraints_ block_config = true) :=
  ⟨rfl, Iff.rfl⟩

/-- C10, refuted as stated: with a shared-memory limit of 48 bytes, the
block_config `cfg 64` comes out of combineOptimizations with its 64 bytes of
shared memory, above the limit. -/
theorem combineOptimizations_keeps_invalid_config :
    (combineOptimizations (cfg 64) (accessOpt "ld.global.f32" 2)
        (schedOpt "ld.global.f32" 1)).shared_memory_size = 64 ∧
      ¬ (64 ≤ limits.max_shared_memory) ∧
      validateConfig noRegisters fullOccupancy limits
        (combineOptimizations (cfg 64) (accessOpt "ld.global.f32" 2)
          (schedOpt "ld.global.f32" 1)) = false :=
  ⟨rfl, by decide, rfl⟩

end Kernel

/-! ## Termination and the degenerate search -/

section Generations

variable {σ ε F D : Type}

theorem populationTrace_length_le (h : Helpers σ ε F D) (objective : ObjectiveFunction σ ε D)
    (genetic_params : GeneticParams F) :
    ∀ (n : Nat) (population : List (KernelConfig D)) (w : World σ (Call ε D)),
      (populationTrace h objective genetic_params n population w).length ≤ n
  | 0, population, w => by simp [populationTrace]
  | n + 1, population, w => by
    rcases hgen : generation h objective genetic_params population w with ⟨r, w1⟩
    cases r with
    | error e => simp [populationTrace, hgen]
    | ok offspring =>
      have ih := populationTrace_length_le h objective genetic_params n offspring w1
      simp only [populationTrace, hgen, List.length_cons]
      omega

/-- A generation loop that completes has entered its body `n` times, and the
objective calls it logged are the members of the populations of those `n`
iterations, in order. -/
theorem generationLoop_trace (h : Helpers σ ε F D) (objective : ObjectiveFunction σ ε D)
    (genetic_params : GeneticParams F) :
    ∀ (n : Nat) (population final : List (KernelConfig D)) (w w1 : World σ (Call ε D)),
      generationLoop h objective genetic_params n population w = (Except.ok final, w1) →
        (populationTrace h objective genetic_params n population w).length = n ∧
          w1.log.map Call.config =
            w.log.map Call.config ++
              (populationTrace h objective genetic_params n population w).flatten
  | 0, population, final, w, w1, hloop => by
    simp only [generationLoop, Prod.mk.injEq, Except.ok.injEq] at hloop
    obtain ⟨-, h2⟩ := hloop
    subst h2
    simp [populationTrace]
  | n + 1, population, final, w, w1, hloop => by
    rcases hgen : generation h objective genetic_params population w with ⟨r, w2⟩
    cases r with
    | error e => simp [generationLoop, hgen] at hloop
    | ok offspring =>
      simp only [generationLoop, hgen] at hloop
      obtain ⟨hlen, hlog⟩ :=
        generationLoop_trace h objective genetic_params n offspring final w2 w1 hloop
      obtain ⟨fitness, w3, selected, offspring1, s2, s3, hfit, -, -, -, hlog2⟩ :=
        generation_ok_inv h objective genetic_params population offspring w w2 hgen
      have hcfg := (assessFitness_configs_ok objective population [] fitness w w3 hfit).1
      refine ⟨?_, ?_⟩
      · simp only [populationTrace, hgen, List.length_cons, hlen]
      · simp only [populationTrace, hgen, List.flatten_cons]
        rw [hlog, hlog2, hcfg, List.append_assoc]

/-- A run of geneticOptimization that returns a config has completed its
generation loop. -/
theorem geneticOptimization_ok_inv (h : Helpers σ ε F D) (params : List (TuningParameter D))
    (objective : ObjectiveFunction σ ε D) (genetic_params : GeneticParams F)
    (w : World σ (Call ε D)) (population : List (KernelConfig D)) (s0 : σ)
    (best : KernelConfig D)
    (hinit : h.initializePopulation genetic_params.population_size w.state =
      (Except.ok population, s0))
    (hret : (geneticOptimization h params objective genetic_params w).1 = Except.ok best) :
    ∃ final w1,
      generationLoop h objective genetic_params genetic_params.num_generations population
        { state := s0, log := w.log } = (Except.ok final, w1) ∧
      (geneticOptimization h params objective genetic_params w).2.log = w1.log ∧
      (h.findBestConfig final objective w1.state).1 = Except.ok best := by
  rcases hloop : generationLoop h objective genetic_params genetic_params.num_generations
    population { state := s0, log := w.log } with ⟨r, w1⟩
  cases r with
  | error e => simp [geneticOptimization, World.run, hinit, hloop] at hret
  | ok final =>
    refine ⟨final, w1, rfl, ?_, ?_⟩
    · simp [geneticOptimization, World.run, hinit, hloop]
    · simpa [geneticOptimization, World.run, hinit, hloop] using hret

/-- A generation body that throws ends the generation loop, in the exception it
threw and in the world it left. -/
theorem generationLoop_error_stops (h : Helpers σ ε F D) (objective : ObjectiveFunction σ ε D)
    (genetic_params : GeneticParams F) (n : Nat) (population : List (KernelConfig D))
    (w w1 : World σ (Call ε D)) (e : ε)
    (hgen : generation h objective genetic_params population w = (Except.error e, w1)) :
    generationLoop h objective genetic_params (n + 1) population w = (Except.error e, w1) := by
  simp only [generationLoop, hgen]

/-- A generation loop that throws ends geneticOptimization, in the same
exception and the same world: findBestConfig is not called. -/
theorem geneticOptimization_loop_error (h : Helpers σ ε F D)
    (params : List (TuningParameter D)) (objective : ObjectiveFunction σ ε D)
    (genetic_params : GeneticParams F) (w w1 : World σ (Call ε D))
    (population : List (KernelConfig D)) (s0 : σ) (e : ε)
    (hinit : h.initializePopulation genetic_params.population_size w.state =
      (Except.ok population, s0))
    (hloop : generationLoop h objective genetic_params genetic_params.num_generations
      population { state := s0, log := w.log } = (Except.error e, w1)) :
    geneticOptimization h params objective genetic_params w = (Except.error e, w1) := by
  simp only [geneticOptimization, World.run, hinit, hloop]

/-- When the first `m` iterations of the generation loop complete, the loop of
`m + j` iterations goes on with the `j` remaining ones from where they ended. -/
theorem generationLoop_split (h : Helpers σ ε F D) (objective : ObjectiveFunction σ ε D)
    (genetic_params : GeneticParams F) (j : Nat) :
    ∀ (m : Nat) (population mid : List (KernelConfig D)) (w wm : World σ (Call ε D)),
      generationLoop h objective genetic_params m population w = (Except.ok mid, wm) →
        generationLoop h objective genetic_params (m + j) population w =
            generationLoop h objective genetic_params j mid wm ∧
          populationTrace h objective genetic_params (m + j) population w =
            populationTrace h objective genetic_params m population w ++
              populationTrace h objective genetic_params j mid wm
  | 0, population, mid, w, wm, hloop => by
    simp only [generationLoop, Prod.mk.injEq, Except.ok.injEq] at hloop
    obtain ⟨h1, h2⟩ := hloop
    subst h1 h2
    simp [populationTrace]
  | m + 1, population, mid, w, wm, hloop => by
    rcases hgen : generation h objective genetic_params population w with ⟨r, w2⟩
    cases r with
    | error e => simp [generationLoop, hgen] at hloop
    | ok offspring =>
      simp only [generationLoop, hgen] at hloop
      obtain ⟨ih1, ih2⟩ :=
        generationLoop_split h objective genetic_params j m offspring mid w2 wm hloop
      have hadd : m + 1 + j = (m + j) + 1 := by omega
      rw [hadd]
      refine ⟨?_, ?_⟩
      · simp only [generationLoop, hgen, ih1]
      · simp only [populationTrace, hgen, ih2, List.cons_append]

/-- When the first `m` of the num_generations iterations complete and the body
of the next one throws, geneticOptimization ends in that exception and in the
world the body left, and the loop body has been entered `m + 1` times. -/
theorem geneticOptimization_stops (h : Helpers σ ε F D)
    (params : List (TuningParameter D)) (objective : ObjectiveFunction σ ε D)
    (genetic_params : GeneticParams F) (w : World σ (Call ε D))
    (population : List (KernelConfig D)) (s0 : σ)
    (m : Nat) (mid : List (KernelConfig D)) (wm w1 : World σ (Call ε D)) (e : ε)
    (hinit : h.initializePopulation genetic_params.population_size w.state =
      (Except.ok population, s0))
    (hm : m < genetic_params.num_generations)
    (hloop : generationLoop h objective genetic_params m population
      { state := s0, log := w.log } = (Except.ok mid, wm))
    (hgen : generation h objective genetic_params mid wm = (Except.error e, w1)) :
    geneticOptimization h params objective genetic_params w = (Except.error e, w1) ∧
      (populationTrace h objective genetic_params genetic_params.num_generations population
        { state := s0, log := w.log }).length = m + 1 := by
  obtain ⟨j, hj⟩ : ∃ j, genetic_params.num_generations = m + (j + 1) :=
    ⟨genetic_params.num_generations - m - 1, by omega⟩
  obtain ⟨h1, h2⟩ := generationLoop_split h objective genetic_params (j + 1) m population mid
    { state := s0, log := w.log } wm hloop
  rw [generationLoop_error_stops h objective genetic_params j mid wm w1 e hgen] at h1
  refine ⟨?_, ?_⟩
  · apply geneticOptimization_loop_error h params objective genetic_params w w1 population s0 e
      hinit
    rw [hj]
    exact h1
  · rw [hj, h2, List.length_append,
      (generationLoop_trace h objective genetic_params m population mid _ wm hloop).1]
    simp [populationTrace, hgen]

/-- A generation loop that throws completed some `m` iterations and threw in
the body of the next one, ending in the world that body left. -/
theorem generationLoop_error_inv (h : Helpers σ ε F D) (objective : ObjectiveFunction σ ε D)
    (genetic_params : GeneticParams F) :
    ∀ (n : Nat) (population : List (KernelConfig D)) (w w1 : World σ (Call ε D)) (e : ε),
      generationLoop h objective genetic_params n population w = (Except.error e, w1) →
        ∃ (m : Nat) (mid : List (KernelConfig D)) (wm : World σ (Call ε D)), m < n ∧
          generationLoop h objective genetic_params m population w = (Except.ok mid, wm) ∧
          generation h objective genetic_params mid wm = (Except.error e, w1)
  | 0, population, w, w1, e, hloop => by simp [generationLoop] at hloop
  | n + 1, population, w, w1, e, hloop => by
    rcases hgen : generation h objective genetic_params population w with ⟨r, w2⟩
    cases r with
    | error e2 =>
      simp only [generationLoop, hgen, Prod.mk.injEq, Except.error.injEq] at hloop
      obtain ⟨h1, h2⟩ := hloop
      subst h1 h2
      exact ⟨0, population, w, by omega, by simp [generationLoop], hgen⟩
    | ok offspring =>
      simp only [generationLoop, hgen] at hloop
      obtain ⟨m, mid, wm, hm, hpre, hthrow⟩ :=
        generationLoop_error_inv h objective genetic_params n offspring w2 w1 e hloop
      exact ⟨m + 1, mid, wm, by omega, by simp only [generationLoop, hgen, hpre], hthrow⟩

/-- In every run of the generation loop, returning or not, the objective calls
logged are the members of the populations on which the body was entered, in
order: all members of each population but the last, and an initial segment of
the last. -/
theorem generationLoop_trace_all (h : Helpers σ ε F D) (objective : ObjectiveFunction σ ε D)
    (genetic_params : GeneticParams F) :
    ∀ (n : Nat) (population : List (KernelConfig D)) (w : World σ (Call ε D)),
      (populationTrace h objective genetic_params n population w = [] ∧
          (generationLoop h objective genetic_params n population w).2.log = w.log) ∨
        ∃ init last k,
          populationTrace h objective genetic_params n population w = init ++ [last] ∧
            (generationLoop h objective genetic_params n population w).2.log.map Call.config =
              w.log.map Call.config ++ init.flatten ++ last.take k
  | 0, population, w => Or.inl (by simp [populationTrace, generationLoop])
  | n + 1, population, w => by
    right
    rcases hgen : generation h objective genetic_params population w with ⟨r, w1⟩
    cases r with
    | error e =>
      obtain ⟨k, hk⟩ := assessFitness_configs objective population [] w
      rw [← generation_log h objective genetic_params population w, hgen] at hk
      refine ⟨[], population, k, ?_, ?_⟩
      · simp [populationTrace, hgen]
      · simp only [generationLoop, hgen, hk, List.flatten_nil, List.append_nil]
    | ok offspring =>
      obtain ⟨fitness, w3, selected, offspring1, s2, s3, hfit, -, -, -, hlog2⟩ :=
        generation_ok_inv h objective genetic_params population offspring w w1 hgen
      have hcfg := (assessFitness_configs_ok objective population [] fitness w w3 hfit).1
      rw [← hlog2] at hcfg
      rcases generationLoop_trace_all h objective genetic_params n offspring w1 with
        ⟨ht, hl⟩ | ⟨init, last, k, ht, hl⟩
      · refine ⟨[], population, population.length, ?_, ?_⟩
        · simp [populationTrace, hgen, ht]
        · simp only [generationLoop, hgen, hl, hcfg, List.flatten_nil, List.append_nil,
            List.take_length]
      · refine ⟨population :: init, last, k, ?_, ?_⟩
        · simp [populationTrace, hgen, ht]
        · simp only [generationLoop, hgen, hl, hcfg, List.flatten_cons, List.append_assoc]

/-- C11, as amended.  geneticOptimization has no convergence test: the body of
its generation loop is entered at most num_generations times; in every run
that returns a config it is entered exactly num_generations times, the
objective being called on every member of every one of these populations,
whatever the fitness values were; the loop ends earlier only when a call
throws: when the first m iterations complete and the body of the next one
throws, the run ends in that exception and in the world that body left, the
body having been entered m + 1 times; and in every run, returning or not, the
objective calls made are the members of the populations entered, all of each
population but the last and an initial segment of the last. -/
theorem geneticOptimization_runs_all_generations (h : Helpers σ ε F D)
    (params : List (TuningParameter D)) (objective : ObjectiveFunction σ ε D)
    (genetic_params : GeneticParams F) (w : World σ (Call ε D))
    (population : List (KernelConfig D)) (s0 : σ)
    (hinit : h.initializePopulation genetic_params.population_size w.state =
      (Except.ok population, s0)) :
    (populationTrace h objective genetic_params genetic_params.num_generations population
        { state := s0, log := w.log }).length ≤ genetic_params.num_generations ∧
      (∀ best, (geneticOptimization h params objective genetic_params w).1 = Except.ok best →
        (populationTrace h objective genetic_params genetic_params.num_generations population
            { state := s0, log := w.log }).length = genetic_params.num_generations ∧
          (geneticOptimization h params objective genetic_params w).2.log.map Call.config =
            w.log.map Call.config ++
              (populationTrace h objective genetic_params genetic_params.num_generations
                population { state := s0, log := w.log }).flatten) ∧
      (∀ (m : Nat) (mid : List (KernelConfig D)) (wm w1 : World σ (Call ε D)) (e : ε),
        m < genetic_params.num_generations →
        generationLoop h objective genetic_params m population
          { state := s0, log := w.log } = (Except.ok mid, wm) →
        generation h objective genetic_params mid wm = (Except.error e, w1) →
          geneticOptimization h params objective genetic_params w = (Except.error e, w1) ∧
            (populationTrace h objective genetic_params genetic_params.num_generations
              population { state := s0, log := w.log }).length = m + 1) ∧
      ((populationTrace h objective genetic_params genetic_params.num_generations population
            { state := s0, log := w.log } = [] ∧
          (geneticOptimization h params objective genetic_params w).2.log = w.log) ∨
        ∃ init last k,
          populationTrace h objective genetic_params genetic_params.num_generations population
              { state := s0, log := w.log } = init ++ [last] ∧
            (geneticOptimization h params objective genetic_params w).2.log.map Call.config =
              w.log.map Call.config ++ init.flatten ++ last.take k) := by
  refine ⟨populationTrace_length_le h objective genetic_params _ _ _, ?_, ?_, ?_⟩
  · intro best hret
    obtain ⟨final, w1, hloop, hlog, -⟩ :=
      geneticOptimization_ok_inv h params objective genetic_params w population s0 best hinit hret
    obtain ⟨hlen, hcfg⟩ := generationLoop_trace h objective genetic_params _ _ _ _ _ hloop
    exact ⟨hlen, by rw [hlog, hcfg]⟩
  · intro m mid wm w1 e hm hloop hgen
    exact geneticOptimization_stops h params objective genetic_params w population s0 m mid wm w1
      e hinit hm hloop hgen
  · rw [geneticOptimization_log h params objective genetic_params w population s0 hinit]
    exact generationLoop_trace_all h objective genetic_params genetic_params.num_generations
      population { state := s0, log := w.log }

/-- C11, the amended statement at two concrete runs: a run of five generations
that returns, and a run of two generations whose objective throws in the first. -/
theorem geneticOptimization_runs_all_generations_witness :
    ((populationTrace (tableHelpers [cfg 16]) scoreObjective (geneticParams 1 5 0) 5 [cfg 16]
        { state := (), log := [] }).length ≤ 5 ∧
      ∀ best, (geneticOptimization (tableHelpers [cfg 16]) [] scoreObjective
          (geneticParams 1 5 0) start).1 = Except.ok best →
        (populationTrace (tableHelpers [cfg 16]) scoreObjective (geneticParams 1 5 0) 5
            [cfg 16] { state := (), log := [] }).length = 5 ∧
          (geneticOptimization (tableHelpers [cfg 16]) [] scoreObjective (geneticParams 1 5 0)
              start).2.log.map Call.config =
            [] ++ (populationTrace (tableHelpers [cfg 16]) scoreObjective
              (geneticParams 1 5 0) 5 [cfg 16] { state := (), log := [] }).flatten) ∧
      (geneticOptimization (tableHelpers [cfg 16, cfg 64]) [] failingObjective
            (geneticParams 2 2 0) start =
          (Except.error "MeasurementFailure",
            { state := (),
              log := [{ config := cfg 16, outcome := Except.ok 16 },
                { config := cfg 64, outcome := Except.error "MeasurementFailure" }] }) ∧
        (populationTrace (tableHelpers [cfg 16, cfg 64]) failingObjective (geneticParams 2 2 0)
          (geneticParams 2 2 0).num_generations [cfg 16, cfg 64]
          { state := (), log := [] }).length = 0 + 1) :=
  ⟨⟨(geneticOptimization_runs_all_generations (tableHelpers [cfg 16]) [] scoreObjective
      (geneticParams 1 5 0) start [cfg 16] () rfl).1,
    (geneticOptimization_runs_all_generations (tableHelpers [cfg 16]) [] scoreObjective
      (geneticParams 1 5 0) start [cfg 16] () rfl).2.1⟩,
    (geneticOptimization_runs_all_generations (tableHelpers [cfg 16, cfg 64]) []
      failingObjective (geneticParams 2 2 0) start [cfg 16, cfg 64] () rfl).2.2.1 0
      [cfg 16, cfg 64] start _ "MeasurementFailure" (by decide) rfl rfl⟩

/-- C11, refuted as stated: the population `[cfg 16]` never changes and its best
fitness is 16 in every generation, so no generation improves on the one before;
all five generations are run all the same, each with one objective call. -/
theorem geneticOptimization_ignores_stagnation :
    populationTrace (tableHelpers [cfg 16]) scoreObjective (geneticParams 1 5 0) 5 [cfg 16]
        start = [[cfg 16], [cfg 16], [cfg 16], [cfg 16], [cfg 16]] ∧
      (geneticOptimization (tableHelpers [cfg 16]) [] scoreObjective (geneticParams 1 5 0)
        start).2.log.map (fun call => (call.config, call.outcome)) =
          [(cfg 16, Except.ok 16), (cfg 16, Except.ok 16), (cfg 16, Except.ok 16),
           (cfg 16, Except.ok 16), (cfg 16, Except.ok 16)] :=
  ⟨rfl, rfl⟩

/-- With helpers that hand a one-config population back unchanged, each
generation leaves the population `[c]` in place and logs one call on `c`. -/
theorem generationLoop_single_config (h : Helpers σ ε F D)
    (objective : ObjectiveFunction σ ε D) (genetic_params : GeneticParams F)
    (c : KernelConfig D)
    (hobj : ∀ s, ∃ v s1, objective c s = (Except.ok v, s1))
    (hsel : ∀ fitness s, ∃ s1, h.selection [c] fitness s = (Except.ok [c], s1))
    (hcross : ∀ s, ∃ s1, h.crossover [c] genetic_params.crossover_rate s = (Except.ok [c], s1))
    (hmut : ∀ s, ∃ s1, h.mutation [c] genetic_params.mutation_rate s = (Except.ok [c], s1)) :
    ∀ (n : Nat) (w : World σ (Call ε D)),
      ∃ w1, generationLoop h objective genetic_params n [c] w = (Except.ok [c], w1) ∧
        w1.log.map Call.config = w.log.map Call.config ++ List.replicate n c
  | 0, w => ⟨w, by simp [generationLoop]⟩
  | n + 1, w => by
    obtain ⟨v, s1, hv⟩ := hobj w.state
    obtain ⟨s2, hs2⟩ := hsel [v] s1
    obtain ⟨s3, hs3⟩ := hcross s2
    obtain ⟨s4, hs4⟩ := hmut s3
    have hgen : generation h objective genetic_params [c] w =
        (Except.ok [c],
          { state := s4, log := w.log ++ [{ config := c, outcome := Except.ok v }] }) := by
      simp [generation, assessFitness, callObjective, World.run, hv, hs2, hs3, hs4]
    obtain ⟨w1, hloop, hlog⟩ := generationLoop_single_config h objective genetic_params c
      hobj hsel hcross hmut n
      { state := s4, log := w.log ++ [{ config := c, outcome := Except.ok v }] }
    refine ⟨w1, ?_, ?_⟩
    · simp only [generationLoop, hgen]
      exact hloop
    · rw [hlog]
      simp [List.replicate_succ]

/-- C12, as amended.  With population_size = 1 and both rates 0, when the
helpers hand the one-config population back unchanged (initializePopulation
gives `[c]`; selection, and crossover and mutation at rate 0, return `[c]`;
findBestConfig returns `c`) and the objective does not throw on `c`,
geneticOptimization returns the initial config `c` and its generation loop
evaluates that configuration only, once in every generation: num_generations
evaluations. -/
theorem geneticOptimization_single_config [Zero F] (h : Helpers σ ε F D)
    (params : List (TuningParameter D)) (objective : ObjectiveFunction σ ε D)
    (genetic_params : GeneticParams F) (w : World σ (Call ε D)) (c : KernelConfig D)
    (hsize : genetic_params.population_size = 1)
    (hmr : genetic_params.mutation_rate = 0) (hcr : genetic_params.crossover_rate = 0)
    (hinit : ∀ s, ∃ s1, h.initializePopulation 1 s = (Except.ok [c], s1))
    (hobj : ∀ s, ∃ v s1, objective c s = (Except.ok v, s1))
    (hsel : ∀ fitness s, ∃ s1, h.selection [c] fitness s = (Except.ok [c], s1))
    (hcross : ∀ s, ∃ s1, h.crossover [c] 0 s = (Except.ok [c], s1))
    (hmut : ∀ s, ∃ s1, h.mutation [c] 0 s = (Except.ok [c], s1))
    (hbest : ∀ s, ∃ s1, h.findBestConfig [c] objective s = (Except.ok c, s1)) :
    (geneticOptimization h params objective genetic_params w).1 = Except.ok c ∧
      (geneticOptimization h params objective genetic_params w).2.log.map Call.config =
        w.log.map Call.config ++ List.replicate genetic_params.num_generations c := by
  obtain ⟨s0, hs0⟩ := hinit w.state
  obtain ⟨w1, hloop, hlog⟩ := generationLoop_single_config h objective genetic_params c hobj
    hsel (hcr ▸ hcross) (hmr ▸ hmut) genetic_params.num_generations
    { state := s0, log := w.log }
  obtain ⟨s5, hs5⟩ := hbest w1.state
  refine ⟨?_, ?_⟩
  · simp [geneticOptimization, World.run, hsize, hs0, hloop, hs5]
  · simp only [geneticOptimization, World.run, hsize, hs0, hloop]
    exact hlog

/-- C12, the amended statement at a concrete run: three generations from `[cfg 16]`. -/
theorem geneticOptimization_single_config_witness :
    (geneticOptimization (tableHelpers [cfg 16]) [] scoreObjective (geneticParams 1 3 0)
        start).1 = Except.ok (cfg 16) ∧
      (geneticOptimization (tableHelpers [cfg 16]) [] scoreObjective (geneticParams 1 3 0)
        start).2.log.map Call.config = [] ++ List.replicate 3 (cfg 16) :=
  geneticOptimization_single_config (tableHelpers [cfg 16]) [] scoreObjective
    (geneticParams 1 3 0) start (cfg 16) rfl rfl rfl
    (fun s => ⟨s, rfl⟩) (fun s => ⟨score (cfg 16), s, rfl⟩) (fun _ s => ⟨s, rfl⟩)
    (fun s => ⟨s, rfl⟩) (fun s => ⟨s, rfl⟩) (fun s => ⟨s, rfl⟩)

/-- C12, refuted as stated: with population_size 1, both rates 0 and three
generations the returned config is the initial one, and the objective has been
evaluated three times on it in the generation loop, not once. -/
theorem geneticOptimization_single_config_three_evaluations :
    (geneticOptimization (tableHelpers [cfg 16]) [] scoreObjective (geneticParams 1 3 0)
        start).1 = Except.ok (cfg 16) ∧
      (geneticOptimization (tableHelpers [cfg 16]) [] scoreObjective (geneticParams 1 3 0)
        start).2.log.map (fun call => (call.config, call.outcome)) =
          [(cfg 16, Except.ok 16), (cfg 16, Except.ok 16), (cfg 16, Except.ok 16)] ∧
      ((geneticOptimization (tableHelpers [cfg 16]) [] scoreObjective (geneticParams 1 3 0)
        start).2.log.length = 3) :=
  ⟨rfl, rfl, rfl⟩

end Generations

/-! ## The claim on compilePTX -/

section Compiler

/-- C13, as amended.  compilePTX never inspects the PTX source: its outcome for
any source is its outcome for the empty source, and for a target architecture
that begins with `sm_`, `gfx` or `gen` it returns the (empty) image without
raising, malformed source included. -/
theorem compilePTX_ignores_source (ptxSource targetArch : String) :
    compilePTX ptxSource targetArch = compilePTX "" targetArch ∧
      ((isNvidiaGPU targetArch = true ∨ isAMDGPU targetArch = true ∨
          isIntelGPU targetArch = true) →
        compilePTX ptxSource targetArch = Except.ok []) := by
  refine ⟨rfl, ?_⟩
  intro harch
  unfold compilePTX compilePTXBody
  rcases harch with h1 | h2 | h3
  · simp [h1, compileWithNVPTX, readBinaryFile]
  · by_cases h1 : isNvidiaGPU targetArch = true
    · simp [h1, compileWithNVPTX, readBinaryFile]
    · simp [h1, h2, compileWithAMDGPU, readBinaryFile]
  · by_cases h1 : isNvidiaGPU targetArch = true
    · simp [h1, compileWithNVPTX, readBinaryFile]
    · by_cases h2 : isAMDGPU targetArch = true
      · simp [h1, h2, compileWithAMDGPU, readBinaryFile]
      · simp [h1, h2, h3, compileWithIntelGPU, readBinaryFile]

/-- C13, refuted as stated: for the empty source and the supported
architectures `sm_80`, `gfx90a` and `gen9`, compilePTX returns an (empty) image
and raises nothing. -/
theorem compilePTX_accepts_empty_source :
    compilePTX "" "sm_80" = Except.ok [] ∧ compilePTX "" "gfx90a" = Except.ok [] ∧
      compilePTX "" "gen9" = Except.ok [] :=
  ⟨rfl, rfl, rfl⟩

end Compiler

/-! ## The search on a 64-point space -/

section Search

variable {σ ε F D : Type}

/-- On a deterministic objective the fitness loop completes: it pushes the
objective value of every member and leaves the hidden state alone. -/
theorem assessFitness_deterministic (f : KernelConfig D → D) :
    ∀ (population : List (KernelConfig D)) (fitness : List D) (w : World σ (Call ε D)),
      assessFitness (deterministicObjective f) population fitness w =
        (Except.ok (fitness ++ population.map f),
          { state := w.state,
            log := w.log ++
              population.map fun c => { config := c, outcome := Except.ok (f c) } })
  | [], fitness, w => by simp [assessFitness]
  | config :: rest, fitness, w => by
    have hcall : callObjective (deterministicObjective f) config w =
        (Except.ok (f config),
          { state := w.state,
            log := w.log ++ [{ config := config, outcome := Except.ok (f config) }] }) := rfl
    rw [assessFitness_cons_ok _ config rest fitness w _ (f config) hcall,
      assessFitness_deterministic f rest]
    simp

/-- With mutation rate 0 the helpers of the concrete runs hand every population
back unchanged, so the generation loop ends with the population it started from. -/
theorem generationLoop_table_rate_zero (candidates : List (KernelConfig Int))
    (f : KernelConfig Int → Int) (population_size num_generations : Nat) :
    ∀ (n : Nat) (population : List (KernelConfig Int)) (w : World Unit (Call String Int)),
      (generationLoop (tableHelpers candidates) (deterministicObjective f)
        (geneticParams population_size num_generations 0) n population w).1 =
          Except.ok population
  | 0, population, w => rfl
  | n + 1, population, w => by
    have hgen : generation (tableHelpers candidates) (deterministicObjective f)
        (geneticParams population_size num_generations 0) population w =
        (Except.ok population,
          { state := (),
            log := w.log ++
              population.map fun c => { config := c, outcome := Except.ok (f c) } }) := by
      simp [generation, assessFitness_deterministic, World.run, tableHelpers, geneticParams]
    simp only [generationLoop, hgen]
    exact generationLoop_table_rate_zero candidates f population_size num_generations n
      population _

/-- With mutation rate 0 and the helpers of the concrete runs, geneticOptimization
returns what findBestConfigSpec returns on the initial population. -/
theorem geneticOptimization_table_rate_zero (candidates : List (KernelConfig Int))
    (params : List (TuningParameter Int)) (f : KernelConfig Int → Int)
    (population_size num_generations : Nat) (w : World Unit (Call String Int)) :
    (geneticOptimization (tableHelpers candidates) params (deterministicObjective f)
      (geneticParams population_size num_generations 0) w).1 =
        (findBestConfigSpec unitDim (candidates.take population_size)
          (deterministicObjective f : ObjectiveFunction Unit String Int) ()).1 := by
  have hloop := generationLoop_table_rate_zero candidates f population_size num_generations
    num_generations (candidates.take population_size) { state := (), log := w.log }
  rcases hrun : generationLoop (tableHelpers candidates) (deterministicObjective f)
    (geneticParams population_size num_generations 0) num_generations
    (candidates.take population_size) { state := (), log := w.log } with ⟨r, w1⟩
  rw [hrun] at hloop
  simp only at hloop
  subst hloop
  have hinit : (tableHelpers candidates).initializePopulation
      (geneticParams population_size num_generations 0).population_size w.state =
        (Except.ok (candidates.take population_size), ()) := rfl
  have hnum : (geneticParams population_size num_generations 0).num_generations =
      num_generations := rfl
  simp only [geneticOptimization, World.run, hinit, hnum, hrun]
  rfl

/-- C17, as amended.  Genetic search returns findBestConfig of the population
left by the last generation: with findBestConfig returning a member of greatest
objective value and a deterministic objective bounded by `M` on the search
space, the returned config is a member of that final population of greatest
fitness there, its fitness is at most `M`, and it equals the global maximum `M`
exactly when the final population holds a config of fitness `M`. -/
theorem geneticOptimization_best_of_last_generation [LinearOrder D] (h : Helpers σ ε F D)
    (d0 : dim3) (params : List (TuningParameter D)) (f : KernelConfig D → D)
    (genetic_params : GeneticParams F) (w : World σ (Call ε D))
    (population final space : List (KernelConfig D)) (s0 : σ) (M : D)
    (hbest : h.findBestConfig = findBestConfigSpec d0)
    (hinit : h.initializePopulation genetic_params.population_size w.state =
      (Except.ok population, s0))
    (hloop : (generationLoop h (deterministicObjective f) genetic_params
      genetic_params.num_generations population { state := s0, log := w.log }).1 =
        Except.ok final)
    (hne : final ≠ []) (hsub : ∀ c ∈ final, c ∈ space) (hmax : ∀ c ∈ space, f c ≤ M) :
    ∃ best, (geneticOptimization h params (deterministicObjective f) genetic_params w).1 =
        Except.ok best ∧
      best ∈ final ∧ (∀ c ∈ final, f c ≤ f best) ∧ f best ≤ M ∧
      (f best = M ↔ ∃ c ∈ final, f c = M) := by
  rcases hrun : generationLoop h (deterministicObjective f) genetic_params
    genetic_params.num_generations population { state := s0, log := w.log } with ⟨r, w1⟩
  rw [hrun] at hloop
  simp only at hloop
  subst hloop
  obtain ⟨b, hb, hmem, hall⟩ :=
    findBestConfigSpec_deterministic (σ := σ) (ε := ε) d0 f final w1.state
  refine ⟨b, ?_, hmem hne, hall, hmax b (hsub b (hmem hne)), ?_⟩
  · simp only [geneticOptimization, World.run, hinit, hrun, hbest, hb]
  · constructor
    · intro heq
      exact ⟨b, hmem hne, heq⟩
    · rintro ⟨c, hc, heq⟩
      exact le_antisymm (hmax b (hsub b (hmem hne))) (heq ▸ hall c hc)

/-- C17, the amended statement on the 64-point space, with population_size 8 and
20 generations. -/
theorem geneticOptimization_best_of_last_generation_witness :
    ∃ best, (geneticOptimization (tableHelpers searchSpace) [] (deterministicObjective sumObjective)
        (geneticParams 8 20 0) start).1 = Except.ok best ∧
      best ∈ searchSpace.take 8 ∧ (∀ c ∈ searchSpace.take 8, sumObjective c ≤ sumObjective best) ∧
      sumObjective best ≤ 9 ∧
      (sumObjective best = 9 ↔ ∃ c ∈ searchSpace.take 8, sumObjective c = 9) :=
  geneticOptimization_best_of_last_generation (tableHelpers searchSpace) unitDim []
    sumObjective (geneticParams 8 20 0) start (searchSpace.take 8) (searchSpace.take 8)
    searchSpace () 9 rfl rfl
    (generationLoop_table_rate_zero searchSpace sumObjective 8 20 20 (searchSpace.take 8) _)
    (by decide) (fun c hc => List.mem_of_mem_take hc) (by decide)

/-- C17, refuted as stated: on the 64-point space with the objective
`sumObjective`, whose maximum 9 is reached at `point 3 3 3`, a search with
population_size 8 and 20 generations whose helpers never leave the initial
population returns `point 0 1 3`, of fitness 4. -/
theorem geneticOptimization_misses_global_optimum :
    searchSpace.length = 64 ∧
      (∀ c ∈ searchSpace, sumObjective c ≤ 9) ∧
      point 3 3 3 ∈ searchSpace ∧ sumObjective (point 3 3 3) = 9 ∧
      (geneticOptimization (tableHelpers searchSpace) [] (deterministicObjective sumObjective)
        (geneticParams 8 20 0) start).1 = Except.ok (point 0 1 3) ∧
      sumObjective (point 0 1 3) = 4 :=
  ⟨rfl, by decide, by decide, rfl,
    (geneticOptimization_table_rate_zero searchSpace [] sumObjective 8 20 start).trans rfl, rfl⟩

end Search

/-! ## The claims on the memory optimizer and on repeated requests -/

section Requests

variable {σ ε F D : Type}

/-- C16.  On a pattern of type COALESCED optimizeAccessPattern is a no-op: the
returned ptx_code is the input code and estimated_improvement is 0; applying
it again to its own output gives the same result. -/
theorem optimizeAccessPattern_coalesced_noop [LinearOrder F] [Zero F]
    (rewrite : AccessRewrite F) (original_ptx : String)
    (current_pattern : MemoryAccessPattern F)
    (hcoalesced : current_pattern.pattern_type = PatternType.COALESCED) :
    (MemoryOptimizer.optimizeAccessPattern rewrite original_ptx current_pattern).ptx_code =
        original_ptx ∧
      (MemoryOptimizer.optimizeAccessPattern rewrite original_ptx
        current_pattern).estimated_improvement = 0 ∧
      MemoryOptimizer.optimizeAccessPattern rewrite
          (MemoryOptimizer.optimizeAccessPattern rewrite original_ptx current_pattern).ptx_code
          current_pattern =
        MemoryOptimizer.optimizeAccessPattern rewrite original_ptx current_pattern := by
  simp [MemoryOptimizer.optimizeAccessPattern, hcoalesced, AccessOptimization.unchanged]

/-- C16 at a concrete input: a COALESCED pattern and a one-instruction kernel. -/
theorem optimizeAccessPattern_coalesced_noop_witness :
    (MemoryOptimizer.optimizeAccessPattern tableRewrite "ld.global.f32"
        coalescedPattern).ptx_code = "ld.global.f32" ∧
      (MemoryOptimizer.optimizeAccessPattern tableRewrite "ld.global.f32"
        coalescedPattern).estimated_improvement = 0 ∧
      MemoryOptimizer.optimizeAccessPattern tableRewrite
          (MemoryOptimizer.optimizeAccessPattern tableRewrite "ld.global.f32"
            coalescedPattern).ptx_code coalescedPattern =
        MemoryOptimizer.optimizeAccessPattern tableRewrite "ld.global.f32" coalescedPattern :=
  optimizeAccessPattern_coalesced_noop tableRewrite "ld.global.f32" coalescedPattern rfl

/-- A call of optimizeKernel that returns has run both steps, which returned,
and has logged its four calls. -/
theorem optimizeKernel_ok_inv [Zero F] (steps : Steps σ ε F) (d0 : dim3) (uninit : D)
    (kernel_name ptx_code : String) (w w1 : World σ (StepCall F D)) (result : TuningResult D)
    (hret : optimizeKernel steps d0 uninit kernel_name ptx_code w = (Except.ok result, w1)) :
    ∃ memory_opt s1 schedule_opt,
      steps.optimizeAccessPattern ptx_code (analyzeMemoryPattern ptx_code) w.state =
        (Except.ok memory_opt, s1) ∧
      steps.optimizeScheduling memory_opt.ptx_code s1 = (Except.ok schedule_opt, w1.state) ∧
      w1.log = w.log ++
        [StepCall.optimizeAccessPattern ptx_code (analyzeMemoryPattern ptx_code),
         StepCall.optimizeScheduling memory_opt.ptx_code,
         StepCall.optimizeThreadBlocks schedule_opt.optimized_ptx,
         StepCall.combineOptimizations (optimizeThreadBlocks d0 schedule_opt.optimized_ptx)
           memory_opt schedule_opt] ∧
      result.best_config = KernelConfig.init d0 := by
  rcases hm : steps.optimizeAccessPattern ptx_code (analyzeMemoryPattern ptx_code) w.state
    with ⟨r1, s1⟩
  cases r1 with
  | error e1 => simp [optimizeKernel, callOptimizeAccessPattern, callOptimizeScheduling,
      callOptimizeThreadBlocks, callCombineOptimizations, World.run, hm] at hret
  | ok memory_opt =>
    rcases hs : steps.optimizeScheduling memory_opt.ptx_code s1 with ⟨r2, s2⟩
    cases r2 with
    | error e2 => simp [optimizeKernel, callOptimizeAccessPattern, callOptimizeScheduling,
      callOptimizeThreadBlocks, callCombineOptimizations, World.run, hm, hs] at hret
    | ok schedule_opt =>
      simp only [optimizeKernel, callOptimizeAccessPattern, callOptimizeScheduling,
      callOptimizeThreadBlocks, callCombineOptimizations, World.run, hm, hs, Prod.mk.injEq, Except.ok.injEq] at hret
      obtain ⟨h1, h2⟩ := hret
      subst h1 h2
      exact ⟨memory_opt, s1, schedule_opt, rfl, hs, by simp, rfl⟩

/-- The condition that the steps are pure cannot be dropped: with a scheduler
that keeps a hidden call counter and throws on its second call, a first
request returns a TuningResult and the second request for the same kernel
makes the two step calls again and ends in the exception. -/
theorem optimizeKernel_stateful_steps_second_request :
    (optimizeKernel flakySteps unitDim (0 : Int) "kernel" "ld.global.f32"
        { state := 0, log := [] }).1 = Except.ok (tableResult 0) ∧
      (optimizeKernel flakySteps unitDim (0 : Int) "kernel" "ld.global.f32"
        (optimizeKernel flakySteps unitDim (0 : Int) "kernel" "ld.global.f32"
          { state := 0, log := [] }).2).1 = Except.error "SchedulerUnavailable" ∧
      ((optimizeKernel flakySteps unitDim (0 : Int) "kernel" "ld.global.f32"
        (optimizeKernel flakySteps unitDim (0 : Int) "kernel" "ld.global.f32"
          { state := 0, log := [] }).2).2.log.drop 4 : List (StepCall Int Int)) =
        [StepCall.optimizeAccessPattern "ld.global.f32" (analyzeMemoryPattern "ld.global.f32"),
         StepCall.optimizeScheduling "ld.global.f32"] :=
  ⟨rfl, rfl, rfl⟩

end Requests

/-! ## Topological orders -/

section Topological

theorem topoCheck_split (rel : Nat → List Nat) :
    ∀ (order done : List Nat), topoCheck rel done order = true →
      ∀ l1 n l2, order = l1 ++ n :: l2 → ∀ p ∈ rel n, p ∈ done ∨ p ∈ l1
  | [], done, _, l1, n, l2, hsplit, _, _ => by
    cases l1 <;> simp at hsplit
  | a :: rest, done, hcheck, l1, n, l2, hsplit, p, hp => by
    simp only [topoCheck, Bool.and_eq_true, List.all_eq_true, decide_eq_true_eq] at hcheck
    obtain ⟨hhead, hrest⟩ := hcheck
    cases l1 with
    | nil =>
      simp only [List.nil_append, List.cons.injEq] at hsplit
      obtain ⟨h1, -⟩ := hsplit
      subst h1
      exact Or.inl (hhead p hp)
    | cons b l1 =>
      simp only [List.cons_append, List.cons.injEq] at hsplit
      obtain ⟨h1, h2⟩ := hsplit
      subst h1
      rcases topoCheck_split rel rest (a :: done) hrest l1 n l2 h2 p hp with h | h
      · rcases List.mem_cons.mp h with h | h
        · exact Or.inr (h ▸ List.mem_cons_self _ _)
        · exact Or.inl h
      · exact Or.inr (List.mem_cons_of_mem _ h)

/-- What the check isTopologicalOrder establishes. -/
theorem isTopologicalOrder_spec (g : DependencyGraph) (order : List Nat)
    (htopo : g.isTopologicalOrder order = true) :
    RespectsOrder g.predecessors order ∧ (∀ n ∈ order, n < g.nodes.length) ∧
      ∀ n, n < g.nodes.length → n ∈ order := by
  simp only [DependencyGraph.isTopologicalOrder, Bool.and_eq_true, decide_eq_true_eq,
    List.all_eq_true, List.mem_range] at htopo
  obtain ⟨⟨⟨hnodup, hlt⟩, hall⟩, hcheck⟩ := htopo
  refine ⟨⟨hnodup, ?_⟩, hlt, hall⟩
  intro l1 n l2 hsplit p hp
  rcases topoCheck_split g.predecessors order [] hcheck l1 n l2 hsplit p hp with h | h
  · simp at h
  · exact h

theorem successorsMirrored_spec (g : DependencyGraph) (hmirror : g.successorsMirrored = true)
    (n : Nat) (hn : n < g.nodes.length) (s : Nat) (hs : s ∈ g.successors n) :
    s < g.nodes.length ∧ n ∈ g.predecessors s := by
  simp only [DependencyGraph.successorsMirrored, List.all_eq_true, List.mem_range,
    Bool.and_eq_true, decide_eq_true_eq] at hmirror
  exact hmirror n hn s hs

theorem nodup_split {l1 l2 : List Nat} {n : Nat} (hnodup : (l1 ++ n :: l2).Nodup) :
    n ∉ l1 ∧ n ∉ l2 := by
  rw [List.nodup_append] at hnodup
  obtain ⟨-, h2, h3⟩ := hnodup
  refine ⟨?_, (List.nodup_cons.mp h2).1⟩
  intro hmem
  exact h3 hmem (List.mem_cons_self _ _)

/-- Induction along a topological order: a property that holds of an entry as
soon as it holds of its `rel`-neighbours holds of every entry. -/
theorem respectsOrder_induction (rel : Nat → List Nat) (order : List Nat)
    (horder : RespectsOrder rel order) (P : Nat → Prop)
    (hstep : ∀ n ∈ order, (∀ p ∈ rel n, P p) → P n) : ∀ n ∈ order, P n := by
  have hpre : ∀ pre rest, order = pre ++ rest → ∀ m ∈ pre, P m := by
    intro pre
    induction pre using List.reverseRecOn with
    | nil =>
      intro rest _ m hm
      simp at hm
    | append_singleton pre n ih =>
      intro rest hsplit m hm
      have hsplit1 : order = pre ++ n :: rest := by simpa using hsplit
      have hprev := ih (n :: rest) hsplit1
      rcases List.mem_append.mp hm with hm | hm
      · exact hprev m hm
      · have hmn : m = n := by simpa using hm
        subst hmn
        apply hstep m (by rw [hsplit1]; simp)
        intro p hp
        exact hprev p (horder.2 pre m rest hsplit1 p hp)
  intro n hn
  exact hpre order [] (by simp) n hn

/-- In a graph whose successor vectors mirror the predecessor vectors, the
reverse of a topological order lists every successor of a node before the node. -/
theorem respectsOrder_reverse (g : DependencyGraph) (order : List Nat)
    (htopo : g.isTopologicalOrder order = true) (hmirror : g.successorsMirrored = true) :
    RespectsOrder g.successors order.reverse := by
  obtain ⟨⟨hnodup, hpos⟩, hlt, hall⟩ := isTopologicalOrder_spec g order htopo
  refine ⟨List.nodup_reverse.mpr hnodup, ?_⟩
  intro l1 n l2 hsplit s hs
  have horder : order = l2.reverse ++ n :: l1.reverse := by
    have h := congrArg List.reverse hsplit
    simpa using h
  have hn : n ∈ order := by rw [horder]; simp
  obtain ⟨hs_lt, hn_pred⟩ := successorsMirrored_spec g hmirror n (hlt n hn) s hs
  have hs_order : s ∈ order := hall s hs_lt
  have hn_notin : n ∉ l2.reverse := (nodup_split (horder ▸ hnodup)).1
  rw [horder] at hs_order
  rcases List.mem_append.mp hs_order with hmem | hmem
  · exfalso
    obtain ⟨a, b, hab⟩ := List.append_of_mem hmem
    have hsplit2 : order = a ++ s :: (b ++ n :: l1.reverse) := by
      rw [horder, hab]
      simp
    have hna : n ∈ a := hpos a s _ hsplit2 n hn_pred
    exact hn_notin (by rw [hab]; exact List.mem_append_left _ hna)
  · rcases List.mem_cons.mp hmem with hmem | hmem
    · exfalso
      subst hmem
      exact hn_notin (hpos l2.reverse s l1.reverse horder s hn_pred)
    · exact List.mem_reverse.mp hmem

end Topological

/-! ## The forward and the backward pass -/

section Passes

theorem sweep_append (f : (Nat → Int) → Nat → Int) (table : Nat → Int) (pre : List Nat)
    (n : Nat) :
    sweep f table (pre ++ [n]) =
      Function.update (sweep f table pre) n (f (sweep f table pre) n) := by
  simp [sweep, List.foldl_append]

/-- After a sweep in topological order every entry of the table satisfies its
defining equation, provided the value computed for a node depends on the
entries of its `rel`-neighbours only. -/
theorem sweep_fixpoint (rel : Nat → List Nat) (f : (Nat → Int) → Nat → Int)
    (hcongr : ∀ t1 t2 n, (∀ p ∈ rel n, t1 p = t2 p) → f t1 n = f t2 n)
    (table : Nat → Int) (order : List Nat) (horder : RespectsOrder rel order) :
    ∀ n ∈ order, sweep f table order n = f (sweep f table order) n := by
  have hpre : ∀ pre rest, order = pre ++ rest →
      ∀ m ∈ pre, sweep f table pre m = f (sweep f table pre) m := by
    intro pre
    induction pre using List.reverseRecOn with
    | nil =>
      intro rest _ m hm
      simp at hm
    | append_singleton pre n ih =>
      intro rest hsplit m hm
      have hsplit1 : order = pre ++ n :: rest := by simpa using hsplit
      have hprev := ih (n :: rest) hsplit1
      have hn_notin : n ∉ pre := (nodup_split (hsplit1 ▸ horder.1)).1
      have hkeep : ∀ p ∈ pre, Function.update (sweep f table pre) n
          (f (sweep f table pre) n) p = sweep f table pre p := by
        intro p hp
        have hpn : p ≠ n := fun h => hn_notin (h ▸ hp)
        simp [Function.update, hpn]
      rw [sweep_append]
      rcases List.mem_append.mp hm with hm | hm
      · obtain ⟨a, b, hab⟩ := List.append_of_mem hm
        have hsplit2 : order = a ++ m :: (b ++ n :: rest) := by
          rw [hsplit1, hab]
          simp
        have hpreds : ∀ p ∈ rel m, p ∈ pre := by
          intro p hp
          rw [hab]
          exact List.mem_append_left _ (horder.2 a m _ hsplit2 p hp)
        rw [hkeep m hm, hprev m hm]
        exact hcongr _ _ m (fun p hp => (hkeep p (hpreds p hp)).symm)
      · have hmn : m = n := by simpa using hm
        subst hmn
        have hpreds : ∀ p ∈ rel m, p ∈ pre := horder.2 pre m rest hsplit1
        simp only [Function.update_same]
        exact hcongr _ _ m (fun p hp => (hkeep p (hpreds p hp)).symm)
  intro n hn
  exact hpre order [] (by simp) n hn

theorem foldl_max_ge (v : Nat → Int) :
    ∀ (l : List Nat) (init : Int),
      init ≤ l.foldl (fun m q => max m (v q)) init ∧
        ∀ x ∈ l, v x ≤ l.foldl (fun m q => max m (v q)) init
  | [], init => by simp
  | a :: l, init => by
    obtain ⟨h1, h2⟩ := foldl_max_ge v l (max init (v a))
    refine ⟨le_trans (le_max_left _ _) h1, ?_⟩
    intro x hx
    rcases List.mem_cons.mp hx with hx | hx
    · subst hx
      exact le_trans (le_max_right _ _) h1
    · exact h2 x hx

theorem foldl_min_ge (v : Nat → Int) (c : Int) :
    ∀ (l : List Nat) (init : Int), c ≤ init → (∀ x ∈ l, c ≤ v x) →
      c ≤ l.foldl (fun m t => min m (v t)) init
  | [], init, hinit, _ => by simpa using hinit
  | a :: l, init, hinit, hall => by
    apply foldl_min_ge v c l (min init (v a)) (le_min hinit (hall a (List.mem_cons_self _ _)))
    intro x hx
    exact hall x (List.mem_cons_of_mem _ hx)

theorem foldl_max_congr (v1 v2 : Nat → Int) :
    ∀ (l : List Nat) (init : Int), (∀ x ∈ l, v1 x = v2 x) →
      l.foldl (fun m q => max m (v1 q)) init = l.foldl (fun m q => max m (v2 q)) init
  | [], init, _ => rfl
  | a :: l, init, hall => by
    simp only [List.foldl_cons]
    rw [hall a (List.mem_cons_self _ _)]
    exact foldl_max_congr v1 v2 l _ (fun x hx => hall x (List.mem_cons_of_mem _ hx))

theorem foldl_min_congr (v1 v2 : Nat → Int) :
    ∀ (l : List Nat) (init : Int), (∀ x ∈ l, v1 x = v2 x) →
      l.foldl (fun m t => min m (v1 t)) init = l.foldl (fun m t => min m (v2 t)) init
  | [], init, _ => rfl
  | a :: l, init, hall => by
    simp only [List.foldl_cons]
    rw [hall a (List.mem_cons_self _ _)]
    exact foldl_min_congr v1 v2 l _ (fun x hx => hall x (List.mem_cons_of_mem _ hx))

theorem earliestStart_congr (g : DependencyGraph) (t1 t2 : Nat → Int) (n : Nat)
    (hsame : ∀ p ∈ g.predecessors n, t1 p = t2 p) :
    earliestStart g t1 n = earliestStart g t2 n := by
  unfold earliestStart
  cases hp : g.predecessors n with
  | nil => rfl
  | cons p ps =>
    rw [hp] at hsame
    simp only
    rw [hsame p (List.mem_cons_self _ _)]
    exact foldl_max_congr (fun q => t1 q + g.latency q) (fun q => t2 q + g.latency q) ps _
      (fun x hx => by simp only; rw [hsame x (List.mem_cons_of_mem _ hx)])

theorem latestStart_congr (g : DependencyGraph) (horizon : Int) (t1 t2 : Nat → Int) (n : Nat)
    (hsame : ∀ s ∈ g.successors n, t1 s = t2 s) :
    latestStart g horizon t1 n = latestStart g horizon t2 n := by
  unfold latestStart
  cases hs : g.successors n with
  | nil => rfl
  | cons s ss =>
    rw [hs] at hsame
    simp only
    rw [hsame s (List.mem_cons_self _ _)]
    exact foldl_min_congr (fun t => t1 t - g.latency n) (fun t => t2 t - g.latency n) ss _
      (fun x hx => by simp only; rw [hsame x (List.mem_cons_of_mem _ hx)])

/-- A node starts no earlier than any of its predecessors ends. -/
theorem earliestStart_ge (g : DependencyGraph) (earliest : Nat → Int) (n p : Nat)
    (hp : p ∈ g.predecessors n) :
    earliest p + g.latency p ≤ earliestStart g earliest n := by
  unfold earliestStart
  cases hpreds : g.predecessors n with
  | nil => simp [hpreds] at hp
  | cons q qs =>
    rw [hpreds] at hp
    simp only
    obtain ⟨h1, h2⟩ := foldl_max_ge (fun q => earliest q + g.latency q) qs
      (earliest q + g.latency q)
    rcases List.mem_cons.mp hp with hp | hp
    · subst hp
      exact h1
    · exact h2 p hp

/-- No node ends after the scheduling horizon. -/
theorem schedulingHorizon_ge (g : DependencyGraph) (earliest : Nat → Int) (n : Nat)
    (hn : n < g.nodes.length) :
    earliest n + g.latency n ≤ schedulingHorizon g earliest :=
  (foldl_max_ge (fun n => earliest n + g.latency n) (List.range g.nodes.length) 0).2 n
    (List.mem_range.mpr hn)

/-- The invariant of the two passes, on the tables they compute. -/
theorem forwardPass_le_backwardPass (g : DependencyGraph) (order : List Nat)
    (hacyclic : g.acyclicWith order = true) :
    ∀ n, n < g.nodes.length →
      forwardPass g order n ≤
        backwardPass g (schedulingHorizon g (forwardPass g order)) order n := by
  simp only [DependencyGraph.acyclicWith, Bool.and_eq_true] at hacyclic
  obtain ⟨htopo, hmirror⟩ := hacyclic
  obtain ⟨hforward, hlt, hall⟩ := isTopologicalOrder_spec g order htopo
  have hbackward := respectsOrder_reverse g order htopo hmirror
  have hE := sweep_fixpoint g.predecessors (earliestStart g) (earliestStart_congr g)
    (fun _ => 0) order hforward
  have hL := sweep_fixpoint g.successors
    (latestStart g (schedulingHorizon g (forwardPass g order)))
    (latestStart_congr g (schedulingHorizon g (forwardPass g order)))
    (fun _ => schedulingHorizon g (forwardPass g order)) order.reverse hbackward
  have hmain := respectsOrder_induction g.successors order.reverse hbackward
    (fun n => forwardPass g order n ≤
      backwardPass g (schedulingHorizon g (forwardPass g order)) order n)
  intro n hn
  apply hmain ?_ n (List.mem_reverse.mpr (hall n hn))
  intro m hm ih
  have hm_order : m ∈ order := List.mem_reverse.mp hm
  have hm_lt : m < g.nodes.length := hlt m hm_order
  have heq : backwardPass g (schedulingHorizon g (forwardPass g order)) order m =
      latestStart g (schedulingHorizon g (forwardPass g order))
        (backwardPass g (schedulingHorizon g (forwardPass g order)) order) m := hL m hm
  show forwardPass g order m ≤
    backwardPass g (schedulingHorizon g (forwardPass g order)) order m
  rw [heq]
  unfold latestStart
  cases hsucc : g.successors m with
  | nil =>
    simp only
    have := schedulingHorizon_ge g (forwardPass g order) m hm_lt
    omega
  | cons s ss =>
    simp only
    have hedge : ∀ t ∈ s :: ss, forwardPass g order m ≤
        backwardPass g (schedulingHorizon g (forwardPass g order)) order t - g.latency m := by
      intro t ht
      have ht_succ : t ∈ g.successors m := hsucc ▸ ht
      obtain ⟨ht_lt, hm_pred⟩ := successorsMirrored_spec g hmirror m hm_lt t ht_succ
      have h1 : forwardPass g order t = earliestStart g (forwardPass g order) t :=
        hE t (hall t ht_lt)
      have h2 := earliestStart_ge g (forwardPass g order) t m hm_pred
      have h3 := ih t ht_succ
      simp only at h3
      omega
    exact foldl_min_ge
      (fun t => backwardPass g (schedulingHorizon g (forwardPass g order)) order t -
        g.latency m)
      (forwardPass g order m) ss _ (hedge s (List.mem_cons_self _ _))
      (fun x hx => hedge x (List.mem_cons_of_mem _ hx))

/-- C14.  For every acyclic DependencyGraph (one with a topological order and
successor vectors that mirror the predecessor vectors), after the forward pass
and the backward pass the earliest_start of every node is the maximum of
`earliest_start[p] + latency[p]` over its predecessors (0 if none), and every
node satisfies `earliest_start <= latest_start`. -/
theorem annotate_earliest_le_latest (g : DependencyGraph) (order : List Nat)
    (hacyclic : g.acyclicWith order = true) :
    (∀ n, n < g.nodes.length →
      forwardPass g order n = earliestStart g (forwardPass g order) n) ∧
    (∀ n, n < g.nodes.length →
      forwardPass g order n ≤
        backwardPass g (schedulingHorizon g (forwardPass g order)) order n) ∧
    ∀ node ∈ (annotate g order).nodes, node.earliest_start ≤ node.latest_start := by
  have hle := forwardPass_le_backwardPass g order hacyclic
  refine ⟨?_, hle, ?_⟩
  · simp only [DependencyGraph.acyclicWith, Bool.and_eq_true] at hacyclic
    obtain ⟨hforward, -, hall⟩ := isTopologicalOrder_spec g order hacyclic.1
    intro n hn
    exact sweep_fixpoint g.predecessors (earliestStart g) (earliestStart_congr g)
      (fun _ => 0) order hforward n (hall n hn)
  · intro node hnode
    simp only [annotate, List.mem_map] at hnode
    obtain ⟨entry, hentry, heq⟩ := hnode
    have hget : g.nodes[entry.1]? = some entry.2 := List.mem_enum_iff_getElem?.mp hentry
    have hlt : entry.1 < g.nodes.length := by
      rw [List.getElem?_eq_some] at hget
      exact hget.1
    rw [← heq]
    exact hle entry.1 hlt

/-- C14 on the diamond graph, with the topological order 0, 1, 2, 3. -/
theorem annotate_earliest_le_latest_witness :
    (∀ n, n < diamond.nodes.length →
      forwardPass diamond [0, 1, 2, 3] n =
        earliestStart diamond (forwardPass diamond [0, 1, 2, 3]) n) ∧
    (∀ n, n < diamond.nodes.length →
      forwardPass diamond [0, 1, 2, 3] n ≤
        backwardPass diamond (schedulingHorizon diamond (forwardPass diamond [0, 1, 2, 3]))
          [0, 1, 2, 3] n) ∧
    ∀ node ∈ (annotate diamond [0, 1, 2, 3]).nodes, node.earliest_start ≤ node.latest_start :=
  annotate_earliest_le_latest diamond [0, 1, 2, 3] (by decide)

end Passes

/-! ## List scheduling -/

section ListScheduling

theorem mem_readySet (g : DependencyGraph) (placed : List Nat) (n : Nat) :
    n ∈ readySet g placed ↔
      n < g.nodes.length ∧ n ∉ placed ∧ ∀ p ∈ g.predecessors n, p ∈ placed := by
  simp [readySet, List.mem_filter]

/-- Placing a ready node keeps the placement a topological order of what is placed. -/
theorem respectsOrder_place (g : DependencyGraph) (placed : List Nat) (c : Nat)
    (hplaced : RespectsOrder g.predecessors placed) (hc : c ∈ readySet g placed) :
    RespectsOrder g.predecessors (placed ++ [c]) := by
  obtain ⟨-, hnotin, hpreds⟩ := (mem_readySet g placed c).mp hc
  refine ⟨?_, ?_⟩
  · rw [List.nodup_append]
    refine ⟨hplaced.1, List.nodup_singleton c, ?_⟩
    intro x hx hx1
    have hxc : x = c := by simpa using hx1
    exact hnotin (hxc ▸ hx)
  · intro l1 b l2 hsplit a ha
    rcases List.eq_nil_or_concat l2 with hl2 | ⟨l3, x, hl2⟩
    · subst hl2
      have h := List.append_inj' hsplit (by simp)
      obtain ⟨h1, h2⟩ := h
      have hcb : c = b := by simpa using h2
      subst hcb
      rw [← h1]
      exact hpreds a ha
    · subst hl2
      have hsplit1 : placed ++ [c] = (l1 ++ b :: l3) ++ [x] := by
        rw [hsplit]
        simp
      obtain ⟨h1, -⟩ := List.append_inj' hsplit1 (by simp)
      exact hplaced.2 l1 b l3 h1 a ha

theorem exists_first_unplaced (placed : List Nat) :
    ∀ (order : List Nat), (∃ x ∈ order, x ∉ placed) →
      ∃ l1 n l2, order = l1 ++ n :: l2 ∧ n ∉ placed ∧ ∀ y ∈ l1, y ∈ placed
  | [], hex => by
    obtain ⟨x, hx, -⟩ := hex
    simp at hx
  | a :: rest, hex => by
    by_cases ha : a ∈ placed
    · have hex1 : ∃ x ∈ rest, x ∉ placed := by
        obtain ⟨x, hx, hxp⟩ := hex
        rcases List.mem_cons.mp hx with hx | hx
        · exact absurd (hx ▸ ha) hxp
        · exact ⟨x, hx, hxp⟩
      obtain ⟨l1, n, l2, hsplit, hn, hall⟩ := exists_first_unplaced placed rest hex1
      refine ⟨a :: l1, n, l2, by rw [hsplit]; simp, hn, ?_⟩
      intro y hy
      rcases List.mem_cons.mp hy with hy | hy
      · exact hy ▸ ha
      · exact hall y hy
    · exact ⟨[], a, rest, rfl, ha, by simp⟩

/-- In an acyclic graph some node is ready as long as not every node is placed. -/
theorem readySet_ne_nil (g : DependencyGraph) (order placed : List Nat)
    (htopo : g.isTopologicalOrder order = true) (hnodup : placed.Nodup)
    (hbound : ∀ x ∈ placed, x < g.nodes.length) (hlen : placed.length < g.nodes.length) :
    readySet g placed ≠ [] := by
  obtain ⟨⟨-, hpos⟩, hlt, hall⟩ := isTopologicalOrder_spec g order htopo
  have hex : ∃ x ∈ order, x ∉ placed := by
    by_contra hnone
    push_neg at hnone
    have hsub : List.range g.nodes.length ⊆ placed := by
      intro x hx
      exact hnone x (hall x (List.mem_range.mp hx))
    have hle := (List.subperm_of_subset (List.nodup_range _) hsub).length_le
    simp only [List.length_range] at hle
    omega
  obtain ⟨l1, n, l2, hsplit, hn, hl1⟩ := exists_first_unplaced placed order hex
  have hmem : n ∈ readySet g placed := by
    rw [mem_readySet]
    refine ⟨hlt n (by rw [hsplit]; simp), hn, ?_⟩
    intro p hp
    exact hl1 p (hpos l1 n l2 hsplit p hp)
  intro hnil
  rw [hnil] at hmem
  simp at hmem

/-- With one step of fuel per node still to place, list scheduling on an acyclic
graph places every node, each after its predecessors. -/
theorem listSchedulingFrom_spec (g : DependencyGraph) (choose : List Nat → Nat)
    (order : List Nat) (htopo : g.isTopologicalOrder order = true)
    (hchoose : ∀ n rest, choose (n :: rest) ∈ n :: rest) :
    ∀ (fuel : Nat) (placed : List Nat), RespectsOrder g.predecessors placed →
      (∀ x ∈ placed, x < g.nodes.length) → placed.length + fuel = g.nodes.length →
        RespectsOrder g.predecessors (listSchedulingFrom g choose fuel placed) ∧
          (∀ x ∈ listSchedulingFrom g choose fuel placed, x < g.nodes.length) ∧
          (listSchedulingFrom g choose fuel placed).length = g.nodes.length
  | 0, placed, hplaced, hbound, hlen => by
    simp only [listSchedulingFrom]
    exact ⟨hplaced, hbound, by omega⟩
  | fuel + 1, placed, hplaced, hbound, hlen => by
    have hne := readySet_ne_nil g order placed htopo hplaced.1 hbound (by omega)
    cases hready : readySet g placed with
    | nil => exact absurd hready hne
    | cons n rest =>
      have hc : choose (n :: rest) ∈ readySet g placed := hready ▸ hchoose n rest
      simp only [listSchedulingFrom, hready]
      apply listSchedulingFrom_spec g choose order htopo hchoose fuel (placed ++ [choose (n :: rest)])
        (respectsOrder_place g placed _ hplaced hc)
      · intro x hx
        rcases List.mem_append.mp hx with hx | hx
        · exact hbound x hx
        · have hxc : x = choose (n :: rest) := by simpa using hx
          rw [hxc]
          exact ((mem_readySet g placed _).mp hc).1
      · simp only [List.length_append, List.length_singleton]
        omega

theorem filterMap_range_getElem? {α β : Type} (f : α → β) (l : List α) :
    ((List.range l.length).filterMap fun n => (l[n]?).map f) = l.map f := by
  induction l using List.reverseRecOn with
  | nil => simp
  | append_singleton l a ih =>
    simp only [List.length_append, List.length_singleton, List.range_succ,
      List.filterMap_append, List.map_append, List.map_cons, List.map_nil]
    congr 1
    · rw [← ih]
      apply List.filterMap_congr
      intro n hn
      have hlt : n < l.length := List.mem_range.mp hn
      simp [List.getElem?_append_left hlt]
    · simp

theorem leastSlackFrom_mem (slack : Nat → Int) :
    ∀ (rest : List Nat) (best : Nat), leastSlackFrom slack best rest ∈ best :: rest
  | [], best => by simp [leastSlackFrom]
  | n :: rest, best => by
    unfold leastSlackFrom
    split
    · exact List.mem_cons_of_mem _ (leastSlackFrom_mem slack rest n)
    · rcases List.mem_cons.mp (leastSlackFrom_mem slack rest best) with h | h
      · rw [h]
        exact List.mem_cons_self _ _
      · exact List.mem_cons_of_mem _ (List.mem_cons_of_mem _ h)

/-- The least-slack pick is one of the ready nodes it is given. -/
theorem leastSlack_mem (slack : Nat → Int) (n : Nat) (rest : List Nat) :
    leastSlack slack (n :: rest) ∈ n :: rest :=
  leastSlackFrom_mem slack rest n

/-- C15.  For every acyclic DependencyGraph and every pick among the ready nodes,
the order produced by list scheduling lists every node exactly once, the
instructions it returns are a permutation of the instructions of the graph,
and for every dependency edge a -> b (a is a predecessor of b, or b a
successor of a) the node a is placed before the node b. -/
theorem listScheduling_permutation_respects_edges (g : DependencyGraph)
    (choose : List Nat → Nat) (order : List Nat) (hacyclic : g.acyclicWith order = true)
    (hchoose : ∀ n rest, choose (n :: rest) ∈ n :: rest) :
    (listSchedulingOrder g choose).Perm (List.range g.nodes.length) ∧
      (listScheduling g choose).Perm (g.nodes.map fun node => node.instruction) ∧
      (∀ b, b < g.nodes.length → ∀ a ∈ g.predecessors b,
        (listSchedulingOrder g choose).indexOf a < (listSchedulingOrder g choose).indexOf b) ∧
      (∀ a, a < g.nodes.length → ∀ b ∈ g.successors a,
        (listSchedulingOrder g choose).indexOf a < (listSchedulingOrder g choose).indexOf b) := by
  simp only [DependencyGraph.acyclicWith, Bool.and_eq_true] at hacyclic
  obtain ⟨htopo, hmirror⟩ := hacyclic
  obtain ⟨⟨hnodup, hpos⟩, hbound, hlen⟩ := listSchedulingFrom_spec g choose order htopo hchoose
    g.nodes.length [] ⟨List.nodup_nil, by intro l1 n l2 h; cases l1 <;> simp at h⟩
    (by simp) (by simp)
  have hperm : (listSchedulingOrder g choose).Perm (List.range g.nodes.length) := by
    apply (List.subperm_of_subset hnodup ?_).perm_of_length_le
    · simp only [List.length_range]
      exact le_of_eq hlen.symm
    · intro x hx
      exact List.mem_range.mpr (hbound x hx)
  have hpred : ∀ b, b < g.nodes.length → ∀ a ∈ g.predecessors b,
      (listSchedulingOrder g choose).indexOf a < (listSchedulingOrder g choose).indexOf b := by
    intro b hb a ha
    have hmem : b ∈ listSchedulingOrder g choose := hperm.mem_iff.mpr (List.mem_range.mpr hb)
    obtain ⟨l1, l2, hsplit⟩ := List.append_of_mem hmem
    have ha1 : a ∈ l1 := hpos l1 b l2 hsplit a ha
    have hb1 : b ∉ l1 := by
      have hnodup1 : (l1 ++ b :: l2).Nodup := hsplit ▸ hnodup
      exact (nodup_split hnodup1).1
    rw [hsplit, List.indexOf_append_of_mem ha1, List.indexOf_append_of_not_mem hb1,
      List.indexOf_cons_self]
    have := List.indexOf_lt_length.mpr ha1
    omega
  refine ⟨hperm, ?_, hpred, ?_⟩
  · have h := hperm.filterMap g.instructionAt
    have h2 := filterMap_range_getElem? (fun node : Node => node.instruction) g.nodes
    exact h.trans (List.Perm.of_eq h2)
  · intro a ha b hb
    obtain ⟨hb_lt, ha_pred⟩ := successorsMirrored_spec g hmirror a ha b hb
    exact hpred b hb_lt a ha_pred

/-- C15 on the diamond graph, with the least-slack pick of the spec. -/
theorem listScheduling_permutation_respects_edges_witness :
    (listSchedulingOrder diamond
        (leastSlack fun n =>
          backwardPass diamond 7 [0, 1, 2, 3] n - forwardPass diamond [0, 1, 2, 3] n)).Perm
        (List.range diamond.nodes.length) ∧
      (listScheduling diamond
        (leastSlack fun n =>
          backwardPass diamond 7 [0, 1, 2, 3] n - forwardPass diamond [0, 1, 2, 3] n)).Perm
        (diamond.nodes.map fun node => node.instruction) ∧
      (∀ b, b < diamond.nodes.length → ∀ a ∈ diamond.predecessors b,
        (listSchedulingOrder diamond
          (leastSlack fun n =>
            backwardPass diamond 7 [0, 1, 2, 3] n - forwardPass diamond [0, 1, 2, 3] n)).indexOf a <
          (listSchedulingOrder diamond
            (leastSlack fun n =>
              backwardPass diamond 7 [0, 1, 2, 3] n -
                forwardPass diamond [0, 1, 2, 3] n)).indexOf b) ∧
      (∀ a, a < diamond.nodes.length → ∀ b ∈ diamond.successors a,
        (listSchedulingOrder diamond
          (leastSlack fun n =>
            backwardPass diamond 7 [0, 1, 2, 3] n - forwardPass diamond [0, 1, 2, 3] n)).indexOf a <
          (listSchedulingOrder diamond
            (leastSlack fun n =>
              backwardPass diamond 7 [0, 1, 2, 3] n -
                forwardPass diamond [0, 1, 2, 3] n)).indexOf b) :=
  listScheduling_permutation_respects_edges diamond
    (leastSlack fun n =>
      backwardPass diamond 7 [0, 1, 2, 3] n - forwardPass diamond [0, 1, 2, 3] n)
    [0, 1, 2, 3] (by decide) (leastSlack_mem _)

end ListScheduling

/-! ## What optimizeKernel and the searches make of their inputs -/

section Inputs

variable {σ ε F D : Type}

/-- C21, as amended.  analyzeMemoryPattern does not read the kernel source: for
every ptx_code it returns the value-initialised MemoryAccessPattern (type
SEQUENTIAL, stride 0, coalescence rate 0, no bank conflict), and that is the
pattern optimizeKernel passes to the memory optimizer, its first step call. -/
theorem analyzeMemoryPattern_constant [Zero F] (steps : Steps σ ε F) (d0 : dim3) (uninit : D)
    (kernel_name ptx_code : String) (w : World σ (StepCall F D)) :
    (analyzeMemoryPattern ptx_code : MemoryAccessPattern F) = MemoryAccessPattern.init ∧
      (analyzeMemoryPattern ptx_code : MemoryAccessPattern F).pattern_type =
        PatternType.SEQUENTIAL ∧
      ∃ rest, (optimizeKernel steps d0 uninit kernel_name ptx_code w).2.log =
        w.log ++ StepCall.optimizeAccessPattern ptx_code MemoryAccessPattern.init :: rest := by
  refine ⟨rfl, rfl, ?_⟩
  rcases hm : steps.optimizeAccessPattern ptx_code MemoryAccessPattern.init w.state
    with ⟨r1, s1⟩
  cases r1 with
  | error e1 =>
    exact ⟨[], by simp [optimizeKernel, callOptimizeAccessPattern, callOptimizeScheduling,
      callOptimizeThreadBlocks, callCombineOptimizations, World.run, hm, analyzeMemoryPattern]⟩
  | ok memory_opt =>
    rcases hs : steps.optimizeScheduling memory_opt.ptx_code s1 with ⟨r2, s2⟩
    cases r2 with
    | error e2 =>
      exact ⟨[StepCall.optimizeScheduling memory_opt.ptx_code],
        by simp [optimizeKernel, callOptimizeAccessPattern, callOptimizeScheduling,
      callOptimizeThreadBlocks, callCombineOptimizations, World.run, hm, hs, analyzeMemoryPattern]⟩
    | ok schedule_opt =>
      exact ⟨[StepCall.optimizeScheduling memory_opt.ptx_code,
          StepCall.optimizeThreadBlocks schedule_opt.optimized_ptx,
          StepCall.combineOptimizations (optimizeThreadBlocks d0 schedule_opt.optimized_ptx)
            memory_opt schedule_opt],
        by simp [optimizeKernel, callOptimizeAccessPattern, callOptimizeScheduling,
      callOptimizeThreadBlocks, callCombineOptimizations, World.run, hm, hs, analyzeMemoryPattern]⟩

/-- C21, refuted as stated: no two kernel sources get patterns of different
types from analyzeMemoryPattern; a kernel with a strided load and one with a
broadcast load are both classified SEQUENTIAL. -/
theorem analyzeMemoryPattern_never_differs :
    (¬ ∃ code1 code2 : String,
        (analyzeMemoryPattern code1 : MemoryAccessPattern Int).pattern_type ≠
          (analyzeMemoryPattern code2 : MemoryAccessPattern Int).pattern_type) ∧
      (analyzeMemoryPattern "ld.global.f32 %f1, [%rd1+128];" :
        MemoryAccessPattern Int).pattern_type = PatternType.SEQUENTIAL ∧
      (analyzeMemoryPattern "ld.global.f32 %f1, [%rd1];" :
        MemoryAccessPattern Int).pattern_type = PatternType.SEQUENTIAL :=
  ⟨fun ⟨_, _, hne⟩ => hne rfl, rfl, rfl⟩

/-- C22.  Whenever the memory-optimizer and scheduler steps return, the
best_config of optimizeKernel's result is the default-constructed KernelConfig
(shared_memory_size 0, empty parameter list): two calls that return, whatever
their kernel names, kernel codes, step behaviours and worlds, give the same
best_config. -/
theorem optimizeKernel_best_config_default [Zero F] (steps1 steps2 : Steps σ ε F) (d0 : dim3)
    (uninit1 uninit2 : D) (kernel_name1 kernel_name2 ptx_code1 ptx_code2 : String)
    (w1 w2 : World σ (StepCall F D)) (result1 result2 : TuningResult D)
    (hret1 : (optimizeKernel steps1 d0 uninit1 kernel_name1 ptx_code1 w1).1 =
      Except.ok result1)
    (hret2 : (optimizeKernel steps2 d0 uninit2 kernel_name2 ptx_code2 w2).1 =
      Except.ok result2) :
    result1.best_config = KernelConfig.init d0 ∧
      result1.best_config.shared_memory_size = 0 ∧
      result1.best_config.parameters = [] ∧
      result1.best_config = result2.best_config := by
  obtain ⟨-, -, -, -, -, -, hcfg1⟩ := optimizeKernel_ok_inv steps1 d0 uninit1 kernel_name1
    ptx_code1 w1 _ result1 (Prod.ext hret1 rfl)
  obtain ⟨-, -, -, -, -, -, hcfg2⟩ := optimizeKernel_ok_inv steps2 d0 uninit2 kernel_name2
    ptx_code2 w2 _ result2 (Prod.ext hret2 rfl)
  refine ⟨hcfg1, ?_, ?_, by rw [hcfg1, hcfg2]⟩
  · rw [hcfg1]
    rfl
  · rw [hcfg1]
    rfl

/-- C22 at two concrete calls: different kernels, different step behaviours. -/
theorem optimizeKernel_best_config_default_witness :
    (tableResult 7).best_config = KernelConfig.init unitDim ∧
      (tableResult 7).best_config.shared_memory_size = 0 ∧
      (tableResult 7).best_config.parameters = [] ∧
      (tableResult 7).best_config = (tableResult 0).best_config :=
  optimizeKernel_best_config_default (tableSteps false) (tableSteps false) unitDim
    (7 : Int) 0 "matmul" "relu" "ld.global.f32" "st.shared.f32" start start
    (tableResult 7) (tableResult 0) rfl rfl

/-- C23.  geneticOptimization does not use its params argument: for any two
parameter lists, with the same helpers, objective, genetic parameters and
initial world (hidden state included), the two runs end in the same outcome
(the same config or the same exception), the same hidden state and the same
log of objective calls. -/
theorem geneticOptimization_ignores_params (h : Helpers σ ε F D)
    (p1 p2 : List (TuningParameter D)) (objective : ObjectiveFunction σ ε D)
    (genetic_params : GeneticParams F) (w : World σ (Call ε D)) :
    geneticOptimization h p1 objective genetic_params w =
      geneticOptimization h p2 objective genetic_params w :=
  rfl

/-- C29.  bayesianOptimization returns the default-constructed KernelConfig for
every parameter list and every objective, and makes no objective call: the log
and the hidden state are as before the call. -/
theorem bayesianOptimization_default (d0 : dim3) (params : List (TuningParameter D))
    (objective : ObjectiveFunction σ ε D) (w : World σ (Call ε D)) :
    (bayesianOptimization d0 params objective w).1 = Except.ok (KernelConfig.init d0) ∧
      (bayesianOptimization d0 params objective w).2.log = w.log ∧
      (bayesianOptimization d0 params objective w).2.state = w.state :=
  ⟨rfl, rfl, rfl⟩

end Inputs

/-! ## The objective calls of the generation loop -/

section LoopCalls

variable {σ ε F D : Type}

/-- When the fitness loop completes, the values it pushed are the values the
objective returned, call by call, for the members of the population in order. -/
theorem assessFitness_values (objective : ObjectiveFunction σ ε D) :
    ∀ (population : List (KernelConfig D)) (fitness fitness1 : List D)
      (w w1 : World σ (Call ε D)),
      assessFitness objective population fitness w = (Except.ok fitness1, w1) →
        ∃ values, fitness1 = fitness ++ values ∧ values.length = population.length ∧
          w1.log = w.log ++
            List.zipWith (fun c v => { config := c, outcome := Except.ok v }) population values
  | [], fitness, fitness1, w, w1, hrun => by
    simp only [assessFitness, Prod.mk.injEq, Except.ok.injEq] at hrun
    obtain ⟨h1, h2⟩ := hrun
    subst h1 h2
    exact ⟨[], by simp⟩
  | config :: rest, fitness, fitness1, w, w1, hrun => by
    rcases hcall : callObjective objective config w with ⟨r, w2⟩
    have hlog : w2.log = w.log ++ [{ config := config, outcome := r }] := by
      have h := callObjective_log objective config w
      rw [hcall] at h
      exact h
    cases r with
    | error e =>
      rw [assessFitness_cons_error objective config rest fitness w w2 e hcall] at hrun
      simp at hrun
    | ok v =>
      rw [assessFitness_cons_ok objective config rest fitness w w2 v hcall] at hrun
      obtain ⟨values, h1, h2, h3⟩ :=
        assessFitness_values objective rest (fitness ++ [v]) fitness1 w2 w1 hrun
      refine ⟨v :: values, ?_, ?_, ?_⟩
      · rw [h1]
        simp
      · simp [h2]
      · rw [h3, hlog]
        simp

theorem length_flatten_of_length_eq {α : Type} (P : Nat) :
    ∀ (l : List (List α)), (∀ x ∈ l, x.length = P) → l.flatten.length = P * l.length
  | [], _ => by simp
  | x :: l, hall => by
    have ih := length_flatten_of_length_eq P l (fun y hy => hall y (List.mem_cons_of_mem _ hy))
    simp only [List.flatten_cons, List.length_append, List.length_cons, ih,
      hall x (List.mem_cons_self _ _)]
    ring

/-- When the objective call on member `k` throws after the calls on the
members before it returned, the fitness loop ends there: in that exception and
in the world that call left. -/
theorem assessFitness_stops (objective : ObjectiveFunction σ ε D) :
    ∀ (population : List (KernelConfig D)) (k : Nat) (config : KernelConfig D)
      (fitness fitness1 : List D) (w wk w1 : World σ (Call ε D)) (e : ε),
      population[k]? = some config →
      assessFitness objective (population.take k) fitness w = (Except.ok fitness1, wk) →
      callObjective objective config wk = (Except.error e, w1) →
        assessFitness objective population fitness w = (Except.error e, w1)
  | [], k, config, fitness, fitness1, w, wk, w1, e, hk, _, _ => by simp at hk
  | c :: rest, 0, config, fitness, fitness1, w, wk, w1, e, hk, hpre, hcall => by
    simp only [List.getElem?_cons_zero, Option.some.injEq] at hk
    subst hk
    simp only [List.take_zero, assessFitness, Prod.mk.injEq, Except.ok.injEq] at hpre
    obtain ⟨-, h2⟩ := hpre
    subst h2
    exact assessFitness_cons_error objective c rest fitness w w1 e hcall
  | c :: rest, k + 1, config, fitness, fitness1, w, wk, w1, e, hk, hpre, hcall => by
    simp only [List.getElem?_cons_succ] at hk
    rcases hc : callObjective objective c w with ⟨r, w2⟩
    cases r with
    | error e2 =>
      rw [List.take_succ_cons, assessFitness_cons_error objective c _ fitness w w2 e2 hc] at hpre
      simp at hpre
    | ok v =>
      rw [List.take_succ_cons, assessFitness_cons_ok objective c _ fitness w w2 v hc] at hpre
      rw [assessFitness_cons_ok objective c rest fitness w w2 v hc]
      exact assessFitness_stops objective rest k config (fitness ++ [v]) fitness1 w2 wk w1 e
        hk hpre hcall

/-- A fitness loop that throws made an objective call that threw, after the
calls on the members before it returned, and ended in the world that call left. -/
theorem assessFitness_error_inv (objective : ObjectiveFunction σ ε D) :
    ∀ (population : List (KernelConfig D)) (fitness : List D) (w w1 : World σ (Call ε D))
      (e : ε),
      assessFitness objective population fitness w = (Except.error e, w1) →
        ∃ k config fitness1 wk, population[k]? = some config ∧
          assessFitness objective (population.take k) fitness w = (Except.ok fitness1, wk) ∧
          callObjective objective config wk = (Except.error e, w1)
  | [], fitness, w, w1, e, hrun => by simp [assessFitness] at hrun
  | c :: rest, fitness, w, w1, e, hrun => by
    rcases hc : callObjective objective c w with ⟨r, w2⟩
    cases r with
    | error e2 =>
      rw [assessFitness_cons_error objective c rest fitness w w2 e2 hc] at hrun
      simp only [Prod.mk.injEq, Except.error.injEq] at hrun
      obtain ⟨h1, h2⟩ := hrun
      subst h1 h2
      exact ⟨0, c, fitness, w, by simp, by simp [assessFitness], hc⟩
    | ok v =>
      rw [assessFitness_cons_ok objective c rest fitness w w2 v hc] at hrun
      obtain ⟨k, config, fitness1, wk, hk, hpre, hcall⟩ :=
        assessFitness_error_inv objective rest (fitness ++ [v]) w2 w1 e hrun
      refine ⟨k + 1, config, fitness1, wk, by simpa using hk, ?_, hcall⟩
      rw [List.take_succ_cons, assessFitness_cons_ok objective c _ fitness w w2 v hc]
      exact hpre

/-- The body of the generation loop throws exactly when one of its calls does,
and it ends in the exception and in the world that call left: no later call of
the body is made. -/
theorem generation_throws_iff (h : Helpers σ ε F D) (objective : ObjectiveFunction σ ε D)
    (genetic_params : GeneticParams F) (population : List (KernelConfig D))
    (w w1 : World σ (Call ε D)) (e : ε) :
    generation h objective genetic_params population w = (Except.error e, w1) ↔
      BodyThrows h objective genetic_params population w e w1 := by
  unfold BodyThrows
  constructor
  · intro hgen
    rcases hfit : assessFitness objective population [] w with ⟨r, wf⟩
    cases r with
    | error e2 =>
      rw [generation_error h objective genetic_params population w wf e2 hfit] at hgen
      simp only [Prod.mk.injEq, Except.error.injEq] at hgen
      obtain ⟨h1, h2⟩ := hgen
      subst h1 h2
      exact Or.inl (assessFitness_error_inv objective population [] w wf e2 hfit)
    | ok fitness =>
      refine Or.inr ⟨fitness, wf, rfl, ?_⟩
      simp only [generation, hfit] at hgen
      rcases hsel : wf.run (h.selection population fitness) with ⟨r2, ws⟩
      rw [hsel] at hgen
      cases r2 with
      | error e2 => exact Or.inl hgen
      | ok selected =>
        refine Or.inr ⟨selected, ws, rfl, ?_⟩
        simp only at hgen
        rcases hcross : ws.run (h.crossover selected genetic_params.crossover_rate) with
          ⟨r3, wc⟩
        rw [hcross] at hgen
        cases r3 with
        | error e3 => exact Or.inl hgen
        | ok offspring => exact Or.inr ⟨offspring, wc, rfl, hgen⟩
  · rintro (⟨k, config, fitness, wk, hk, hpre, hcall⟩ | ⟨fitness, wf, hfit, hrest⟩)
    · exact generation_error h objective genetic_params population w w1 e
        (assessFitness_stops objective population k config [] fitness w wk w1 e hk hpre hcall)
    · rcases hrest with hsel | ⟨selected, ws, hsel, hrest⟩
      · simp only [generation, hfit, hsel]
      · rcases hrest with hcross | ⟨offspring, wc, hcross, hmut⟩
        · simp only [generation, hfit, hsel, hcross]
        · simp only [generation, hfit, hsel, hcross, hmut]

/-- C24, as amended.  In every run of geneticOptimization that returns a config
(no objective or helper call throws), the generation loop runs exactly
num_generations generations and invokes the objective exactly once for every
member of each generation's population, in population order; the fitness list
of a generation has the population's length and holds the values the calls
returned, in order; with populations of constant size P the loop makes exactly
P * num_generations objective calls; with num_generations = 0 it makes none
and the result is findBestConfig of the initial population.  When a call
throws, the loop stops at that call: if the first m iterations complete and, in
the next one, an objective call, selection, crossover or mutation throws, then
geneticOptimization ends in that exception and in the world the throwing call
left, so that no further objective or helper call is made; and a generation
loop that throws has stopped in this way. -/
theorem geneticOptimization_loop_calls (h : Helpers σ ε F D)
    (params : List (TuningParameter D)) (objective : ObjectiveFunction σ ε D)
    (genetic_params : GeneticParams F) (w : World σ (Call ε D))
    (population : List (KernelConfig D)) (s0 : σ)
    (hinit : h.initializePopulation genetic_params.population_size w.state =
      (Except.ok population, s0)) :
    (∀ best, (geneticOptimization h params objective genetic_params w).1 = Except.ok best →
      (populationTrace h objective genetic_params genetic_params.num_generations population
          { state := s0, log := w.log }).length = genetic_params.num_generations ∧
        (geneticOptimization h params objective genetic_params w).2.log.map Call.config =
          w.log.map Call.config ++
            (populationTrace h objective genetic_params genetic_params.num_generations
              population { state := s0, log := w.log }).flatten ∧
        (∀ P, (∀ members ∈ populationTrace h objective genetic_params
              genetic_params.num_generations population { state := s0, log := w.log },
            members.length = P) →
          (geneticOptimization h params objective genetic_params w).2.log.length =
            w.log.length + P * genetic_params.num_generations) ∧
        (∀ (members : List (KernelConfig D)) (fitness : List D) (w1 w2 : World σ (Call ε D)),
          assessFitness objective members [] w1 = (Except.ok fitness, w2) →
            fitness.length = members.length ∧
              w2.log = w1.log ++
                List.zipWith (fun c v => { config := c, outcome := Except.ok v })
                  members fitness) ∧
        (genetic_params.num_generations = 0 →
          (geneticOptimization h params objective genetic_params w).2.log = w.log ∧
            geneticOptimization h params objective genetic_params w =
              World.run { state := s0, log := w.log }
                (h.findBestConfig population objective))) ∧
      (∀ (m : Nat) (mid : List (KernelConfig D)) (wm w1 : World σ (Call ε D)) (e : ε),
        m < genetic_params.num_generations →
        generationLoop h objective genetic_params m population
          { state := s0, log := w.log } = (Except.ok mid, wm) →
        BodyThrows h objective genetic_params mid wm e w1 →
          geneticOptimization h params objective genetic_params w = (Except.error e, w1)) ∧
      (∀ (e : ε) (w1 : World σ (Call ε D)),
        generationLoop h objective genetic_params genetic_params.num_generations population
          { state := s0, log := w.log } = (Except.error e, w1) →
          geneticOptimization h params objective genetic_params w = (Except.error e, w1) ∧
            ∃ (m : Nat) (mid : List (KernelConfig D)) (wm : World σ (Call ε D)),
              m < genetic_params.num_generations ∧
              generationLoop h objective genetic_params m population
                { state := s0, log := w.log } = (Except.ok mid, wm) ∧
              BodyThrows h objective genetic_params mid wm e w1) := by
  refine ⟨?_, ?_, ?_⟩
  · intro best hret
    obtain ⟨final, w1, hloop, hlog, -⟩ :=
      geneticOptimization_ok_inv h params objective genetic_params w population s0 best hinit hret
    obtain ⟨hlen, hcfg⟩ := generationLoop_trace h objective genetic_params _ _ _ _ _ hloop
    have hcalls : (geneticOptimization h params objective genetic_params w).2.log.map Call.config =
        w.log.map Call.config ++
          (populationTrace h objective genetic_params genetic_params.num_generations
            population { state := s0, log := w.log }).flatten := by
      rw [hlog, hcfg]
    refine ⟨hlen, hcalls, ?_, ?_, ?_⟩
    · intro P hP
      have h1 := congrArg List.length hcalls
      simp only [List.length_map, List.length_append] at h1
      rw [h1, length_flatten_of_length_eq P _ hP, hlen]
    · intro members fitness w1 w2 hfit
      obtain ⟨values, h1, h2, h3⟩ := assessFitness_values objective members [] fitness w1 w2 hfit
      simp only [List.nil_append] at h1
      subst h1
      exact ⟨h2, h3⟩
    · intro hzero
      rw [hzero] at hloop
      simp only [generationLoop, Prod.mk.injEq, Except.ok.injEq] at hloop
      obtain ⟨h1, h2⟩ := hloop
      subst h1 h2
      refine ⟨hlog, ?_⟩
      simp only [geneticOptimization, World.run, hinit, hzero, generationLoop]
  · intro m mid wm w1 e hm hloop hthrow
    exact (geneticOptimization_stops h params objective genetic_params w population s0 m mid wm
      w1 e hinit hm hloop
      ((generation_throws_iff h objective genetic_params mid wm w1 e).mpr hthrow)).1
  · intro e w1 hloop
    refine ⟨geneticOptimization_loop_error h params objective genetic_params w w1 population s0
      e hinit hloop, ?_⟩
    obtain ⟨m, mid, wm, hm, hpre, hgen⟩ := generationLoop_error_inv h objective genetic_params
      genetic_params.num_generations population { state := s0, log := w.log } w1 e hloop
    exact ⟨m, mid, wm, hm, hpre,
      (generation_throws_iff h objective genetic_params mid wm w1 e).mp hgen⟩

/-- C24, the amended statement at concrete runs: two generations over a
population of constant size 2 that return; the same two generations with an
objective that throws on the second member; and with a selection that throws
after the fitness loop of the first generation. -/
theorem geneticOptimization_loop_calls_witness :
    ((populationTrace (tableHelpers [cfg 16, cfg 8]) scoreObjective (geneticParams 2 2 0)
        (geneticParams 2 2 0).num_generations [cfg 16, cfg 8]
        { state := (), log := [] }).length = 2 ∧
      (geneticOptimization (tableHelpers [cfg 16, cfg 8]) [] scoreObjective
          (geneticParams 2 2 0) start).2.log.map Call.config =
        [] ++ (populationTrace (tableHelpers [cfg 16, cfg 8]) scoreObjective
          (geneticParams 2 2 0) (geneticParams 2 2 0).num_generations [cfg 16, cfg 8]
          { state := (), log := [] }).flatten ∧
      (∀ P, (∀ members ∈ populationTrace (tableHelpers [cfg 16, cfg 8]) scoreObjective
            (geneticParams 2 2 0) (geneticParams 2 2 0).num_generations [cfg 16, cfg 8]
            { state := (), log := [] },
          members.length = P) →
        (geneticOptimization (tableHelpers [cfg 16, cfg 8]) [] scoreObjective
          (geneticParams 2 2 0) start).2.log.length = 0 + P * 2) ∧
      (∀ (members : List (KernelConfig Int)) (fitness : List Int)
          (w1 w2 : World Unit (Call String Int)),
        assessFitness scoreObjective members [] w1 = (Except.ok fitness, w2) →
          fitness.length = members.length ∧
            w2.log = w1.log ++
              List.zipWith (fun c v => { config := c, outcome := Except.ok v })
                members fitness) ∧
      ((geneticParams 2 2 0).num_generations = 0 →
        (geneticOptimization (tableHelpers [cfg 16, cfg 8]) [] scoreObjective
          (geneticParams 2 2 0) start).2.log = [] ∧
          geneticOptimization (tableHelpers [cfg 16, cfg 8]) [] scoreObjective
              (geneticParams 2 2 0) start =
            World.run { state := (), log := [] }
              ((tableHelpers [cfg 16, cfg 8]).findBestConfig [cfg 16, cfg 8] scoreObjective))) ∧
      geneticOptimization (tableHelpers [cfg 16, cfg 64]) [] failingObjective
          (geneticParams 2 2 0) start =
        (Except.error "MeasurementFailure",
          { state := (),
            log := [{ config := cfg 16, outcome := Except.ok 16 },
              { config := cfg 64, outcome := Except.error "MeasurementFailure" }] }) ∧
      geneticOptimization (failingSelectionHelpers [cfg 16, cfg 8]) [] scoreObjective
          (geneticParams 2 2 0) start =
        (Except.error "SelectionFailure",
          { state := (),
            log := [{ config := cfg 16, outcome := Except.ok 16 },
              { config := cfg 8, outcome := Except.ok 8 }] }) :=
  ⟨(geneticOptimization_loop_calls (tableHelpers [cfg 16, cfg 8]) [] scoreObjective
      (geneticParams 2 2 0) start [cfg 16, cfg 8] () rfl).1 (cfg 16) rfl,
    (geneticOptimization_loop_calls (tableHelpers [cfg 16, cfg 64]) [] failingObjective
      (geneticParams 2 2 0) start [cfg 16, cfg 64] () rfl).2.1 0 [cfg 16, cfg 64] start _
      "MeasurementFailure" (by decide)
      rfl (Or.inl ⟨1, cfg 64, [16],
        { state := (), log := [{ config := cfg 16, outcome := Except.ok 16 }] },
        rfl, rfl, rfl⟩),
    (geneticOptimization_loop_calls (failingSelectionHelpers [cfg 16, cfg 8]) [] scoreObjective
      (geneticParams 2 2 0) start [cfg 16, cfg 8] () rfl).2.1 0 [cfg 16, cfg 8] start _
      "SelectionFailure" (by decide)
      rfl (Or.inr ⟨[16, 8],
        { state := (),
          log := [{ config := cfg 16, outcome := Except.ok 16 },
            { config := cfg 8, outcome := Except.ok 8 }] },
        rfl, Or.inl rfl⟩)⟩

/-- C24, refuted as stated: two generations are asked for over a population of
constant size 2, and the objective throws on the second member; the loop makes
2 objective calls, not 2 * 2, and only one generation is entered. -/
theorem geneticOptimization_fewer_calls_on_failure :
    populationTrace (tableHelpers [cfg 16, cfg 64]) failingObjective (geneticParams 2 2 0) 2
        [cfg 16, cfg 64] start = [[cfg 16, cfg 64]] ∧
      (geneticOptimization (tableHelpers [cfg 16, cfg 64]) [] failingObjective
        (geneticParams 2 2 0) start).2.log.map (fun call => (call.config, call.outcome)) =
          [(cfg 16, Except.ok 16), (cfg 64, Except.error "MeasurementFailure")] ∧
      (geneticOptimization (tableHelpers [cfg 16, cfg 64]) [] failingObjective
        (geneticParams 2 2 0) start).2.log.length = 2 ∧
      2 * (geneticParams 2 2 0).num_generations = 4 :=
  ⟨rfl, rfl, rfl, rfl⟩

end LoopCalls

/-! ## When compilePTX raises -/

section CompilerErrors

/-- The test `arch.find(lead) == 0` holds exactly when `arch` starts with `lead`. -/
theorem findAtZero_iff (arch lead : String) :
    findAtZero arch lead = true ↔ ∃ rest, arch.toList = lead.toList ++ rest := by
  simp only [findAtZero, beq_iff_eq]
  constructor
  · intro htake
    refine ⟨arch.toList.drop lead.length, ?_⟩
    rw [← htake, List.take_append_drop]
  · rintro ⟨rest, hrest⟩
    rw [hrest]
    have hlen : lead.length = lead.toList.length := rfl
    rw [hlen, List.take_left']
    rfl

theorem compilePTX_unsupported (ptxSource targetArch : String)
    (h1 : isNvidiaGPU targetArch = false) (h2 : isAMDGPU targetArch = false)
    (h3 : isIntelGPU targetArch = false) :
    compilePTX ptxSource targetArch =
      Except.error (StdException.runtime_error
        "PTX compilation failed: Unsupported target architecture") := by
  simp only [compilePTX, compilePTXBody, h1, h2, h3]
  rfl

theorem compilePTX_supported (ptxSource targetArch : String)
    (harch : isNvidiaGPU targetArch = true ∨ isAMDGPU targetArch = true ∨
      isIntelGPU targetArch = true) :
    compilePTX ptxSource targetArch = Except.ok [] := by
  unfold compilePTX compilePTXBody
  rcases harch with h1 | h2 | h3
  · simp [h1, compileWithNVPTX, readBinaryFile]
  · by_cases h1 : isNvidiaGPU targetArch = true
    · simp [h1, compileWithNVPTX, readBinaryFile]
    · simp [h1, h2, compileWithAMDGPU, readBinaryFile]
  · by_cases h1 : isNvidiaGPU targetArch = true
    · simp [h1, compileWithNVPTX, readBinaryFile]
    · by_cases h2 : isAMDGPU targetArch = true
      · simp [h1, h2, compileWithAMDGPU, readBinaryFile]
      · simp [h1, h2, h3, compileWithIntelGPU, readBinaryFile]

/-- C25.  compilePTX raises if and only if targetArch starts with none of
"sm_", "gfx" and "gen"; in that case, for every ptxSource, what it throws is a
runtime_error whose message is exactly "PTX compilation failed: Unsupported
target architecture"; for every architecture that starts with one of the
three it returns without raising, whatever the source. -/
theorem compilePTX_raises_iff_unsupported (ptxSource targetArch : String) :
    ((∃ e, compilePTX ptxSource targetArch = Except.error e) ↔
        ¬ ((∃ rest, targetArch.toList = "sm_".toList ++ rest) ∨
            (∃ rest, targetArch.toList = "gfx".toList ++ rest) ∨
            (∃ rest, targetArch.toList = "gen".toList ++ rest))) ∧
      (¬ ((∃ rest, targetArch.toList = "sm_".toList ++ rest) ∨
            (∃ rest, targetArch.toList = "gfx".toList ++ rest) ∨
            (∃ rest, targetArch.toList = "gen".toList ++ rest)) →
        compilePTX ptxSource targetArch =
          Except.error (StdException.runtime_error
            "PTX compilation failed: Unsupported target architecture")) ∧
      (((∃ rest, targetArch.toList = "sm_".toList ++ rest) ∨
            (∃ rest, targetArch.toList = "gfx".toList ++ rest) ∨
            (∃ rest, targetArch.toList = "gen".toList ++ rest)) →
        ∃ image, compilePTX ptxSource targetArch = Except.ok image) := by
  have hstarts : ((∃ rest, targetArch.toList = "sm_".toList ++ rest) ∨
      (∃ rest, targetArch.toList = "gfx".toList ++ rest) ∨
      (∃ rest, targetArch.toList = "gen".toList ++ rest)) ↔
      (isNvidiaGPU targetArch = true ∨ isAMDGPU targetArch = true ∨
        isIntelGPU targetArch = true) := by
    simp only [isNvidiaGPU, isAMDGPU, isIntelGPU, findAtZero_iff]
  have hno : ¬ (isNvidiaGPU targetArch = true ∨ isAMDGPU targetArch = true ∨
      isIntelGPU targetArch = true) →
      compilePTX ptxSource targetArch =
        Except.error (StdException.runtime_error
          "PTX compilation failed: Unsupported target architecture") := by
    intro hnone
    push_neg at hnone
    obtain ⟨h1, h2, h3⟩ := hnone
    exact compilePTX_unsupported ptxSource targetArch (by simpa using h1) (by simpa using h2)
      (by simpa using h3)
  refine ⟨?_, ?_, ?_⟩
  · rw [hstarts]
    constructor
    · rintro ⟨e, he⟩ harch
      rw [compilePTX_supported ptxSource targetArch harch] at he
      simp at he
    · intro hnone
      exact ⟨_, hno hnone⟩
  · intro hnone
    exact hno (fun harch => hnone (hstarts.mpr harch))
  · intro harch
    exact ⟨[], compilePTX_supported ptxSource targetArch (hstarts.mp harch)⟩

end CompilerErrors

/-! ## Tasks -/

section Tasks

variable {σ ε : Type}

/-- What execute does, by the outcome of the task function on the task set to
RUNNING. -/
theorem execute_cases (now : σ → Nat) (task : Task σ ε) (context : σ) :
    (∃ after context1,
        task.function_
            ({ task.state with start_time_ := now context, status_ := TaskStatus.RUNNING },
              context) = (Except.ok (), (after, context1)) ∧
          Task.execute now task context =
            (Except.ok (),
              ({ task with
                  state := { after with status_ := TaskStatus.COMPLETED,
                                         end_time_ := now context1 } }, context1))) ∨
      ∃ e after context1,
        task.function_
            ({ task.state with start_time_ := now context, status_ := TaskStatus.RUNNING },
              context) = (Except.error e, (after, context1)) ∧
          Task.execute now task context =
            (Except.error e,
              ({ task with state := { after with status_ := TaskStatus.FAILED } }, context1)) := by
  rcases hrun : task.function_
      ({ task.state with start_time_ := now context, status_ := TaskStatus.RUNNING }, context)
    with ⟨r, after, context1⟩
  cases r with
  | ok u =>
    refine Or.inl ⟨after, context1, rfl, ?_⟩
    simp only [Task.execute, hrun]
  | error e =>
    refine Or.inr ⟨e, after, context1, rfl, ?_⟩
    simp only [Task.execute, hrun]

/-- C26.  Task::execute ends in exactly one of two ways, for every task function:
the function, run on the task set to RUNNING, returns and then execute returns
with the status COMPLETED; or the function throws and then execute throws the
same exception with the status FAILED.  In neither case is the status left as
PENDING or RUNNING. -/
theorem execute_completed_or_failed (now : σ → Nat) (task : Task σ ε) (context : σ) :
    (((task.function_
          ({ task.state with start_time_ := now context, status_ := TaskStatus.RUNNING },
            context)).1 = Except.ok () ∧
        (Task.execute now task context).1 = Except.ok () ∧
        (Task.execute now task context).2.1.getStatus = TaskStatus.COMPLETED) ∨
      (∃ e,
        (task.function_
          ({ task.state with start_time_ := now context, status_ := TaskStatus.RUNNING },
            context)).1 = Except.error e ∧
        (Task.execute now task context).1 = Except.error e ∧
        (Task.execute now task context).2.1.getStatus = TaskStatus.FAILED)) ∧
      (Task.execute now task context).2.1.getStatus ≠ TaskStatus.PENDING ∧
      (Task.execute now task context).2.1.getStatus ≠ TaskStatus.RUNNING := by
  rcases execute_cases now task context with
    ⟨after, context1, hfun, hexec⟩ | ⟨e, after, context1, hfun, hexec⟩
  · rw [hexec, hfun]
    refine ⟨Or.inl ⟨rfl, rfl, rfl⟩, ?_, ?_⟩ <;> simp [Task.getStatus]
  · rw [hexec, hfun]
    refine ⟨Or.inr ⟨e, rfl, rfl, rfl⟩, ?_, ?_⟩ <;> simp [Task.getStatus]

/-- C27.  Task::cancel sets the status to CANCELLED from every prior status and
for every task kind, changing nothing else and without consulting
isCancellable: on a SynchronizationTask, whose isCancellable() returns false,
the status after cancel is CANCELLED all the same. -/
theorem cancel_sets_cancelled (task : Task σ ε) :
    (Task.cancel task).getStatus = TaskStatus.CANCELLED ∧
      (Task.cancel task).state = { task.state with status_ := TaskStatus.CANCELLED } ∧
      (Task.cancel task).isCancellable = task.isCancellable ∧
      (task.state.kind = TaskKind.SynchronizationTask →
        task.isCancellable = false ∧
          (Task.cancel task).getStatus = TaskStatus.CANCELLED) := by
  refine ⟨rfl, rfl, rfl, ?_⟩
  intro hkind
  exact ⟨by simp [Task.isCancellable, hkind], rfl⟩

/-- What `Task::execute` does on a cancelled task: it runs the task function on
the task set to RUNNING and ends as the function ends, with the status
COMPLETED when it returns and FAILED when it throws, never CANCELLED. -/
theorem execute_cancelled (now : σ → Nat) (task : Task σ ε) (context : σ) :
    (Task.execute now (Task.cancel task) context).1 =
        (task.function_
          ({ task.state with start_time_ := now context, status_ := TaskStatus.RUNNING },
            context)).1 ∧
      (((Task.execute now (Task.cancel task) context).1 = Except.ok () ∧
          (Task.execute now (Task.cancel task) context).2.1.getStatus =
            TaskStatus.COMPLETED) ∨
        (∃ e, (Task.execute now (Task.cancel task) context).1 = Except.error e ∧
          (Task.execute now (Task.cancel task) context).2.1.getStatus = TaskStatus.FAILED)) ∧
      (Task.execute now (Task.cancel task) context).2.1.getStatus ≠ TaskStatus.CANCELLED := by
  have hstate : ({ (Task.cancel task).state with
        start_time_ := now context, status_ := TaskStatus.RUNNING } : TaskState) =
      { task.state with start_time_ := now context, status_ := TaskStatus.RUNNING } := rfl
  have hfunc : (Task.cancel task).function_ = task.function_ := rfl
  rcases execute_cases now (Task.cancel task) context with
    ⟨after, context1, hfun, hexec⟩ | ⟨e, after, context1, hfun, hexec⟩
  · rw [hstate, hfunc] at hfun
    rw [hexec, hfun]
    refine ⟨rfl, Or.inl ⟨rfl, rfl⟩, ?_⟩
    simp [Task.getStatus]
  · rw [hstate, hfunc] at hfun
    rw [hexec, hfun]
    refine ⟨rfl, Or.inr ⟨e, rfl, rfl⟩, ?_⟩
    simp [Task.getStatus]

/-- The virtual call of execute on an object that is not a ComputeTask runs
`Task::execute`. -/
theorem executeVirtual_base (setDevice : Int → Eff σ ε Unit) (now : σ → Nat)
    (device_id_ : Int) (task : Task σ ε) (context : σ)
    (hkind : task.state.kind ≠ TaskKind.ComputeTask) :
    Task.executeVirtual setDevice now device_id_ task context =
      Task.execute now task context := by
  unfold Task.executeVirtual
  split
  · rename_i heq
    exact absurd heq hkind
  · rfl

/-- The virtual call of execute on a ComputeTask runs `ComputeTask::execute`. -/
theorem executeVirtual_compute (setDevice : Int → Eff σ ε Unit) (now : σ → Nat)
    (device_id_ : Int) (task : Task σ ε) (context : σ)
    (hkind : task.state.kind = TaskKind.ComputeTask) :
    Task.executeVirtual setDevice now device_id_ task context =
      ComputeTask.execute setDevice now device_id_ task context := by
  simp only [Task.executeVirtual, hkind]

/-- C28, as amended.  CANCELLED is not a terminal status of a Task whose execute
is `Task::execute`: calling execute on such a task after cancel runs the task
function (on the task set to RUNNING) and ends as the function ends, with the
status COMPLETED when it returns and FAILED when it throws, never CANCELLED.
The same holds for a ComputeTask when the call of setDevice that its execute
makes first returns.  When that call throws, execute throws the same exception
without entering `Task::execute`: the task function is not run and the status
stays CANCELLED. -/
theorem execute_after_cancel (setDevice : Int → Eff σ ε Unit) (now : σ → Nat)
    (device_id_ : Int) (task : Task σ ε) (context : σ) :
    (Task.cancel task).getStatus = TaskStatus.CANCELLED ∧
      (task.state.kind ≠ TaskKind.ComputeTask →
        (Task.executeVirtual setDevice now device_id_ (Task.cancel task) context).1 =
            (task.function_
              ({ task.state with start_time_ := now context, status_ := TaskStatus.RUNNING },
                context)).1 ∧
          (((Task.executeVirtual setDevice now device_id_ (Task.cancel task) context).1 =
                Except.ok () ∧
              (Task.executeVirtual setDevice now device_id_ (Task.cancel task)
                context).2.1.getStatus = TaskStatus.COMPLETED) ∨
            (∃ e,
              (Task.executeVirtual setDevice now device_id_ (Task.cancel task) context).1 =
                Except.error e ∧
              (Task.executeVirtual setDevice now device_id_ (Task.cancel task)
                context).2.1.getStatus = TaskStatus.FAILED)) ∧
          (Task.executeVirtual setDevice now device_id_ (Task.cancel task)
            context).2.1.getStatus ≠ TaskStatus.CANCELLED) ∧
      (task.state.kind = TaskKind.ComputeTask →
        ∀ context1, setDevice device_id_ context = (Except.ok (), context1) →
          (Task.executeVirtual setDevice now device_id_ (Task.cancel task) context).1 =
              (task.function_
                ({ task.state with
                    start_time_ := now context1, status_ := TaskStatus.RUNNING },
                  context1)).1 ∧
            (((Task.executeVirtual setDevice now device_id_ (Task.cancel task) context).1 =
                  Except.ok () ∧
                (Task.executeVirtual setDevice now device_id_ (Task.cancel task)
                  context).2.1.getStatus = TaskStatus.COMPLETED) ∨
              (∃ e,
                (Task.executeVirtual setDevice now device_id_ (Task.cancel task) context).1 =
                  Except.error e ∧
                (Task.executeVirtual setDevice now device_id_ (Task.cancel task)
                  context).2.1.getStatus = TaskStatus.FAILED)) ∧
            (Task.executeVirtual setDevice now device_id_ (Task.cancel task)
              context).2.1.getStatus ≠ TaskStatus.CANCELLED) ∧
      (task.state.kind = TaskKind.ComputeTask →
        ∀ e context1, setDevice device_id_ context = (Except.error e, context1) →
          Task.executeVirtual setDevice now device_id_ (Task.cancel task) context =
              (Except.error e, (Task.cancel task, context1)) ∧
            (Task.executeVirtual setDevice now device_id_ (Task.cancel task)
              context).2.1.getStatus = TaskStatus.CANCELLED) := by
  refine ⟨rfl, ?_, ?_, ?_⟩
  · intro hkind
    rw [executeVirtual_base setDevice now device_id_ (Task.cancel task) context hkind]
    exact execute_cancelled now task context
  · intro hkind context1 hset
    rw [executeVirtual_compute setDevice now device_id_ (Task.cancel task) context hkind]
    simp only [ComputeTask.execute, hset]
    exact execute_cancelled now task context1
  · intro hkind e context1 hset
    rw [executeVirtual_compute setDevice now device_id_ (Task.cancel task) context hkind]
    simp only [ComputeTask.execute, hset]
    exact ⟨trivial, rfl⟩

/-- C26 at a concrete task whose function throws: execute throws the same
exception, the status is FAILED, and it is neither PENDING nor RUNNING. -/
theorem execute_completed_or_failed_witness :
    (Task.execute (fun clock => clock)
        (Task.new TaskKind.ComputeTask "gemm" (tableFunction true false) TaskPriority.NORMAL)
        100).1 = Except.error "KernelFault" ∧
      (Task.execute (fun clock => clock)
        (Task.new TaskKind.ComputeTask "gemm" (tableFunction true false) TaskPriority.NORMAL)
        100).2.1.getStatus = TaskStatus.FAILED ∧
      (Task.execute (fun clock => clock)
        (Task.new TaskKind.ComputeTask "gemm" (tableFunction true false) TaskPriority.NORMAL)
        100).2.1.getStatus ≠ TaskStatus.PENDING ∧
      (Task.execute (fun clock => clock)
        (Task.new TaskKind.ComputeTask "gemm" (tableFunction true false) TaskPriority.NORMAL)
        100).2.1.getStatus ≠ TaskStatus.RUNNING :=
  ⟨rfl, rfl,
    (execute_completed_or_failed (fun clock => clock)
      (Task.new TaskKind.ComputeTask "gemm" (tableFunction true false) TaskPriority.NORMAL)
      100).2.1,
    (execute_completed_or_failed (fun clock => clock)
      (Task.new TaskKind.ComputeTask "gemm" (tableFunction true false) TaskPriority.NORMAL)
      100).2.2⟩

/-- C27 at a concrete SynchronizationTask. -/
theorem cancel_sets_cancelled_witness :
    (Task.new TaskKind.SynchronizationTask "barrier"
        (tableFunction false false : TaskFunction Nat String)
        TaskPriority.HIGH).isCancellable = false ∧
      (Task.cancel (Task.new TaskKind.SynchronizationTask "barrier"
        (tableFunction false false : TaskFunction Nat String)
        TaskPriority.HIGH)).getStatus = TaskStatus.CANCELLED :=
  (cancel_sets_cancelled (Task.new TaskKind.SynchronizationTask "barrier"
    (tableFunction false false : TaskFunction Nat String) TaskPriority.HIGH)).2.2.2 rfl

/-- C28, the amended statement at concrete tasks: a plain Task whose function
cancels the task once more while it runs ends COMPLETED after cancel and
execute; so does a ComputeTask whose setDevice returns. -/
theorem execute_after_cancel_witness :
    (Task.executeVirtual (tableSetDevice true) (fun clock => clock) 0
        (Task.cancel
          (Task.new TaskKind.Task "copy" (tableFunction false true) TaskPriority.LOW))
        100).2.1.getStatus = TaskStatus.COMPLETED ∧
      (Task.executeVirtual (tableSetDevice true) (fun clock => clock) 0
        (Task.cancel
          (Task.new TaskKind.Task "copy" (tableFunction false true) TaskPriority.LOW))
        100).2.1.getStatus ≠ TaskStatus.CANCELLED ∧
      (Task.executeVirtual (tableSetDevice false) (fun clock => clock) 3
        (Task.cancel
          (Task.new TaskKind.ComputeTask "gemm" (tableFunction false false)
            TaskPriority.NORMAL))
        100).2.1.getStatus = TaskStatus.COMPLETED ∧
      (Task.executeVirtual (tableSetDevice false) (fun clock => clock) 3
        (Task.cancel
          (Task.new TaskKind.ComputeTask "gemm" (tableFunction false false)
            TaskPriority.NORMAL))
        100).2.1.getStatus ≠ TaskStatus.CANCELLED :=
  ⟨rfl,
    ((execute_after_cancel (tableSetDevice true) (fun clock => clock) 0
      (Task.new TaskKind.Task "copy" (tableFunction false true) TaskPriority.LOW) 100).2.1
      (by decide)).2.2,
    rfl,
    ((execute_after_cancel (tableSetDevice false) (fun clock => clock) 3
      (Task.new TaskKind.ComputeTask "gemm" (tableFunction false false) TaskPriority.NORMAL)
      100).2.2.1 rfl 101 rfl).2.2⟩

/-- C28, refuted as stated: a ComputeTask is cancelled and then executed; the
call of setDevice that `ComputeTask::execute` makes first throws, so execute
throws that exception, the task function is not run (it would have added 5 to
the hidden state, which is still 100), and the status is still CANCELLED,
neither COMPLETED nor FAILED. -/
theorem execute_after_cancel_stays_cancelled :
    (Task.cancel
        (Task.new TaskKind.ComputeTask "gemm" (tableFunction false false)
          TaskPriority.NORMAL)).getStatus = TaskStatus.CANCELLED ∧
      (Task.executeVirtual (tableSetDevice true) (fun clock => clock) 3
        (Task.cancel
          (Task.new TaskKind.ComputeTask "gemm" (tableFunction false false)
            TaskPriority.NORMAL))
        100).1 = Except.error "NoSuchDevice" ∧
      (Task.executeVirtual (tableSetDevice true) (fun clock => clock) 3
        (Task.cancel
          (Task.new TaskKind.ComputeTask "gemm" (tableFunction false false)
            TaskPriority.NORMAL))
        100).2.2 = 100 ∧
      (Task.executeVirtual (tableSetDevice true) (fun clock => clock) 3
        (Task.cancel
          (Task.new TaskKind.ComputeTask "gemm" (tableFunction false false)
            TaskPriority.NORMAL))
        100).2.1.getStatus = TaskStatus.CANCELLED ∧
      (Task.executeVirtual (tableSetDevice true) (fun clock => clock) 3
        (Task.cancel
          (Task.new TaskKind.ComputeTask "gemm" (tableFunction false false)
            TaskPriority.NORMAL))
        100).2.1.getStatus ≠ TaskStatus.COMPLETED ∧
      (Task.executeVirtual (tableSetDevice true) (fun clock => clock) 3
        (Task.cancel
          (Task.new TaskKind.ComputeTask "gemm" (tableFunction false false)
            TaskPriority.NORMAL))
        100).2.1.getStatus ≠ TaskStatus.FAILED :=
  ⟨rfl, rfl, rfl, rfl, by decide, by decide⟩

end Tasks

/-! ## Device discovery -/

section Devices

variable {Device : Type}

theorem tryDetect_ok (step : DetectionStep Device) (devices : List Device)
    (hstd : ∀ description, (step devices).1 ≠ Except.error (Thrown.other description)) :
    tryDetect step devices = Except.ok (step devices).2 := by
  unfold tryDetect
  rcases hrun : step devices with ⟨r, devices1⟩
  rw [hrun] at hstd
  cases r with
  | ok u => rfl
  | error e =>
    cases e with
    | std_exception e1 => rfl
    | other description => exact absurd rfl (hstd description)

/-- C30.  DeviceManager::discoverDevices never raises and always returns the
empty device list: each of the three detection steps returns and leaves the
list as it was.  The three `try` blocks swallow what a step throws (an
exception derived from std::exception) without preventing the later steps:
whatever such steps do, every one of them is run on the list the one before
left, and the list left by the last is returned. -/
theorem discoverDevices_empty :
    (discoverDevices : Except Thrown (List Device)) = Except.ok [] ∧
      (∀ devices : List Device,
        detectNvidiaDevices devices = (Except.ok (), devices) ∧
          detectAMDDevices devices = (Except.ok (), devices) ∧
          detectIntelDevices devices = (Except.ok (), devices)) ∧
      ∀ nvidia amd intel : DetectionStep Device,
        (∀ devices description,
          (nvidia devices).1 ≠ Except.error (Thrown.other description) ∧
            (amd devices).1 ≠ Except.error (Thrown.other description) ∧
            (intel devices).1 ≠ Except.error (Thrown.other description)) →
          discoverDevicesWith nvidia amd intel =
            Except.ok (intel (amd (nvidia []).2).2).2 := by
  refine ⟨rfl, fun devices => ⟨rfl, rfl, rfl⟩, ?_⟩
  intro nvidia amd intel hstd
  unfold discoverDevicesWith
  rw [tryDetect_ok nvidia [] (fun d => (hstd [] d).1)]
  simp only
  rw [tryDetect_ok amd _ (fun d => (hstd _ d).2.1)]
  simp only
  rw [tryDetect_ok intel _ (fun d => (hstd _ d).2.2)]

/-- C30 at concrete detection steps, two of which add a device and then throw:
all three steps are run and nothing is raised. -/
theorem discoverDevices_empty_witness :
    (discoverDevices : Except Thrown (List String)) = Except.ok [] ∧
      discoverDevicesWith (faultyStep "gpu0") (findingStep "gpu1") (faultyStep "gpu2") =
        Except.ok ["gpu0", "gpu1", "gpu2"] :=
  ⟨(@discoverDevices_empty String).1,
    (@discoverDevices_empty String).2.2 (faultyStep "gpu0") (findingStep "gpu1")
      (faultyStep "gpu2")
      (fun _ _ => ⟨by simp [faultyStep], by simp [findingStep], by simp [faultyStep]⟩)⟩

end Devices

end Uta
